import Mathlib

/-!
TPBS: the Domain Store and the Session Store of the travel-booking portal

A shallow embedding of `src/contexts/DataContext.jsx` (the Domain Store), of
`src/contexts/AuthContext.jsx` (the Session Store) and of the handlers of
`src/pages/UserDashboard.jsx`, `AdminDashboard.jsx` and `Profile.jsx` that write
to the two stores.

* JavaScript values are the primitives a record field holds.  Finite numbers are
  the integers (every identity is one); `-Infinity`, `Infinity` and `NaN` are kept
  because `Math.max` produces them.  A sum is the exact sum rounded to the
  nearest double (`JSNum.ofInt`): it is exact up to `2^53` in magnitude and
  rounded to 53 significant bits beyond.  A number that is not an integer has no
  value in this model.
* A record is an object with string keys: an association list in insertion
  order, read with `Obj.get`, written with `Obj.set`, spread with `Obj.spread`
  (keys that are array indices, which JavaScript lists first, are not modelled).
* The React state `data` is the structure `Data`.  An operation that calls
  `setData(prev => ...)` is embedded as the updater it passes, a function
  `Data → Data`; `add` operations also return the record they build from the
  rendered snapshot `data`.  Sequential use applies the updater to `data` itself.
* `new Date().toISOString()` is the parameter `now`.
* The Session Store is the structure `Session`: the two React states and the
  `currentUser` entry of `localStorage`.  `JSON.stringify` is modelled on records
  of primitives and `JSON.parse` on the texts of primitives and of such records;
  on other texts the parser gives no answer (`beyond`).  An integer is written
  with all its digits and a numeral is read as the integer it denotes: that is
  what the source writes for an integer below `10^21` in magnitude, and what it
  reads when a double holds the integer (beyond `2^53` the source reads the
  nearest double, and from `10^21` it writes an exponent).
* A page handler is a function from what it reads (its arguments, the local
  state, the rendered snapshot) to the toast it shows, the local state it sets
  and the updaters it hands to the stores.
-/

set_option autoImplicit false

namespace TPBS

/-! ## Values -/

/-- JavaScript numbers: the integers and the three special values. -/
inductive JSNum where
  | nan
  | negInf
  | int (z : Int)
  | posInf
  deriving DecidableEq, Repr

/-- Primitive JavaScript values. -/
inductive JSVal where
  | undefined
  | null
  | bool (b : Bool)
  | num (n : JSNum)
  | str (s : String)
  deriving DecidableEq, Repr

/-- A non-empty run of decimal digits read as a natural number. -/
def parseDigits (cs : List Char) : Option Nat :=
  if cs ≠ [] ∧ cs.all Char.isDigit = true then
    some (cs.foldl (fun n c => 10 * n + (c.toNat - 48)) 0)
  else none

/-- The number of low bits of `n` that a 53-bit significand drops: the least `e`
with `n / 2 ^ e < 2 ^ 53`, when `e ≤ fuel`. -/
def dropBits : Nat → Nat → Nat
  | 0, _ => 0
  | fuel + 1, n => if n < 9007199254740992 then 0 else dropBits fuel (n / 2) + 1

/-- Round to nearest, ties to even: the nearest natural number with at most 53
significant bits, for `n < 2 ^ 1024`. -/
def roundNat (n : Nat) : Nat :=
  let e := dropBits 1024 n
  let q := n / 2 ^ e
  let r := n % 2 ^ e
  if 2 * r < 2 ^ e ∨ (2 * r = 2 ^ e ∧ q % 2 = 0) then q * 2 ^ e else (q + 1) * 2 ^ e

/-- The double nearest to the integer `z`, which is the value of an arithmetic
operation whose exact result is `z`: `z` itself up to `2^53` in magnitude, the
nearest number of 53 significant bits beyond, an infinity once that has more
than 1024 bits (it is then `2^1024` or more). -/
def JSNum.ofInt (z : Int) : JSNum :=
  if z.natAbs ≤ 9007199254740992 then .int z
  else if 972 ≤ dropBits 1024 (roundNat z.natAbs) then (if z < 0 then .negInf else .posInf)
  else if z < 0 then .int (-(Int.ofNat (roundNat z.natAbs)))
  else .int (Int.ofNat (roundNat z.natAbs))

/-- The white space and line terminators that StringToNumber drops around a
literal: tab, line feed, vertical tab, form feed, carriage return, the spaces of
the category Zs, the line and paragraph separators and the byte order mark. -/
def isStrWhiteSpace (c : Char) : Bool :=
  decide (c.toNat ∈ [9, 10, 11, 12, 13, 32, 160, 5760, 8232, 8233, 8239, 8287, 12288, 65279]) ||
    (decide (8192 ≤ c.toNat) && decide (c.toNat ≤ 8202))

/-- The value of a digit of a binary, octal or hexadecimal literal. -/
def digitValue (c : Char) : Option Nat :=
  if 48 ≤ c.toNat ∧ c.toNat ≤ 57 then some (c.toNat - 48)
  else if 97 ≤ c.toNat ∧ c.toNat ≤ 102 then some (c.toNat - 87)
  else if 65 ≤ c.toNat ∧ c.toNat ≤ 70 then some (c.toNat - 55)
  else none

/-- A non-empty run of digits of the radix read as a natural number. -/
def parseRadix (radix : Nat) (cs : List Char) : Option Nat :=
  if cs = [] then none
  else cs.foldl (fun acc c =>
    match acc, digitValue c with
    | some n, some d => if d < radix then some (radix * n + d) else none
    | _, _ => none) (some 0)

/-- The exponent part of a decimal literal, `e` or `E` with an optional sign and
digits; no exponent part is exponent 0. -/
def parseExponent (cs : List Char) : Option Int :=
  match cs with
  | [] => some 0
  | c :: rest =>
    if c = 'e' ∨ c = 'E' then
      match rest with
      | s :: ds =>
        if s = '-' then (parseDigits ds).map (fun n => -(Int.ofNat n))
        else if s = '+' then (parseDigits ds).map Int.ofNat
        else (parseDigits rest).map Int.ofNat
      | [] => none
    else none

/-- An unsigned decimal literal `digits`, `digits.digits`, `digits.` or `.digits`
with an optional exponent part, as a mantissa `m` and an exponent `e`: its value
is `m * 10 ^ e`. -/
def parseDecimal (cs : List Char) : Option (Nat × Nat × Int) :=
  let intPart := cs.takeWhile Char.isDigit
  let rest := cs.dropWhile Char.isDigit
  let fracPart := match rest with
    | '.' :: tl => tl.takeWhile Char.isDigit
    | _ => []
  let rest2 := match rest with
    | '.' :: tl => tl.dropWhile Char.isDigit
    | _ => rest
  if intPart = [] ∧ fracPart = [] then none
  else
    (parseExponent rest2).map (fun e =>
      ((intPart ++ fracPart).foldl (fun n c => 10 * n + (c.toNat - 48)) 0,
        (intPart ++ fracPart).length, e - Int.ofNat fracPart.length))

/-- The least `s` from `s` on, and at most `fuel` above it, with
`num * 2 ^ s / den` at least `2^52`. -/
def findScale : Nat → Nat → Nat → Nat → Nat
  | 0, s, _, _ => s
  | fuel + 1, s, num, den =>
    if 4503599627370496 ≤ num * 2 ^ s / den then s else findScale fuel (s + 1) num den

/-- The double nearest to the positive rational `num / den`, when it is an
integer or infinite; `NaN` when it is a number that is not an integer, which
`JSNum` does not hold. -/
def roundRat (num den : Nat) : JSNum :=
  let n := num / den
  let frac := num % den
  if frac = 0 then
    JSNum.ofInt (Int.ofNat n)
  else if 9007199254740992 ≤ n then
    let e := dropBits 1024 n
    let m := if 2 ^ e ≤ 2 * (n % 2 ^ e) then (n / 2 ^ e + 1) * 2 ^ e else n / 2 ^ e * 2 ^ e
    if 972 ≤ dropBits 1024 m then .posInf else .int (Int.ofNat m)
  else
    let s := if 4503599627370496 ≤ n then 0 else findScale 1073 1 num den
    let a := num * 2 ^ s
    let m := if 2 * (a % den) < den ∨ (2 * (a % den) = den ∧ a / den % 2 = 0) then a / den
      else a / den + 1
    if m % 2 ^ s = 0 then .int (Int.ofNat (m / 2 ^ s)) else .nan

/-- A number with the sign changed. -/
def JSNum.neg : JSNum → JSNum
  | .nan => .nan
  | .negInf => .posInf
  | .posInf => .negInf
  | .int z => .int (-z)

/-- The number a decimal literal of mantissa `m` with `len` digits and exponent
`e` denotes: the double nearest to `m * 10 ^ e`, or `NaN` when that double is
not an integer. -/
def decimalValue (m : Nat) (len : Nat) (e : Int) : JSNum :=
  if m = 0 then .int 0
  else if 0 ≤ e then
    (if 400 < e then .posInf else JSNum.ofInt (Int.ofNat (m * 10 ^ e.toNat)))
  else if len + 400 ≤ (-e).toNat then .int 0
  else roundRat m (10 ^ (-e).toNat)

/-- An unsigned literal: `Infinity` or a decimal literal. -/
def parseUnsigned (cs : List Char) : Option JSNum :=
  if cs = "Infinity".data then some .posInf
  else (parseDecimal cs).map (fun d => decimalValue d.1 d.2.1 d.2.2)

/-- A binary, octal or hexadecimal integer literal, which takes no sign. -/
def parseNonDecimal (cs : List Char) : Option (Option JSNum) :=
  match cs with
  | '0' :: x :: ds =>
    if x = 'x' ∨ x = 'X' then some ((parseRadix 16 ds).map (fun n => JSNum.ofInt (Int.ofNat n)))
    else if x = 'o' ∨ x = 'O' then
      some ((parseRadix 8 ds).map (fun n => JSNum.ofInt (Int.ofNat n)))
    else if x = 'b' ∨ x = 'B' then
      some ((parseRadix 2 ds).map (fun n => JSNum.ofInt (Int.ofNat n)))
    else none
  | _ => none

/-- StringToNumber.  The white space around the literal is dropped; a blank
string is `0`; the literal is `Infinity` or a decimal literal, with an optional
sign, or a binary, octal or hexadecimal integer literal; any other string is
`NaN`.  The value is the double nearest to the value of the literal.  `JSNum`
holds the integers among the finite doubles and no other: a literal whose
double is not an integer, such as `1.5`, has no value in `JSNum` and reads as
`NaN` here, which is not what the language gives. -/
def stringToNumber (s : String) : JSNum :=
  let t := ((s.data.dropWhile isStrWhiteSpace).reverse.dropWhile isStrWhiteSpace).reverse
  match t with
  | [] => .int 0
  | c :: cs =>
    if c = '-' then ((parseUnsigned cs).map JSNum.neg).getD .nan
    else if c = '+' then (parseUnsigned cs).getD .nan
    else
      match parseNonDecimal t with
      | some r => r.getD .nan
      | none => (parseUnsigned t).getD .nan

/-- ToNumber, the coercion `Math.max` applies to each argument. -/
def toNumber : JSVal → JSNum
  | .undefined => .nan
  | .null => .int 0
  | .bool true => .int 1
  | .bool false => .int 0
  | .num n => n
  | .str s => stringToNumber s

/-- The larger of two numbers; `NaN` is contagious. -/
def JSNum.max : JSNum → JSNum → JSNum
  | .nan, _ => .nan
  | _, .nan => .nan
  | .posInf, _ => .posInf
  | _, .posInf => .posInf
  | .negInf, b => b
  | a, .negInf => a
  | .int a, .int b => .int (Max.max a b)

/-- The function `Math.max(...args)`: it starts from `-Infinity`, so that is the result on no
arguments. -/
def mathMax (args : List JSVal) : JSNum :=
  args.foldl (fun acc v => JSNum.max acc (toNumber v)) .negInf

/-- Numeric `+` of doubles: the exact sum, rounded to the nearest double. -/
def JSNum.add : JSNum → JSNum → JSNum
  | .nan, _ => .nan
  | _, .nan => .nan
  | .posInf, .negInf => .nan
  | .negInf, .posInf => .nan
  | .posInf, _ => .posInf
  | _, .posInf => .posInf
  | .negInf, _ => .negInf
  | _, .negInf => .negInf
  | .int a, .int b => JSNum.ofInt (a + b)

/-- Strict equality `===` on primitives: same type and same value, and `NaN`
equals nothing. -/
def strictEq : JSVal → JSVal → Bool
  | .undefined, .undefined => true
  | .null, .null => true
  | .bool a, .bool b => a == b
  | .num .nan, .num _ => false
  | .num _, .num .nan => false
  | .num a, .num b => decide (a = b)
  | .str a, .str b => decide (a = b)
  | _, _ => false

/-- ToBoolean: the falsy values are `undefined`, `null`, `false`, `0`, `NaN`
and the empty string. -/
def truthy : JSVal → Bool
  | .undefined => false
  | .null => false
  | .bool b => b
  | .num .nan => false
  | .num (.int z) => decide (z ≠ 0)
  | .num _ => true
  | .str s => decide (s ≠ "")

/-- The operator `a || b`. -/
def jsOr (a b : JSVal) : JSVal := if truthy a then a else b

/-! ## Objects -/

/-- The properties of an object, in insertion order. -/
abbrev Props := List (String × JSVal)

/-- Property read on a property list; an absent property reads `undefined`. -/
def Props.get (o : Props) (k : String) : JSVal :=
  match o with
  | [] => .undefined
  | (k', v) :: rest => if k' = k then v else Props.get rest k

/-- Whether the property list has the key `k`. -/
def Props.has (o : Props) (k : String) : Bool :=
  match o with
  | [] => false
  | (k', _) :: rest => if k' = k then true else Props.has rest k

/-- Property definition: an existing key keeps its place and takes the new
value, a new key goes last. -/
def Props.set (o : Props) (k : String) (v : JSVal) : Props :=
  match o with
  | [] => [(k, v)]
  | (k', v') :: rest => if k' = k then (k', v) :: rest else (k', v') :: Props.set rest k v

/-- Each property of `src`, in order, is defined on `o`. -/
def Props.spread (o src : Props) : Props :=
  match src with
  | [] => o
  | (k, v) :: rest => Props.spread (Props.set o k v) rest

theorem Props.keys_set (o : Props) (k : String) (v : JSVal) :
    (Props.set o k v).map Prod.fst =
      if k ∈ o.map Prod.fst then o.map Prod.fst else o.map Prod.fst ++ [k] := by
  induction o with
  | nil => simp [Props.set]
  | cons p rest ih =>
    obtain ⟨k', v'⟩ := p
    by_cases h : k' = k
    · subst h
      simp [Props.set]
    · have h' : ¬ k = k' := fun e => h e.symm
      by_cases hm : k ∈ rest.map Prod.fst
      · simp only [Props.set, h, if_false, List.map_cons, ih, hm, if_true, List.mem_cons,
          or_true]
      · simp only [Props.set, h, if_false, List.map_cons, ih, hm, List.mem_cons, h', or_self,
          List.cons_append]

theorem Props.nodup_set (o : Props) (k : String) (v : JSVal) (h : (o.map Prod.fst).Nodup) :
    ((Props.set o k v).map Prod.fst).Nodup := by
  rw [Props.keys_set]
  split
  · exact h
  · rename_i hk
    exact List.Nodup.append h (List.nodup_singleton k) (by simpa using hk)

theorem Props.nodup_spread (o src : Props) (h : (o.map Prod.fst).Nodup) :
    ((Props.spread o src).map Prod.fst).Nodup := by
  induction src generalizing o with
  | nil => exact h
  | cons p rest ih => exact ih _ (Props.nodup_set o p.1 p.2 h)

/-- A record: an object whose keys are strings, each key held once. -/
structure Obj where
  props : Props
  nodup : (props.map Prod.fst).Nodup

instance : DecidableEq Obj := fun a b =>
  decidable_of_iff (a.props = b.props) (by cases a; cases b; simp)

instance : Repr Obj := ⟨fun o n => reprPrec o.props n⟩

/-- The empty object literal. -/
def Obj.empty : Obj := ⟨[], List.nodup_nil⟩

/-- Property read `o.k`. -/
def Obj.get (o : Obj) (k : String) : JSVal := Props.get o.props k

/-- Whether `o` has an own property `k`. -/
def Obj.has (o : Obj) (k : String) : Bool := Props.has o.props k

/-- One property definition `k: v` of an object literal, after those of `o`. -/
def Obj.set (o : Obj) (k : String) (v : JSVal) : Obj :=
  ⟨Props.set o.props k v, Props.nodup_set o.props k v o.nodup⟩

/-- The spread `...src` of an object literal, after the properties of `o`. -/
def Obj.spread (o src : Obj) : Obj :=
  ⟨Props.spread o.props src.props, Props.nodup_spread o.props src.props o.nodup⟩

/-- The object literal with the listed property definitions, in order (a
repeated key keeps its first place and its last value). -/
def Obj.ofList (l : Props) : Obj :=
  ⟨Props.spread [] l, Props.nodup_spread [] l List.nodup_nil⟩

/-! ## The Domain Store -/

/-- The state held by `DataProvider`: seven collections. -/
structure Data where
  users : List Obj
  travelPackages : List Obj
  bookings : List Obj
  payments : List Obj
  reviews : List Obj
  insurance : List Obj
  assistanceRequests : List Obj
  deriving DecidableEq, Repr

/-! ### Users -/

/-- Source `addUser(userData)`: the record built from the snapshot `data`, and the
updater handed to `setData`. -/
def addUser (now : String) (data : Data) (userData : Obj) : Obj × (Data → Data) :=
  let newUser : Obj :=
    Obj.set
      (Obj.set
        (Obj.spread
          (Obj.set Obj.empty "UserID"
            (.num (JSNum.add (mathMax (data.users.map (fun u => Obj.get u "UserID"))) (.int 1))))
          userData)
        "RegistrationDate" (.str now))
      "Approval" (jsOr (Obj.get userData "Approval") (.str "approved"))
  (newUser, fun prev => { prev with users := prev.users ++ [newUser] })

/-- Source `updateUser(userId, updates)`. -/
def updateUser (userId : JSVal) (updates : Obj) : Data → Data :=
  fun prev => { prev with
    users := prev.users.map (fun user =>
      if strictEq (Obj.get user "UserID") userId then
        Obj.spread (Obj.spread Obj.empty user) updates
      else user) }

/-- Source `deleteUser(userId)`. -/
def deleteUser (userId : JSVal) : Data → Data :=
  fun prev => { prev with
    users := prev.users.filter (fun user => !strictEq (Obj.get user "UserID") userId) }

/-! ### Travel packages -/

/-- Source `addTravelPackage(packageData)`. -/
def addTravelPackage (data : Data) (packageData : Obj) : Obj × (Data → Data) :=
  let newPackage : Obj :=
    Obj.spread
      (Obj.set Obj.empty "PackageID"
        (.num (JSNum.add (mathMax (data.travelPackages.map (fun p => Obj.get p "PackageID")))
          (.int 1))))
      packageData
  (newPackage, fun prev => { prev with travelPackages := prev.travelPackages ++ [newPackage] })

/-- Source `updateTravelPackage(packageId, updates)`. -/
def updateTravelPackage (packageId : JSVal) (updates : Obj) : Data → Data :=
  fun prev => { prev with
    travelPackages := prev.travelPackages.map (fun pkg =>
      if strictEq (Obj.get pkg "PackageID") packageId then
        Obj.spread (Obj.spread Obj.empty pkg) updates
      else pkg) }

/-- Source `deleteTravelPackage(packageId)`. -/
def deleteTravelPackage (packageId : JSVal) : Data → Data :=
  fun prev => { prev with
    travelPackages :=
      prev.travelPackages.filter (fun pkg => !strictEq (Obj.get pkg "PackageID") packageId) }

/-! ### Bookings -/

/-- Source `addBooking(bookingData)`. -/
def addBooking (data : Data) (bookingData : Obj) : Obj × (Data → Data) :=
  let newBooking : Obj :=
    Obj.spread
      (Obj.set Obj.empty "BookingID"
        (.num (JSNum.add (mathMax (data.bookings.map (fun b => Obj.get b "BookingID"))) (.int 1))))
      bookingData
  (newBooking, fun prev => { prev with bookings := prev.bookings ++ [newBooking] })

/-- Source `updateBooking(bookingId, updates)`. -/
def updateBooking (bookingId : JSVal) (updates : Obj) : Data → Data :=
  fun prev => { prev with
    bookings := prev.bookings.map (fun booking =>
      if strictEq (Obj.get booking "BookingID") bookingId then
        Obj.spread (Obj.spread Obj.empty booking) updates
      else booking) }

/-- Source `deleteBooking(bookingId)`. -/
def deleteBooking (bookingId : JSVal) : Data → Data :=
  fun prev => { prev with
    bookings := prev.bookings.filter (fun booking =>
      !strictEq (Obj.get booking "BookingID") bookingId) }

/-! ### Payments -/

/-- Source `addPayment(paymentData)`. -/
def addPayment (data : Data) (paymentData : Obj) : Obj × (Data → Data) :=
  let newPayment : Obj :=
    Obj.spread
      (Obj.set Obj.empty "PaymentID"
        (.num (JSNum.add (mathMax (data.payments.map (fun p => Obj.get p "PaymentID"))) (.int 1))))
      paymentData
  (newPayment, fun prev => { prev with payments := prev.payments ++ [newPayment] })

/-- Source `updatePayment(paymentId, updates)`. -/
def updatePayment (paymentId : JSVal) (updates : Obj) : Data → Data :=
  fun prev => { prev with
    payments := prev.payments.map (fun payment =>
      if strictEq (Obj.get payment "PaymentID") paymentId then
        Obj.spread (Obj.spread Obj.empty payment) updates
      else payment) }

/-! ### Reviews -/

/-- Source `addReview(reviewData)`. -/
def addReview (now : String) (data : Data) (reviewData : Obj) : Obj × (Data → Data) :=
  let newReview : Obj :=
    Obj.set
      (Obj.spread
        (Obj.set Obj.empty "ReviewID"
          (.num (JSNum.add (mathMax (data.reviews.map (fun r => Obj.get r "ReviewID"))) (.int 1))))
        reviewData)
      "Timestamp" (.str now)
  (newReview, fun prev => { prev with reviews := prev.reviews ++ [newReview] })

/-- Source `updateReview(reviewId, updates)`. -/
def updateReview (reviewId : JSVal) (updates : Obj) : Data → Data :=
  fun prev => { prev with
    reviews := prev.reviews.map (fun review =>
      if strictEq (Obj.get review "ReviewID") reviewId then
        Obj.spread (Obj.spread Obj.empty review) updates
      else review) }

/-- Source `deleteReview(reviewId)`. -/
def deleteReview (reviewId : JSVal) : Data → Data :=
  fun prev => { prev with
    reviews := prev.reviews.filter (fun review => !strictEq (Obj.get review "ReviewID") reviewId) }

/-! ### Assistance requests -/

/-- Source `addAssistanceRequest(requestData)`. -/
def addAssistanceRequest (now : String) (data : Data) (requestData : Obj) :
    Obj × (Data → Data) :=
  let newRequest : Obj :=
    Obj.set
      (Obj.set
        (Obj.set
          (Obj.spread
            (Obj.set Obj.empty "RequestID"
              (.num (JSNum.add
                (mathMax (data.assistanceRequests.map (fun r => Obj.get r "RequestID")))
                (.int 1))))
            requestData)
          "Status" (.str "pending"))
        "ResolutionTime" .null)
      "Timestamp" (.str now)
  (newRequest, fun prev => { prev with
    assistanceRequests := prev.assistanceRequests ++ [newRequest] })

/-- Source `updateAssistanceRequest(requestId, updates)`. -/
def updateAssistanceRequest (requestId : JSVal) (updates : Obj) : Data → Data :=
  fun prev => { prev with
    assistanceRequests := prev.assistanceRequests.map (fun request =>
      if strictEq (Obj.get request "RequestID") requestId then
        Obj.spread (Obj.spread Obj.empty request) updates
      else request) }

/-- Source `deleteAssistanceRequest(requestId)`. -/
def deleteAssistanceRequest (requestId : JSVal) : Data → Data :=
  fun prev => { prev with
    assistanceRequests := prev.assistanceRequests.filter (fun request =>
      !strictEq (Obj.get request "RequestID") requestId) }

/-! ### Read helpers -/

/-- Source `getUserById(userId)`; `find` gives the first match, `none` for `undefined`. -/
def getUserById (data : Data) (userId : JSVal) : Option Obj :=
  data.users.find? (fun user => strictEq (Obj.get user "UserID") userId)

/-- Source `getPackageById(packageId)`. -/
def getPackageById (data : Data) (packageId : JSVal) : Option Obj :=
  data.travelPackages.find? (fun pkg => strictEq (Obj.get pkg "PackageID") packageId)

/-- Source `getBookingsByUserId(userId)`. -/
def getBookingsByUserId (data : Data) (userId : JSVal) : List Obj :=
  data.bookings.filter (fun booking => strictEq (Obj.get booking "UserID") userId)

/-- Source `getPackagesByAgentId(agentId)`. -/
def getPackagesByAgentId (data : Data) (agentId : JSVal) : List Obj :=
  data.travelPackages.filter (fun pkg => strictEq (Obj.get pkg "AgentID") agentId)

/-- Source `syncUsersFromAuth(authUsers)`. -/
def syncUsersFromAuth (authUsers : List Obj) : Data → Data :=
  fun prev => { prev with users := authUsers }

/-! ## Properties of collections used to state the claims -/

/-- Whether a value is an integer number. -/
def JSVal.isInt : JSVal → Bool
  | .num (.int _) => true
  | _ => false

/-- Every record of the collection has an integer under the key `k`. -/
def IntIds (k : String) (coll : List Obj) : Prop :=
  ∀ r ∈ coll, (Obj.get r k).isInt = true

instance (k : String) (coll : List Obj) : Decidable (IntIds k coll) := by
  unfold IntIds; infer_instance

/-- Whether a value is an integer below `bound`. -/
def JSVal.intBelow (v : JSVal) (bound : Int) : Bool :=
  match v with
  | .num (.int z) => decide (z < bound)
  | _ => false

/-- Whether a value is an integer that is at least `bound`. -/
def JSVal.intAtLeast (v : JSVal) (bound : Int) : Bool :=
  match v with
  | .num (.int z) => decide (bound ≤ z)
  | _ => false

/-- The identities of the collection are integers and the largest of them is at
least `-2^53` and below `2^53`: every record has an integer below `2^53` under
`k`, and one of them has an integer that is at least `-2^53`.  On these
collections, which are not empty, the sum `max + 1` of doubles is exact. -/
def largestIdInRange (k : String) (coll : List Obj) : Bool :=
  coll.all (fun r => (Obj.get r k).intBelow 9007199254740992) &&
    coll.any (fun r => (Obj.get r k).intAtLeast (-9007199254740992))

/-- A store for examples: every collection but `insurance` holds two records,
with identities 1 and 3. -/
def sampleData : Data :=
  { users := [Obj.ofList [("UserID", .num (.int 1)), ("Name", .str "Ann")],
              Obj.ofList [("UserID", .num (.int 3)), ("Name", .str "Bob")]],
    travelPackages := [Obj.ofList [("PackageID", .num (.int 1)), ("Title", .str "Goa")],
                       Obj.ofList [("PackageID", .num (.int 3)), ("Title", .str "Bali")]],
    bookings := [Obj.ofList [("BookingID", .num (.int 1)), ("Status", .str "pending")],
                 Obj.ofList [("BookingID", .num (.int 3)), ("Status", .str "confirmed")]],
    payments := [Obj.ofList [("PaymentID", .num (.int 1)), ("Amount", .num (.int 100))],
                 Obj.ofList [("PaymentID", .num (.int 3)), ("Amount", .num (.int 250))]],
    reviews := [Obj.ofList [("ReviewID", .num (.int 1)), ("Rating", .num (.int 5))],
                Obj.ofList [("ReviewID", .num (.int 3)), ("Rating", .num (.int 4))]],
    insurance := [],
    assistanceRequests := [Obj.ofList [("RequestID", .num (.int 1)), ("Status", .str "pending")],
                           Obj.ofList [("RequestID", .num (.int 3)), ("Status", .str "completed")]] }

/-- An input record for examples; it carries no identity field. -/
def sampleInput : Obj :=
  Obj.ofList [("Name", .str "Cy"), ("Status", .str "completed"), ("Timestamp", .str "t0")]

/-- The value of `r` under `k` is one more than the largest integer a record of
`coll` has under `k`. -/
def IsMaxPlusOne (k : String) (coll : List Obj) (r : Obj) : Prop :=
  ∃ m : Int, (∃ x ∈ coll, Obj.get x k = .num (.int m)) ∧
    (∀ x ∈ coll, ∀ z : Int, Obj.get x k = .num (.int z) → z ≤ m) ∧
    Obj.get r k = .num (.int (m + 1))

/-- The store with every collection empty. -/
def emptyData : Data :=
  { users := [], travelPackages := [], bookings := [], payments := [], reviews := [],
    insurance := [], assistanceRequests := [] }

/-- The booking of the scenario: `{UserID: 1, PackageID: 5, StartDate: "2024-01-01",
EndDate: "2024-01-05", Status: "pending", PaymentID: null}`. -/
def scenarioBooking : Obj :=
  Obj.ofList [("UserID", .num (.int 1)), ("PackageID", .num (.int 5)),
    ("StartDate", .str "2024-01-01"), ("EndDate", .str "2024-01-05"),
    ("Status", .str "pending"), ("PaymentID", .null)]

/-- An input record that brings an identity of its own for every kind, the one
the first record of `sampleData` already has. -/
def clashingInput : Obj :=
  Obj.ofList [("UserID", .num (.int 1)), ("PackageID", .num (.int 1)),
    ("BookingID", .num (.int 1)), ("Name", .str "Zed"), ("Title", .str "Rome")]

/-- An input record that brings an identity of its own for every kind, one that
no record of `sampleData` has. -/
def freshIdInput : Obj :=
  Obj.ofList [("UserID", .num (.int 7)), ("PackageID", .num (.int 7)),
    ("BookingID", .num (.int 7)), ("PaymentID", .num (.int 7)), ("ReviewID", .num (.int 7)),
    ("RequestID", .num (.int 7)), ("Name", .str "Kim")]

/-- A store in which every collection but `insurance` holds one record, whose
identity is `2^53`. -/
def largeIdData : Data :=
  { users := [Obj.ofList [("UserID", .num (.int 9007199254740992)), ("Name", .str "Ann")]],
    travelPackages :=
      [Obj.ofList [("PackageID", .num (.int 9007199254740992)), ("Title", .str "Goa")]],
    bookings :=
      [Obj.ofList [("BookingID", .num (.int 9007199254740992)), ("Status", .str "pending")]],
    payments :=
      [Obj.ofList [("PaymentID", .num (.int 9007199254740992)), ("Amount", .num (.int 100))]],
    reviews := [Obj.ofList [("ReviewID", .num (.int 9007199254740992)), ("Rating", .num (.int 5))]],
    insurance := [],
    assistanceRequests :=
      [Obj.ofList [("RequestID", .num (.int 9007199254740992)), ("Status", .str "pending")]] }

/-- The identities of a collection are pairwise distinct under `===`. -/
def UniqueIds (k : String) (coll : List Obj) : Prop :=
  coll.Pairwise (fun a b => strictEq (Obj.get a k) (Obj.get b k) = false)

instance (k : String) (coll : List Obj) : Decidable (UniqueIds k coll) := by
  unfold UniqueIds; infer_instance

/-- The identity of `r` is new to `coll`: it is `===` to itself, which leaves out
`NaN`, and to the identity of no record of `coll`. -/
def NewIdentity (k : String) (coll : List Obj) (r : Obj) : Prop :=
  strictEq (Obj.get r k) (Obj.get r k) = true ∧
    ∀ x ∈ coll, strictEq (Obj.get x k) (Obj.get r k) = false

instance (k : String) (coll : List Obj) (r : Obj) : Decidable (NewIdentity k coll r) := by
  unfold NewIdentity; infer_instance

/-- The collection `after` is `before` with the one record `r` appended: one longer, every prior
position unchanged, `r` last. -/
def AppendsOne (before after : List Obj) (r : Obj) : Prop :=
  after = before ++ [r] ∧ after.length = before.length + 1 ∧
    (∀ i, i < before.length → after[i]? = before[i]?) ∧ after[before.length]? = some r

/-- An input record that supplies the fields the `add` operations generate. -/
def generatedFieldsInput : Obj :=
  Obj.ofList [("IssueDescription", .str "lost bag"), ("Status", .str "completed"),
    ("ResolutionTime", .str "2024-02-01"), ("Timestamp", .str "2020-01-01"),
    ("RegistrationDate", .str "2019-05-05")]

/-- In `after` the record at position `i`, which was `r`, has `field` equal to
`v` and its other fields as before; the other positions, the length and the
order are as in `before`. -/
def FieldUpdatedAt (before after : List Obj) (i : Nat) (r : Obj) (field : String)
    (v : JSVal) : Prop :=
  after = before.set i (Obj.set r field v) ∧ after.length = before.length ∧
    (∃ r', after[i]? = some r' ∧ Obj.get r' field = v ∧
      ∀ k, k ≠ field → Obj.get r' k = Obj.get r k) ∧
    ∀ j, j ≠ i → after[j]? = before[j]?

/-- The collection `after` is `before` without its position `i`, one shorter, and no
record left in it has identity `id`. -/
def RemovedAt (k : String) (id : JSVal) (before after : List Obj) (i : Nat) : Prop :=
  after = before.eraseIdx i ∧ after.length + 1 = before.length ∧
    ∀ x ∈ after, strictEq (Obj.get x k) id = false

/-- The sample store after `addUser(clashingInput)` and `addBooking(clashingInput)`:
two users have `UserID` 1 and two bookings have `BookingID` 1. -/
def clashedData : Data :=
  (addBooking sampleData clashingInput).2 ((addUser "now" sampleData clashingInput).2 sampleData)

/-! ## Sequential use of the store -/

/-- One call of an `add`, `update` or `delete` operation of the Domain Store. -/
inductive Op where
  | addUser (now : String) (userData : Obj)
  | updateUser (userId : JSVal) (updates : Obj)
  | deleteUser (userId : JSVal)
  | addTravelPackage (packageData : Obj)
  | updateTravelPackage (packageId : JSVal) (updates : Obj)
  | deleteTravelPackage (packageId : JSVal)
  | addBooking (bookingData : Obj)
  | updateBooking (bookingId : JSVal) (updates : Obj)
  | deleteBooking (bookingId : JSVal)
  | addPayment (paymentData : Obj)
  | updatePayment (paymentId : JSVal) (updates : Obj)
  | addReview (now : String) (reviewData : Obj)
  | updateReview (reviewId : JSVal) (updates : Obj)
  | deleteReview (reviewId : JSVal)
  | addAssistanceRequest (now : String) (requestData : Obj)
  | updateAssistanceRequest (requestId : JSVal) (updates : Obj)
  | deleteAssistanceRequest (requestId : JSVal)

/-- A call applied to the latest published state `s`: an `add` reads `s` as its
snapshot and its updater runs on `s`. -/
def Op.apply (op : Op) (s : Data) : Data :=
  match op with
  | .addUser now userData => (TPBS.addUser now s userData).2 s
  | .updateUser userId updates => TPBS.updateUser userId updates s
  | .deleteUser userId => TPBS.deleteUser userId s
  | .addTravelPackage packageData => (TPBS.addTravelPackage s packageData).2 s
  | .updateTravelPackage packageId updates => TPBS.updateTravelPackage packageId updates s
  | .deleteTravelPackage packageId => TPBS.deleteTravelPackage packageId s
  | .addBooking bookingData => (TPBS.addBooking s bookingData).2 s
  | .updateBooking bookingId updates => TPBS.updateBooking bookingId updates s
  | .deleteBooking bookingId => TPBS.deleteBooking bookingId s
  | .addPayment paymentData => (TPBS.addPayment s paymentData).2 s
  | .updatePayment paymentId updates => TPBS.updatePayment paymentId updates s
  | .addReview now reviewData => (TPBS.addReview now s reviewData).2 s
  | .updateReview reviewId updates => TPBS.updateReview reviewId updates s
  | .deleteReview reviewId => TPBS.deleteReview reviewId s
  | .addAssistanceRequest now requestData => (TPBS.addAssistanceRequest now s requestData).2 s
  | .updateAssistanceRequest requestId updates =>
    TPBS.updateAssistanceRequest requestId updates s
  | .deleteAssistanceRequest requestId => TPBS.deleteAssistanceRequest requestId s

/-- A finite sequence of calls, each applied to the state the previous one
published. -/
def runOps (ops : List Op) (s : Data) : Data :=
  match ops with
  | [] => s
  | op :: rest => runOps rest (op.apply s)

/-- The value `v` is an integer that no record of `coll` has as its identity. -/
def freshId (k : String) (coll : List Obj) (v : JSVal) : Bool :=
  v.isInt && coll.all (fun x => !strictEq (Obj.get x k) v)

/-- The identity an `add` on `coll` gives to the record it builds from `input`: the
input's own field `k` if it has one, since the input is spread after the
generated identity, and `Math.max(...identities) + 1` if not. -/
def addIdentity (k : String) (coll : List Obj) (input : Obj) : JSVal :=
  if Obj.has input k then Obj.get input k
  else .num (JSNum.add (mathMax (coll.map (fun x => Obj.get x k))) (.int 1))

/-- An `add` on `coll` that does not repeat an identity: the identity it gives,
the caller's or the store's `max + 1`, is an integer that no record has. -/
def addKeepsDistinct (k : String) (coll : List Obj) (input : Obj) : Bool :=
  freshId k coll (addIdentity k coll input)

/-- An `update(id, updates)` on `coll` that does not repeat an identity:
`updates` has no field `k`, or its field `k` is `id` itself, or it is an integer
that no record has, or no record has the identity `id`. -/
def updateKeepsDistinct (k : String) (coll : List Obj) (id : JSVal) (updates : Obj) : Bool :=
  !Obj.has updates k || strictEq (Obj.get updates k) id ||
    freshId k coll (Obj.get updates k) || coll.all (fun x => !strictEq (Obj.get x k) id)

/-- The call does not repeat an identity, in the state `s` it is applied to. -/
def Op.keepsDistinct (op : Op) (s : Data) : Bool :=
  match op with
  | .addUser _ userData => addKeepsDistinct "UserID" s.users userData
  | .updateUser userId updates => updateKeepsDistinct "UserID" s.users userId updates
  | .deleteUser _ => true
  | .addTravelPackage packageData => addKeepsDistinct "PackageID" s.travelPackages packageData
  | .updateTravelPackage packageId updates =>
    updateKeepsDistinct "PackageID" s.travelPackages packageId updates
  | .deleteTravelPackage _ => true
  | .addBooking bookingData => addKeepsDistinct "BookingID" s.bookings bookingData
  | .updateBooking bookingId updates => updateKeepsDistinct "BookingID" s.bookings bookingId updates
  | .deleteBooking _ => true
  | .addPayment paymentData => addKeepsDistinct "PaymentID" s.payments paymentData
  | .updatePayment paymentId updates => updateKeepsDistinct "PaymentID" s.payments paymentId updates
  | .addReview _ reviewData => addKeepsDistinct "ReviewID" s.reviews reviewData
  | .updateReview reviewId updates => updateKeepsDistinct "ReviewID" s.reviews reviewId updates
  | .deleteReview _ => true
  | .addAssistanceRequest _ requestData =>
    addKeepsDistinct "RequestID" s.assistanceRequests requestData
  | .updateAssistanceRequest requestId updates =>
    updateKeepsDistinct "RequestID" s.assistanceRequests requestId updates
  | .deleteAssistanceRequest _ => true

/-- Every call of the sequence is one that does not repeat an identity, in the
state it is applied to. -/
def allKeepDistinct (ops : List Op) (s : Data) : Bool :=
  match ops with
  | [] => true
  | op :: rest => op.keepsDistinct s && allKeepDistinct rest (op.apply s)

/-- A run over the sample store: adds with and without an identity in the input,
updates that leave the identity, that repeat it, that set a new one and that
match no record, and deletes. -/
def sampleOps : List Op :=
  [Op.addUser "now" sampleInput, Op.addBooking scenarioBooking,
   Op.updateUser (.num (.int 4)) (Obj.ofList [("UserID", .num (.int 4)), ("Name", .str "Di")]),
   Op.deleteBooking (.num (.int 1)), Op.addUser "now" freshIdInput,
   Op.updateBooking (.num (.int 3)) (Obj.ofList [("BookingID", .num (.int 9))]),
   Op.addBooking scenarioBooking,
   Op.updateBooking (.num (.int 10)) (Obj.ofList [("Status", .str "confirmed")]),
   Op.updateReview (.num (.int 99)) (Obj.ofList [("ReviewID", .num (.int 1))]),
   Op.deleteReview (.num (.int 7)), Op.addUser "later" sampleInput,
   Op.addAssistanceRequest "now" generatedFieldsInput]

/-- The identities of the collection are integers and pairwise distinct. -/
def DistinctIntIds (k : String) (coll : List Obj) : Prop :=
  IntIds k coll ∧ UniqueIds k coll

instance (k : String) (coll : List Obj) : Decidable (DistinctIntIds k coll) := by
  unfold DistinctIntIds; infer_instance

/-- In each of the six collections with an identity, the identities are integers
and pairwise distinct. -/
def DistinctIds (s : Data) : Prop :=
  DistinctIntIds "UserID" s.users ∧ DistinctIntIds "PackageID" s.travelPackages ∧
    DistinctIntIds "BookingID" s.bookings ∧ DistinctIntIds "PaymentID" s.payments ∧
    DistinctIntIds "ReviewID" s.reviews ∧ DistinctIntIds "RequestID" s.assistanceRequests

instance (s : Data) : Decidable (DistinctIds s) := by
  unfold DistinctIds; infer_instance

/-! ## JSON text

`JSON.stringify` on a record of primitive values, and `JSON.parse` on the texts
of primitives and of such records.  Characters are compared by code point. -/

/-- The decimal digit of value `d`. -/
def digitChar (d : Nat) : Char := Char.ofNat (48 + d)

/-- The decimal digits of `n`, most significant first, at most `fuel` of them. -/
def natDigits : Nat → Nat → List Char
  | 0, _ => []
  | fuel + 1, n =>
    if n < 10 then [digitChar n] else natDigits fuel (n / 10) ++ [digitChar (n % 10)]

/-- The decimal numeral of a natural number. -/
def natRepr (n : Nat) : List Char := natDigits (n + 1) n

/-- Number to string on an integer: decimal digits after an optional minus sign.
This is what the source writes for an integer below `10^21` in magnitude; from
there on it writes an exponent, which is not modelled. -/
def intRepr : Int → List Char
  | .ofNat n => natRepr n
  | .negSucc n => Char.ofNat 45 :: natRepr (n + 1)

/-- The lower-case hexadecimal digit of value `d`. -/
def hexDigit (d : Nat) : Char := if d < 10 then Char.ofNat (48 + d) else Char.ofNat (87 + d)

/-- QuoteJSONString on one character: the quotation mark (34) and the backslash
(92) are escaped, the control characters below 32 are written with their short
escape or as a `u00xx` escape, every other character stands for itself. -/
def quoteChar (c : Char) : List Char :=
  if c.toNat = 34 then [Char.ofNat 92, Char.ofNat 34]
  else if c.toNat = 92 then [Char.ofNat 92, Char.ofNat 92]
  else if c.toNat = 8 then [Char.ofNat 92, 'b']
  else if c.toNat = 12 then [Char.ofNat 92, 'f']
  else if c.toNat = 10 then [Char.ofNat 92, 'n']
  else if c.toNat = 13 then [Char.ofNat 92, 'r']
  else if c.toNat = 9 then [Char.ofNat 92, 't']
  else if c.toNat < 32 then
    [Char.ofNat 92, 'u', '0', '0', hexDigit (c.toNat / 16), hexDigit (c.toNat % 16)]
  else [c]

/-- The characters of a string with each one quoted. -/
def quoteChars : List Char → List Char
  | [] => []
  | c :: cs => quoteChar c ++ quoteChars cs

/-- QuoteJSONString: the quoted characters between quotation marks. -/
def quoteJSON (s : String) : List Char :=
  Char.ofNat 34 :: (quoteChars s.data ++ [Char.ofNat 34])

/-- SerializeJSONProperty on a primitive: `none` for `undefined`, whose property
is left out; a number that is not finite is written `null`. -/
def jsonValue : JSVal → Option (List Char)
  | .undefined => none
  | .null => some ['n', 'u', 'l', 'l']
  | .bool true => some ['t', 'r', 'u', 'e']
  | .bool false => some ['f', 'a', 'l', 's', 'e']
  | .num (.int z) => some (intRepr z)
  | .num _ => some ['n', 'u', 'l', 'l']
  | .str s => some (quoteJSON s)

/-- The members `"key":value` of an object, in property order, separated by
commas. -/
def jsonMembers : Props → List Char
  | [] => []
  | (k, v) :: rest =>
    match jsonValue v with
    | none => jsonMembers rest
    | some t =>
      match jsonMembers rest with
      | [] => quoteJSON k ++ Char.ofNat 58 :: t
      | more => quoteJSON k ++ Char.ofNat 58 :: t ++ Char.ofNat 44 :: more

/-- The text `JSON.stringify(o)` of a record. -/
def jsonStringify (o : Obj) : String :=
  String.mk (Char.ofNat 123 :: (jsonMembers o.props ++ [Char.ofNat 125]))

/-- What a parser gives on a text: a value and the text left after it, a syntax
error, or no answer, when the text leaves the fragment of JSON read here (arrays,
objects inside objects, fractions, exponents, surrogate escapes). -/
inductive Parsed (α : Type) where
  | ok (a : α) (rest : List Char)
  | error
  | beyond
  deriving DecidableEq, Repr

/-- JSON white space: space, tab, line feed, carriage return. -/
def isJsonSpace (c : Char) : Bool :=
  decide (c.toNat = 32 ∨ c.toNat = 9 ∨ c.toNat = 10 ∨ c.toNat = 13)

/-- The text after its leading white space. -/
def skipWs : List Char → List Char
  | [] => []
  | c :: cs => if isJsonSpace c then skipWs cs else c :: cs

/-- The value of a hexadecimal digit, in either case. -/
def hexVal (c : Char) : Option Nat :=
  if 48 ≤ c.toNat ∧ c.toNat ≤ 57 then some (c.toNat - 48)
  else if 97 ≤ c.toNat ∧ c.toNat ≤ 102 then some (c.toNat - 87)
  else if 65 ≤ c.toNat ∧ c.toNat ≤ 70 then some (c.toNat - 55)
  else none

/-- The character a one-letter escape stands for. -/
def unescape (e : Char) : Option Char :=
  if e.toNat = 34 then some (Char.ofNat 34)
  else if e.toNat = 92 then some (Char.ofNat 92)
  else if e.toNat = 47 then some (Char.ofNat 47)
  else if e.toNat = 98 then some (Char.ofNat 8)
  else if e.toNat = 102 then some (Char.ofNat 12)
  else if e.toNat = 110 then some (Char.ofNat 10)
  else if e.toNat = 114 then some (Char.ofNat 13)
  else if e.toNat = 116 then some (Char.ofNat 9)
  else none

/-- One more character in front of a parsed string. -/
def Parsed.consChar (c : Char) : Parsed (List Char) → Parsed (List Char)
  | .ok s rest => .ok (c :: s) rest
  | .error => .error
  | .beyond => .beyond

/-- Where the reader of a JSON string stands: among plain characters, right
after a backslash, or inside a `u` escape with `left` hexadecimal digits to read
and the value `acc` of those read. -/
inductive StrMode where
  | plain
  | escape
  | hex (left : Nat) (acc : Nat)
  deriving DecidableEq, Repr

/-- The characters of a JSON string, read one at a time up to the closing
quotation mark.  A raw control character, an unknown escape, a digit that is not
hexadecimal in a `u` escape and the end of the text are syntax errors; an escape
in the surrogate range is outside the fragment. -/
def parseStringAux : StrMode → List Char → Parsed (List Char)
  | _, [] => .error
  | .plain, c :: rest =>
    if c.toNat = 34 then .ok [] rest
    else if c.toNat = 92 then parseStringAux .escape rest
    else if c.toNat < 32 then .error
    else Parsed.consChar c (parseStringAux .plain rest)
  | .escape, e :: rest =>
    if e.toNat = 117 then parseStringAux (.hex 4 0) rest
    else
      match unescape e with
      | some ch => Parsed.consChar ch (parseStringAux .plain rest)
      | none => .error
  | .hex 0 _, _ :: _ => .error
  | .hex (left + 1) acc, h :: rest =>
    match hexVal h with
    | none => .error
    | some x =>
      if left = 0 then
        if 55296 ≤ 16 * acc + x ∧ 16 * acc + x ≤ 57343 then .beyond
        else Parsed.consChar (Char.ofNat (16 * acc + x)) (parseStringAux .plain rest)
      else parseStringAux (.hex left (16 * acc + x)) rest

/-- The characters of a JSON string, read after its opening quotation mark. -/
def parseStringBody (cs : List Char) : Parsed (List Char) := parseStringAux .plain cs

/-- The longest run of decimal digits at the head of the text, and the text
after it. -/
def takeDigits : List Char → List Char × List Char
  | [] => ([], [])
  | c :: cs => if c.isDigit then (c :: (takeDigits cs).1, (takeDigits cs).2) else ([], c :: cs)

/-- An unsigned JSON integer: digits without a leading zero.  A fraction or an
exponent after the digits is outside the fragment.  The numeral is read as the
integer it denotes, which is what the source reads when a double holds that
integer; beyond `2^53` the source reads the nearest double. -/
def parseNat (cs : List Char) : Parsed Nat :=
  match parseDigits (takeDigits cs).1 with
  | none => .error
  | some n =>
    if 1 < (takeDigits cs).1.length ∧ (takeDigits cs).1.head? = some '0' then .error
    else
      match (takeDigits cs).2 with
      | [] => .ok n []
      | c :: rest =>
        if c.toNat = 46 ∨ c.toNat = 101 ∨ c.toNat = 69 then .beyond else .ok n (c :: rest)

/-- A JSON value that is a primitive: a string, an integer, `null`, `true` or
`false`.  An object or an array here is outside the fragment. -/
def parsePrim (cs : List Char) : Parsed JSVal :=
  match cs with
  | [] => .error
  | c :: rest =>
    if c.toNat = 34 then
      match parseStringBody rest with
      | .ok s r => .ok (.str (String.mk s)) r
      | .error => .error
      | .beyond => .beyond
    else if c.toNat = 45 then
      match parseNat rest with
      | .ok n r => .ok (.num (.int (-(Int.ofNat n)))) r
      | .error => .error
      | .beyond => .beyond
    else if c.isDigit then
      match parseNat (c :: rest) with
      | .ok n r => .ok (.num (.int (Int.ofNat n))) r
      | .error => .error
      | .beyond => .beyond
    else if (c :: rest).take 4 = ['n', 'u', 'l', 'l'] then .ok .null ((c :: rest).drop 4)
    else if (c :: rest).take 4 = ['t', 'r', 'u', 'e'] then .ok (.bool true) ((c :: rest).drop 4)
    else if (c :: rest).take 5 = ['f', 'a', 'l', 's', 'e'] then
      .ok (.bool false) ((c :: rest).drop 5)
    else if c.toNat = 123 ∨ c.toNat = 91 then .beyond
    else .error

/-- The members of an object, read where a key is due, up to the closing brace;
`acc` holds the members read so far and `fuel` bounds how many more are read. -/
def parseMembers : Nat → List Char → Props → Parsed Props
  | 0, _, _ => .beyond
  | fuel + 1, cs, acc =>
    match skipWs cs with
    | [] => .error
    | q :: rest =>
      if q.toNat = 34 then
        match parseStringBody rest with
        | .error => .error
        | .beyond => .beyond
        | .ok key rest1 =>
          match skipWs rest1 with
          | [] => .error
          | colon :: rest2 =>
            if colon.toNat = 58 then
              match parsePrim (skipWs rest2) with
              | .error => .error
              | .beyond => .beyond
              | .ok v rest3 =>
                match skipWs rest3 with
                | [] => .error
                | d :: rest4 =>
                  if d.toNat = 44 then parseMembers fuel rest4 (acc ++ [(String.mk key, v)])
                  else if d.toNat = 125 then .ok (acc ++ [(String.mk key, v)]) rest4
                  else .error
            else .error
      else .error

/-- The members of an object, read after its opening brace. -/
def parseObjectBody (cs : List Char) : Parsed Props :=
  match skipWs cs with
  | [] => .error
  | c :: rest => if c.toNat = 125 then .ok [] rest else parseMembers cs.length (c :: rest) []

/-- What `currentUser` can hold: `null` or another primitive, or a record. -/
inductive Principal where
  | prim (v : JSVal)
  | record (o : Obj)
  deriving DecidableEq, Repr

/-- What `JSON.parse` does on a text: it returns a value, raises `SyntaxError`, or
is not answered here. -/
inductive JsonResult where
  | value (p : Principal)
  | syntaxError
  | beyond
  deriving DecidableEq, Repr

/-- The function `JSON.parse` on the text of a primitive or of a record of
primitives: one value between optional white space, to the end of the text.  A
repeated key keeps its first place and its last value. -/
def jsonParse (s : String) : JsonResult :=
  match skipWs s.data with
  | [] => .syntaxError
  | c :: rest =>
    if c.toNat = 123 then
      match parseObjectBody rest with
      | .ok ps r => if skipWs r = [] then .value (.record (Obj.ofList ps)) else .syntaxError
      | .error => .syntaxError
      | .beyond => .beyond
    else
      match parsePrim (c :: rest) with
      | .ok v r => if skipWs r = [] then .value (.prim v) else .syntaxError
      | .error => .syntaxError
      | .beyond => .beyond

/-- A value `JSON.stringify` writes and `JSON.parse` reads back as itself: a
string, an integer, a boolean or `null`. -/
def jsonFlat : JSVal → Bool
  | .null => true
  | .bool _ => true
  | .num (.int _) => true
  | .str _ => true
  | _ => false

/-- Every field of the record is a string, an integer, a boolean or `null`. -/
def FlatRecord (o : Obj) : Prop := ∀ p ∈ o.props, jsonFlat p.2 = true

instance (o : Obj) : Decidable (FlatRecord o) := by
  unfold FlatRecord; infer_instance

/-! ## The Session Store -/

/-- The state of `AuthProvider` together with the `currentUser` entry of
`localStorage` (`none` when the key is absent). -/
structure Session where
  currentUser : Principal
  isAuthenticated : Bool
  storage : Option String
  deriving DecidableEq, Repr

/-- The object `login` returns: `{ success: true, user }` or
`{ success: false, message }`. -/
inductive LoginResult where
  | success (user : Obj)
  | failure (message : String)
  deriving DecidableEq, Repr

/-- Source `login(email, password, allUsers)`, from the session state `s`. -/
def Auth.login (email password : JSVal) (allUsers : List Obj) (s : Session) :
    LoginResult × Session :=
  match allUsers.find? (fun u =>
      strictEq (Obj.get u "Email") email && strictEq (Obj.get u "Password") password) with
  | some user =>
    (.success user,
      { currentUser := .record user, isAuthenticated := true,
        storage := some (jsonStringify user) })
  | none => (.failure "Invalid email or password", s)

/-- Source `logout()`. -/
def Auth.logout (_s : Session) : Session :=
  { currentUser := .prim .null, isAuthenticated := false, storage := none }

/-- Source `updateUser(updatedUser)` of the Session Store. -/
def Auth.updateUser (updatedUser : Obj) (s : Session) : Session :=
  { currentUser := .record updatedUser, isAuthenticated := s.isAuthenticated,
    storage := some (jsonStringify updatedUser) }

/-- How the restore effect of `AuthProvider` ends: it completes in a state, it
raises (the `SyntaxError` of `JSON.parse`), or the stored text is outside the
fragment of JSON read here. -/
inductive RestoreResult where
  | completed (s : Session)
  | raised
  | beyond
  deriving DecidableEq, Repr

/-- The effect `AuthProvider` runs once on mount, from the state `s`: it reads the
stored entry and, when that is a non-empty string, parses it and signs in the
value. -/
def Auth.restore (s : Session) : RestoreResult :=
  match s.storage with
  | none => .completed s
  | some savedUser =>
    if savedUser = "" then .completed s
    else
      match jsonParse savedUser with
      | .value user =>
        .completed { currentUser := user, isAuthenticated := true, storage := s.storage }
      | .syntaxError => .raised
      | .beyond => .beyond

/-- Initialization of the Session Store over a stored entry: the state of
`useState(null)` and `useState(false)`, then the restore effect. -/
def Auth.initialize (stored : Option String) : RestoreResult :=
  Auth.restore { currentUser := .prim .null, isAuthenticated := false, storage := stored }

/-- The pool of the login scenario:
`[{UserID: 1, Email: "a@x.com", Password: "pw", Role: "customer"}]`. -/
def scenarioPool : List Obj :=
  [Obj.ofList [("UserID", .num (.int 1)), ("Email", .str "a@x.com"), ("Password", .str "pw"),
    ("Role", .str "customer")]]

/-- The anonymous session with no stored entry. -/
def anonymousSession : Session :=
  { currentUser := .prim .null, isAuthenticated := false, storage := none }

/-! ## Calls of the Domain Store with a rendered snapshot -/

/-- The seven collections of the store. -/
inductive Kind where
  | users
  | travelPackages
  | bookings
  | payments
  | reviews
  | insurance
  | assistanceRequests
  deriving DecidableEq, Repr

/-- The collection of a kind in a state. -/
def Data.coll (s : Data) : Kind → List Obj
  | .users => s.users
  | .travelPackages => s.travelPackages
  | .bookings => s.bookings
  | .payments => s.payments
  | .reviews => s.reviews
  | .insurance => s.insurance
  | .assistanceRequests => s.assistanceRequests

/-- The collection an operation writes. -/
def Op.target : Op → Kind
  | .addUser _ _ => .users
  | .updateUser _ _ => .users
  | .deleteUser _ => .users
  | .addTravelPackage _ => .travelPackages
  | .updateTravelPackage _ _ => .travelPackages
  | .deleteTravelPackage _ => .travelPackages
  | .addBooking _ => .bookings
  | .updateBooking _ _ => .bookings
  | .deleteBooking _ => .bookings
  | .addPayment _ => .payments
  | .updatePayment _ _ => .payments
  | .addReview _ _ => .reviews
  | .updateReview _ _ => .reviews
  | .deleteReview _ => .reviews
  | .addAssistanceRequest _ _ => .assistanceRequests
  | .updateAssistanceRequest _ _ => .assistanceRequests
  | .deleteAssistanceRequest _ => .assistanceRequests

/-- The updater a call hands to `setData`, when the closure of the operation
holds the rendered snapshot `data`.  React runs the updaters of one turn in call
order, each on the state the previous one gave. -/
def Op.updater (op : Op) (data : Data) : Data → Data :=
  match op with
  | .addUser now userData => (TPBS.addUser now data userData).2
  | .updateUser userId updates => TPBS.updateUser userId updates
  | .deleteUser userId => TPBS.deleteUser userId
  | .addTravelPackage packageData => (TPBS.addTravelPackage data packageData).2
  | .updateTravelPackage packageId updates => TPBS.updateTravelPackage packageId updates
  | .deleteTravelPackage packageId => TPBS.deleteTravelPackage packageId
  | .addBooking bookingData => (TPBS.addBooking data bookingData).2
  | .updateBooking bookingId updates => TPBS.updateBooking bookingId updates
  | .deleteBooking bookingId => TPBS.deleteBooking bookingId
  | .addPayment paymentData => (TPBS.addPayment data paymentData).2
  | .updatePayment paymentId updates => TPBS.updatePayment paymentId updates
  | .addReview now reviewData => (TPBS.addReview now data reviewData).2
  | .updateReview reviewId updates => TPBS.updateReview reviewId updates
  | .deleteReview reviewId => TPBS.deleteReview reviewId
  | .addAssistanceRequest now requestData => (TPBS.addAssistanceRequest now data requestData).2
  | .updateAssistanceRequest requestId updates =>
    TPBS.updateAssistanceRequest requestId updates
  | .deleteAssistanceRequest requestId => TPBS.deleteAssistanceRequest requestId

/-- A mutation of the Domain Store as a consumer issues it: an operation together
with the snapshot its closure holds (the latest state or an older one), or
`syncUsersFromAuth`. -/
inductive Call where
  | op (o : Op) (data : Data)
  | sync (authUsers : List Obj)

/-- The state after a call. -/
def Call.apply (c : Call) (s : Data) : Data :=
  match c with
  | .op o data => o.updater data s
  | .sync authUsers => syncUsersFromAuth authUsers s

/-- The state after a finite sequence of calls. -/
def runCalls (calls : List Call) (s : Data) : Data :=
  match calls with
  | [] => s
  | c :: rest => runCalls rest (c.apply s)

/-! ## The operator `+` -/

/-- ToString on a primitive; on an integer it is `intRepr`, the text of the source
below `10^21` in magnitude. -/
def jsToString : JSVal → String
  | .undefined => "undefined"
  | .null => "null"
  | .bool true => "true"
  | .bool false => "false"
  | .num .nan => "NaN"
  | .num .posInf => "Infinity"
  | .num .negInf => "-Infinity"
  | .num (.int z) => String.mk (intRepr z)
  | .str s => s

/-- The operator `a + b` on primitives: concatenation when either side is a
string, the sum of the two numbers otherwise. -/
def jsPlus (a b : JSVal) : JSVal :=
  match a, b with
  | .str x, _ => .str (x ++ jsToString b)
  | _, .str y => .str (jsToString a ++ y)
  | _, _ => .num (JSNum.add (toNumber a) (toNumber b))

/-! ## Pages -/

/-- A call of `toast.success` or `toast.error` with its message. -/
inductive Toast where
  | success (message : String)
  | error (message : String)
  deriving DecidableEq, Repr

/-- The local state of `UserDashboard` that `handlePaymentSubmit` reads and
writes. -/
structure Dashboard where
  selectedPackage : Option Obj
  selectedInsurance : Option Obj
  userBookings : List Obj
  userPayments : List Obj
  showPaymentModal : Bool
  deriving DecidableEq, Repr

/-- Source `handlePaymentSubmit(e)` of `UserDashboard`.  The checks of the four
card fields (presence, format, expiry against the clock) are the parameter
`cardError`: the message of the first check that fails, if one does; the handler
then shows it and returns.  In the `try` block a `null` package or an empty
booking list raises before any store call, and the `catch` reports the failure.
The result is the toast, the local state and the updater the two store calls
hand to `setData` in turn. -/
def handlePaymentSubmit (cardError : Option String) (currentUser : Obj) (data : Data)
    (d : Dashboard) : Toast × Dashboard × (Data → Data) :=
  match cardError with
  | some message => (.error message, d, fun prev => prev)
  | none =>
    match d.selectedPackage, d.userBookings.getLast? with
    | some selectedPackage, some latestBooking =>
      let totalAmount := jsPlus (Obj.get selectedPackage "Price")
        (match d.selectedInsurance with
          | some selectedInsurance => Obj.get selectedInsurance "price"
          | none => .num (.int 0))
      let newPayment := addPayment data (Obj.ofList [
        ("UserID", Obj.get currentUser "UserID"),
        ("BookingID", Obj.get latestBooking "BookingID"),
        ("Amount", totalAmount),
        ("Status", .str "completed"),
        ("PaymentMethod", .str "Credit Card")])
      let bookingUpdater := updateBooking (Obj.get latestBooking "BookingID")
        (Obj.ofList [("PaymentID", Obj.get newPayment.1 "PaymentID")])
      (.success "🎉 Payment successful! Your booking has been confirmed.",
        { selectedPackage := none, selectedInsurance := none,
          userBookings := d.userBookings.map (fun booking =>
            if strictEq (Obj.get booking "BookingID") (Obj.get latestBooking "BookingID") then
              Obj.set (Obj.spread Obj.empty booking) "PaymentID"
                (Obj.get newPayment.1 "PaymentID")
            else booking),
          userPayments := d.userPayments ++ [newPayment.1],
          showPaymentModal := false },
        fun prev => bookingUpdater (newPayment.2 prev))
    | _, _ =>
      (.error "❌ Payment failed. Please try again or contact support.", d, fun prev => prev)

/-- Source `handleUserApproval(userId, approval)` of `AdminDashboard`: the toast,
the local list and the store updater. -/
def handleUserApproval (userId approval : JSVal) (allUsers : List Obj) :
    Toast × List Obj × (Data → Data) :=
  (.success ("User " ++
      (if strictEq approval (.str "approved") then "approved" else "rejected") ++
      " successfully"),
    allUsers.map (fun user =>
      if strictEq (Obj.get user "UserID") userId then
        Obj.set (Obj.spread Obj.empty user) "Approval" approval
      else user),
    updateUser userId (Obj.ofList [("Approval", approval)]))

/-- Source `handleAgentApproval(userId, approval)` of `AdminDashboard`. -/
def handleAgentApproval (userId approval : JSVal) (allUsers : List Obj) :
    Toast × List Obj × (Data → Data) :=
  (.success ("Agent " ++
      (if strictEq approval (.str "approved") then "approved" else "rejected") ++
      " successfully"),
    allUsers.map (fun user =>
      if strictEq (Obj.get user "UserID") userId then
        Obj.set (Obj.spread Obj.empty user) "Approval" approval
      else user),
    updateUser userId (Obj.ofList [("Approval", approval)]))

/-- The Approve button of the Agent Approval Management table, on the row of
`agent`: `handleAgentApproval(agent.UserID, 'approved')`. -/
def agentTableApprove (agent : Obj) (allUsers : List Obj) : Toast × List Obj × (Data → Data) :=
  handleAgentApproval (Obj.get agent "UserID") (.str "approved") allUsers

/-- The Reject button of the Agent Approval Management table:
`handleAgentApproval(agent.UserID, 'rejected')`. -/
def agentTableReject (agent : Obj) (allUsers : List Obj) : Toast × List Obj × (Data → Data) :=
  handleAgentApproval (Obj.get agent "UserID") (.str "rejected") allUsers

/-- The Approve button of the User Management table, on the row of `user`:
`handleUserApproval(user.UserID, true)`. -/
def userTableApprove (user : Obj) (allUsers : List Obj) : Toast × List Obj × (Data → Data) :=
  handleUserApproval (Obj.get user "UserID") (.bool true) allUsers

/-- The Reject button of the User Management table:
`handleUserApproval(user.UserID, false)`. -/
def userTableReject (user : Obj) (allUsers : List Obj) : Toast × List Obj × (Data → Data) :=
  handleUserApproval (Obj.get user "UserID") (.bool false) allUsers

/-- The form state of `Profile`. -/
structure ProfileForm where
  name : JSVal
  email : JSVal
  contactNumber : JSVal
  password : JSVal
  confirmPassword : JSVal
  deriving DecidableEq, Repr

/-- The record `handleSubmit` of `Profile` builds: the current user with `Name`,
`Email` and `ContactNumber` of the form, and with `Password` of the form when that
is truthy. -/
def profileUpdatedUser (currentUser : Obj) (formData : ProfileForm) : Obj :=
  let updatedUser :=
    Obj.set
      (Obj.set
        (Obj.set (Obj.spread Obj.empty currentUser) "Name" formData.name)
        "Email" formData.email)
      "ContactNumber" formData.contactNumber
  if truthy formData.password then Obj.set updatedUser "Password" formData.password
  else updatedUser

/-- What `handleSubmit` of `Profile` does: the toast it shows, the form it leaves,
whether it leaves the editing mode, the session state and the updater it hands
to the Domain Store. -/
structure ProfileSubmit where
  toast : Toast
  formData : ProfileForm
  leavesEditing : Bool
  session : Session
  storeUpdate : Data → Data

/-- Source `handleSubmit(e)` of `Profile`, for the current user `currentUser` of
the session `s`. -/
def handleSubmit (currentUser : Obj) (formData : ProfileForm) (s : Session) :
    ProfileSubmit :=
  if !strictEq formData.password formData.confirmPassword then
    { toast := .error "Passwords do not match", formData := formData,
      leavesEditing := false, session := s, storeUpdate := fun prev => prev }
  else
    let updatedUser := profileUpdatedUser currentUser formData
    { toast := .success "Profile updated successfully!",
      formData := { formData with password := .str "", confirmPassword := .str "" },
      leavesEditing := true,
      session := Auth.updateUser updatedUser s,
      storeUpdate := updateUser (Obj.get updatedUser "UserID") updatedUser }

/-! ## Sequences of Session Store calls -/

/-- One call of the Session Store. -/
inductive SessionCall where
  | login (email password : JSVal) (allUsers : List Obj)
  | logout
  | updateUser (updatedUser : Obj)

/-- The session state after a call. -/
def SessionCall.apply (c : SessionCall) (s : Session) : Session :=
  match c with
  | .login email password allUsers => (Auth.login email password allUsers s).2
  | .logout => Auth.logout s
  | .updateUser updatedUser => Auth.updateUser updatedUser s

/-- Whether the call may be made in the state `s`: `updateUser` only while
authenticated. -/
def SessionCall.allowed (c : SessionCall) (s : Session) : Bool :=
  match c with
  | .updateUser _ => s.isAuthenticated
  | _ => true

/-- The session state after a finite sequence of calls. -/
def runSession (calls : List SessionCall) (s : Session) : Session :=
  match calls with
  | [] => s
  | c :: rest => runSession rest (c.apply s)

/-- Every call of the sequence is allowed in the state it is made in. -/
def allAllowed (calls : List SessionCall) (s : Session) : Bool :=
  match calls with
  | [] => true
  | c :: rest => c.allowed s && allAllowed rest (c.apply s)

/-- The text `JSON.stringify` gives for a principal (`none` for `undefined`). -/
def Principal.stringify : Principal → Option String
  | .record o => some (jsonStringify o)
  | .prim v => (jsonValue v).map String.mk

/-- The invariant of the session state machine: the authenticated flag is true
exactly when the principal is not `null`, the stored key is present exactly when
the flag is true, and then it holds the JSON text of the principal. -/
def SessionInv (s : Session) : Prop :=
  (s.isAuthenticated = true ↔ s.currentUser ≠ .prim .null) ∧
  (s.storage.isSome = true ↔ s.isAuthenticated = true) ∧
  (s.isAuthenticated = true → s.storage = s.currentUser.stringify)

instance (s : Session) : Decidable (SessionInv s) := by
  unfold SessionInv; infer_instance

/-- What `JSON.stringify` makes of a field value: `undefined` is left out (`none`),
a number that is not finite becomes `null`, every other value stays. -/
def flattenValue : JSVal → Option JSVal
  | .undefined => none
  | .num (.int z) => some (.num (.int z))
  | .num _ => some .null
  | v => some v

/-- The properties `JSON.stringify` writes. -/
def flattenProps : Props → Props
  | [] => []
  | (k, v) :: rest =>
    match flattenValue v with
    | none => flattenProps rest
    | some w => (k, w) :: flattenProps rest

/-- The collection `after` is `before` without the records of identity `id`: the
records kept are those of another identity, each as often as before and in the
same order, and no record of identity `id` is left. -/
def RemovedAll (k : String) (id : JSVal) (before after : List Obj) : Prop :=
  after.Sublist before ∧
    (∀ r, r ∈ after ↔ r ∈ before ∧ strictEq (Obj.get r k) id = false) ∧
    (∀ r, strictEq (Obj.get r k) id = false → after.count r = before.count r) ∧
    ∀ r ∈ after, strictEq (Obj.get r k) id = false

/-! ## Sample states of the pages -/

/-- The sample store after the booking of the scenario was added for user 1: it
is the third booking, with `BookingID` 4 and `Status` pending. -/
def bookedData : Data := (addBooking sampleData scenarioBooking).2 sampleData

/-- The dashboard of user 1 over `bookedData`, with a package of price 500 and an
insurance of price 50 selected. -/
def bookedDashboard : Dashboard :=
  { selectedPackage := some (Obj.ofList [("PackageID", .num (.int 5)),
      ("Price", .num (.int 500))]),
    selectedInsurance := some (Obj.ofList [("id", .num (.int 1)), ("price", .num (.int 50))]),
    userBookings := getBookingsByUserId bookedData (.num (.int 1)),
    userPayments := [],
    showPaymentModal := true }

/-- The sample store after two `addBooking` calls of one turn, which read the
same snapshot: the third and the fourth booking both have `BookingID` 4, and
only the fourth is a booking of user 1. -/
def twinBookingData : Data :=
  (addBooking sampleData scenarioBooking).2 ((addBooking sampleData sampleInput).2 sampleData)

/-- The dashboard of user 1 over `twinBookingData`, with the same selection as
`bookedDashboard`. -/
def twinDashboard : Dashboard :=
  { bookedDashboard with userBookings := getBookingsByUserId twinBookingData (.num (.int 1)) }

/-- The dashboard of user 1 over `bookedData` with a package of price `2^53` and
an insurance of price 1 selected. -/
def largePriceDashboard : Dashboard :=
  { bookedDashboard with
    selectedPackage := some (Obj.ofList [("PackageID", .num (.int 5)),
      ("Price", .num (.int 9007199254740992))]),
    selectedInsurance := some (Obj.ofList [("id", .num (.int 1)), ("price", .num (.int 1))]) }

/-- A customer, user 1. -/
def sampleCustomer : Obj :=
  Obj.ofList [("UserID", .num (.int 1)), ("Name", .str "Ann"), ("Email", .str "ann@x.com"),
    ("Password", .str "old"), ("Role", .str "customer")]

/-- A profile form with a new name, email and contact number and both password
fields blank. -/
def blankPasswordForm : ProfileForm :=
  { name := .str "Ann B", email := .str "ann@y.com", contactNumber := .str "555",
    password := .str "", confirmPassword := .str "" }

/-- The same form with `new` in both password fields. -/
def newPasswordForm : ProfileForm :=
  { blankPasswordForm with password := .str "new", confirmPassword := .str "new" }

/-- The same form with password fields that differ. -/
def mismatchForm : ProfileForm :=
  { blankPasswordForm with password := .str "a", confirmPassword := .str "b" }

/-- An agent whose approval is pending, user 2. -/
def pendingAgent : Obj :=
  Obj.ofList [("UserID", .num (.int 2)), ("Name", .str "Bo"), ("Role", .str "agent"),
    ("Approval", .str "pending")]

/-- A store whose users are the customer and the pending agent. -/
def agentData : Data := { emptyData with users := [sampleCustomer, pendingAgent] }

/-- The approval values of the data model. -/
def approvalValues : List JSVal := [.str "approved", .str "pending", .str "rejected"]

/-! ## Lemmas on objects -/

theorem Props.props_get_set_self (o : Props) (k : String) (v : JSVal) :
    Props.get (Props.set o k v) k = v := by
  induction o with
  | nil => simp [Props.set, Props.get]
  | cons p rest ih =>
    obtain ⟨k', v'⟩ := p
    by_cases h : k' = k <;> simp [Props.set, Props.get, h, ih]

theorem Props.props_get_set_ne (o : Props) (k k' : String) (v : JSVal) (h : k' ≠ k) :
    Props.get (Props.set o k v) k' = Props.get o k' := by
  induction o with
  | nil =>
    have h' : ¬ k = k' := fun e => h e.symm
    simp [Props.set, Props.get, h']
  | cons p rest ih =>
    obtain ⟨k₀, v₀⟩ := p
    by_cases h₀ : k₀ = k
    · subst h₀
      have h' : ¬ k₀ = k' := fun e => h e.symm
      simp [Props.set, Props.get, h']
    · by_cases h₁ : k₀ = k'
      · subst h₁
        simp [Props.set, Props.get, h₀]
      · simp [Props.set, Props.get, h₀, h₁, ih]

theorem Props.has_iff_mem (o : Props) (k : String) :
    Props.has o k = true ↔ k ∈ o.map Prod.fst := by
  induction o with
  | nil => simp [Props.has]
  | cons p rest ih =>
    obtain ⟨k', v'⟩ := p
    by_cases h : k' = k
    · simp [Props.has, h]
    · have h' : ¬ k = k' := fun e => h e.symm
      simp only [Props.has, h, if_false, ih, List.map_cons, List.mem_cons, h', false_or]

theorem Props.props_get_of_not_has (o : Props) (k : String) (h : Props.has o k = false) :
    Props.get o k = .undefined := by
  induction o with
  | nil => rfl
  | cons p rest ih =>
    obtain ⟨k', v'⟩ := p
    by_cases h' : k' = k
    · simp [Props.has, h'] at h
    · simp only [Props.has, h', if_false] at h
      simp [Props.get, h', ih h]

theorem Props.props_get_spread_of_not_has (o src : Props) (k : String)
    (h : Props.has src k = false) : Props.get (Props.spread o src) k = Props.get o k := by
  induction src generalizing o with
  | nil => rfl
  | cons p rest ih =>
    obtain ⟨k', v'⟩ := p
    by_cases h' : k' = k
    · simp [Props.has, h'] at h
    · simp only [Props.has, h', if_false] at h
      have hne : k ≠ k' := fun e => h' e.symm
      simp only [Props.spread]
      rw [ih _ h, Props.props_get_set_ne _ _ _ _ hne]

theorem Props.props_get_spread_of_has (o src : Props) (k : String)
    (hnd : (src.map Prod.fst).Nodup) (h : Props.has src k = true) :
    Props.get (Props.spread o src) k = Props.get src k := by
  induction src generalizing o with
  | nil => simp [Props.has] at h
  | cons p rest ih =>
    obtain ⟨k', v'⟩ := p
    simp only [List.map_cons, List.nodup_cons] at hnd
    by_cases h' : k' = k
    · subst h'
      have hr : Props.has rest k' = false := by
        cases hh : Props.has rest k' with
        | false => rfl
        | true => exact absurd ((Props.has_iff_mem rest k').1 hh) hnd.1
      simp only [Props.spread]
      rw [Props.props_get_spread_of_not_has _ _ _ hr, Props.props_get_set_self]
      simp [Props.get]
    · simp only [Props.has, h', if_false] at h
      simp only [Props.spread]
      rw [ih _ hnd.2 h]
      simp [Props.get, h']

theorem Props.spread_nil_left (src : Props) (o : Props)
    (hnd : (src.map Prod.fst).Nodup) (hdis : ∀ k ∈ src.map Prod.fst, k ∉ o.map Prod.fst) :
    Props.spread o src = o ++ src := by
  induction src generalizing o with
  | nil => simp [Props.spread]
  | cons p rest ih =>
    obtain ⟨k, v⟩ := p
    simp only [List.map_cons, List.nodup_cons] at hnd
    have hk : k ∉ o.map Prod.fst := hdis k (by simp)
    have hset : Props.set o k v = o ++ [(k, v)] := by
      clear ih hdis
      induction o with
      | nil => rfl
      | cons q o' iho =>
        obtain ⟨k₀, v₀⟩ := q
        simp only [List.map_cons, List.mem_cons, not_or] at hk
        have h₀ : ¬ k₀ = k := fun e => hk.1 e.symm
        simp [Props.set, h₀, iho hk.2]
    simp only [Props.spread]
    rw [hset, ih _ hnd.2]
    · simp
    · intro k' hk' hmem
      simp only [List.map_append, List.map_cons, List.map_nil, List.mem_append,
        List.mem_singleton] at hmem
      rcases hmem with hmem | hmem
      · exact hdis k' (by simp [hk']) hmem
      · subst hmem
        exact hnd.1 hk'

theorem Obj.ext_props {a b : Obj} (h : a.props = b.props) : a = b := by
  cases a; cases b; simp at h; subst h; rfl

theorem Obj.get_set_self (o : Obj) (k : String) (v : JSVal) :
    Obj.get (Obj.set o k v) k = v :=
  Props.props_get_set_self o.props k v

theorem Obj.get_set_ne (o : Obj) (k k' : String) (v : JSVal) (h : k' ≠ k) :
    Obj.get (Obj.set o k v) k' = Obj.get o k' :=
  Props.props_get_set_ne o.props k k' v h

theorem Obj.get_of_not_has (o : Obj) (k : String) (h : Obj.has o k = false) :
    Obj.get o k = .undefined :=
  Props.props_get_of_not_has o.props k h

theorem Obj.get_spread_of_not_has (o src : Obj) (k : String) (h : Obj.has src k = false) :
    Obj.get (Obj.spread o src) k = Obj.get o k :=
  Props.props_get_spread_of_not_has o.props src.props k h

theorem Obj.get_spread_of_has (o src : Obj) (k : String) (h : Obj.has src k = true) :
    Obj.get (Obj.spread o src) k = Obj.get src k :=
  Props.props_get_spread_of_has o.props src.props k src.nodup h

/-- The copy `{ ...o }` is `o`. -/
theorem Obj.spread_empty (o : Obj) : Obj.spread Obj.empty o = o := by
  apply Obj.ext_props
  show Props.spread [] o.props = o.props
  rw [Props.spread_nil_left o.props [] o.nodup (by simp)]
  simp

/-! ## Lemmas on `Math.max` -/

theorem JSVal.isInt_iff (v : JSVal) : v.isInt = true ↔ ∃ z : Int, v = .num (.int z) := by
  cases v with
  | num n => cases n <;> simp [JSVal.isInt]
  | _ => simp [JSVal.isInt]

theorem mathMax_foldl_int (vals : List JSVal) (a : Int)
    (h : ∀ v ∈ vals, ∃ z : Int, v = .num (.int z)) :
    ∃ m : Int, (m = a ∨ JSVal.num (.int m) ∈ vals) ∧ a ≤ m ∧
      (∀ z : Int, JSVal.num (.int z) ∈ vals → z ≤ m) ∧
      vals.foldl (fun acc v => JSNum.max acc (toNumber v)) (.int a) = .int m := by
  induction vals generalizing a with
  | nil => exact ⟨a, Or.inl rfl, le_refl a, by simp, rfl⟩
  | cons v rest ih =>
    obtain ⟨z, rfl⟩ := h v (by simp)
    obtain ⟨m, hm, hle, hub, hfold⟩ := ih (Max.max a z) (fun w hw => h w (by simp [hw]))
    refine ⟨m, ?_, le_trans (le_max_left a z) hle, ?_, ?_⟩
    · rcases hm with hm | hm
      · rcases max_choice a z with hc | hc
        · left; rw [hm, hc]
        · right; rw [hm, hc]; simp
      · right; simp [hm]
    · intro w hw
      simp only [List.mem_cons, JSVal.num.injEq, JSNum.int.injEq] at hw
      rcases hw with hw | hw
      · rw [hw]; exact le_trans (le_max_right a z) hle
      · exact hub w hw
    · simpa [List.foldl, toNumber, JSNum.max] using hfold

theorem mathMax_int (vals : List JSVal) (hne : vals ≠ [])
    (h : ∀ v ∈ vals, ∃ z : Int, v = .num (.int z)) :
    ∃ m : Int, JSVal.num (.int m) ∈ vals ∧ (∀ z : Int, JSVal.num (.int z) ∈ vals → z ≤ m) ∧
      mathMax vals = .int m := by
  cases vals with
  | nil => exact absurd rfl hne
  | cons v rest =>
    obtain ⟨z, rfl⟩ := h v (by simp)
    obtain ⟨m, hm, hle, hub, hfold⟩ := mathMax_foldl_int rest z (fun w hw => h w (by simp [hw]))
    refine ⟨m, ?_, ?_, ?_⟩
    · rcases hm with hm | hm
      · simp [hm]
      · simp [hm]
    · intro w hw
      simp only [List.mem_cons, JSVal.num.injEq, JSNum.int.injEq] at hw
      rcases hw with hw | hw
      · rw [hw]; exact hle
      · exact hub w hw
    · simpa [mathMax, List.foldl, toNumber, JSNum.max] using hfold

/-! ## Sums of doubles and numeric literals -/

/-- Up to `2^53` in magnitude the integer is a double. -/
theorem JSNum.ofInt_exact (z : Int) (h : z.natAbs ≤ 9007199254740992) :
    JSNum.ofInt z = .int z := by
  unfold JSNum.ofInt
  rw [if_pos h]

/-- An exact sum of integers: both integers and a sum of at most `2^53` in
magnitude. -/
theorem JSNum.add_int_exact (a b : Int) (h : (a + b).natAbs ≤ 9007199254740992) :
    JSNum.add (.int a) (.int b) = .int (a + b) :=
  JSNum.ofInt_exact (a + b) h

/-- Beyond `2^53` a sum is rounded to 53 significant bits, ties to even. -/
theorem JSNum.add_rounds :
    JSNum.add (.int 9007199254740992) (.int 1) = .int 9007199254740992 ∧
    JSNum.add (.int 9007199254740992) (.int 2) = .int 9007199254740994 ∧
    JSNum.add (.int 9007199254740992) (.int 3) = .int 9007199254740996 ∧
    JSNum.add (.int (-9007199254740992)) (.int (-1)) = .int (-9007199254740992) ∧
    JSNum.add (.int 9007199254740991) (.int 1) = .int 9007199254740992 ∧
    JSNum.add (.int 18014398509481984) (.int 2) = .int 18014398509481984 ∧
    JSNum.add (.int 18014398509481984) (.int 3) = .int 18014398509481988 ∧
    JSNum.add (.int 18014398509481988) (.int 2) = .int 18014398509481992 ∧
    JSNum.add (.int 123456789012345678901234567000) (.int 890) =
      .int 123456789012345677877719597056 := by
  decide

set_option exponentiation.threshold 1100 in
set_option maxRecDepth 100000 in
/-- The largest double is `2^1024 - 2^971`; a sum that is `2^970` or more above
it is infinite. -/
theorem JSNum.add_overflows :
    JSNum.add (.int (Int.ofNat (2 ^ 1024 - 2 ^ 971))) (.int (Int.ofNat (2 ^ 970 - 1))) =
      .int (Int.ofNat (2 ^ 1024 - 2 ^ 971)) ∧
    JSNum.add (.int (Int.ofNat (2 ^ 1024 - 2 ^ 971))) (.int (Int.ofNat (2 ^ 970))) = .posInf ∧
    JSNum.add (.int (-(Int.ofNat (2 ^ 1024 - 2 ^ 971)))) (.int (-(Int.ofNat (2 ^ 970)))) =
      .negInf := by
  decide

/-- StringToNumber on literals of each form. -/
theorem stringToNumber_examples :
    stringToNumber "" = .int 0 ∧ stringToNumber " 12 " = .int 12 ∧
    stringToNumber " 12\u000c" = .int 12 ∧ stringToNumber "-12" = .int (-12) ∧
    stringToNumber "0x10" = .int 16 ∧ stringToNumber "0b11" = .int 3 ∧
    stringToNumber "0o17" = .int 15 ∧ stringToNumber "1e3" = .int 1000 ∧
    stringToNumber "12.0" = .int 12 ∧ stringToNumber ".5e1" = .int 5 ∧
    stringToNumber "9007199254740993" = .int 9007199254740992 ∧
    stringToNumber "-Infinity" = .negInf ∧ stringToNumber "1e999" = .posInf ∧
    stringToNumber "-0x10" = .nan ∧ stringToNumber "12px" = .nan ∧
    stringToNumber "1_000" = .nan := by
  decide

theorem JSVal.intBelow_iff (v : JSVal) (bound : Int) :
    v.intBelow bound = true ↔ ∃ z : Int, v = .num (.int z) ∧ z < bound := by
  cases v with
  | num n => cases n <;> simp [JSVal.intBelow]
  | _ => simp [JSVal.intBelow]

theorem JSVal.intAtLeast_iff (v : JSVal) (bound : Int) :
    v.intAtLeast bound = true ↔ ∃ z : Int, v = .num (.int z) ∧ bound ≤ z := by
  cases v with
  | num n => cases n <;> simp [JSVal.intAtLeast]
  | _ => simp [JSVal.intAtLeast]

/-- What `largestIdInRange` says of a collection: it is not empty, its identities
are integers below `2^53`, and one of them is at least `-2^53`. -/
theorem largestIdInRange_iff (k : String) (coll : List Obj) :
    largestIdInRange k coll = true ↔
      coll ≠ [] ∧ IntIds k coll ∧
      (∀ x ∈ coll, ∀ z : Int, Obj.get x k = .num (.int z) → z < 9007199254740992) ∧
      ∃ x ∈ coll, ∃ z : Int, Obj.get x k = .num (.int z) ∧ -9007199254740992 ≤ z := by
  simp only [largestIdInRange, Bool.and_eq_true, List.all_eq_true, List.any_eq_true,
    JSVal.intBelow_iff, JSVal.intAtLeast_iff]
  constructor
  · rintro ⟨hall, x, hx, z, hz, hzl⟩
    refine ⟨List.ne_nil_of_mem hx, ?_, ?_, x, hx, z, hz, hzl⟩
    · intro y hy
      obtain ⟨w, hw, -⟩ := hall y hy
      exact (JSVal.isInt_iff _).2 ⟨w, hw⟩
    · intro y hy w hw
      obtain ⟨w', hw', hlt⟩ := hall y hy
      rw [hw] at hw'
      simp only [JSVal.num.injEq, JSNum.int.injEq] at hw'
      omega
  · rintro ⟨-, hint, hlt, x, hx, z, hz, hzl⟩
    refine ⟨?_, x, hx, z, hz, hzl⟩
    intro y hy
    obtain ⟨w, hw⟩ := (JSVal.isInt_iff _).1 (hint y hy)
    exact ⟨w, hw, hlt y hy w hw⟩

/-- The identity an `add` computes on a collection of integer identities whose
largest is at least `-2^53` and below `2^53`. -/
theorem nextId_isMaxPlusOne (k : String) (coll : List Obj) (r : Obj)
    (hrange : largestIdInRange k coll = true)
    (hr : Obj.get r k =
      .num (JSNum.add (mathMax (coll.map (fun x => Obj.get x k))) (.int 1))) :
    IsMaxPlusOne k coll r := by
  obtain ⟨hne, hint, hlt, y, hy, w, hyw, hwl⟩ := (largestIdInRange_iff k coll).1 hrange
  obtain ⟨m, hmem, hub, hmax⟩ := mathMax_int (coll.map (fun x => Obj.get x k))
    (by simpa using hne)
    (by
      intro v hv
      obtain ⟨x, hx, rfl⟩ := List.mem_map.1 hv
      exact (JSVal.isInt_iff _).1 (hint x hx))
  obtain ⟨x, hx, hxm⟩ := List.mem_map.1 hmem
  have hm1 : m < 9007199254740992 := hlt x hx m hxm
  have hm2 : w ≤ m := hub w (List.mem_map.2 ⟨y, hy, hyw⟩)
  refine ⟨m, ⟨x, hx, hxm⟩, ?_, ?_⟩
  · intro y hy z hz
    exact hub z (List.mem_map.2 ⟨y, hy, hz⟩)
  · rw [hr, hmax, JSNum.add_int_exact m 1 (by omega)]

/-! ## Identity assignment -/

theorem addUser_id (now : String) (data : Data) (input : Obj)
    (hno : Obj.has input "UserID" = false) :
    Obj.get (addUser now data input).1 "UserID" =
      .num (JSNum.add (mathMax (data.users.map (fun u => Obj.get u "UserID"))) (.int 1)) := by
  simp only [addUser]
  rw [Obj.get_set_ne _ _ _ _ (by decide), Obj.get_set_ne _ _ _ _ (by decide),
    Obj.get_spread_of_not_has _ _ _ hno, Obj.get_set_self]

theorem addTravelPackage_id (data : Data) (input : Obj)
    (hno : Obj.has input "PackageID" = false) :
    Obj.get (addTravelPackage data input).1 "PackageID" =
      .num (JSNum.add (mathMax (data.travelPackages.map (fun p => Obj.get p "PackageID")))
        (.int 1)) := by
  simp only [addTravelPackage]
  rw [Obj.get_spread_of_not_has _ _ _ hno, Obj.get_set_self]

theorem addBooking_id (data : Data) (input : Obj)
    (hno : Obj.has input "BookingID" = false) :
    Obj.get (addBooking data input).1 "BookingID" =
      .num (JSNum.add (mathMax (data.bookings.map (fun b => Obj.get b "BookingID")))
        (.int 1)) := by
  simp only [addBooking]
  rw [Obj.get_spread_of_not_has _ _ _ hno, Obj.get_set_self]

theorem addPayment_id (data : Data) (input : Obj)
    (hno : Obj.has input "PaymentID" = false) :
    Obj.get (addPayment data input).1 "PaymentID" =
      .num (JSNum.add (mathMax (data.payments.map (fun p => Obj.get p "PaymentID")))
        (.int 1)) := by
  simp only [addPayment]
  rw [Obj.get_spread_of_not_has _ _ _ hno, Obj.get_set_self]

theorem addReview_id (now : String) (data : Data) (input : Obj)
    (hno : Obj.has input "ReviewID" = false) :
    Obj.get (addReview now data input).1 "ReviewID" =
      .num (JSNum.add (mathMax (data.reviews.map (fun r => Obj.get r "ReviewID")))
        (.int 1)) := by
  simp only [addReview]
  rw [Obj.get_set_ne _ _ _ _ (by decide), Obj.get_spread_of_not_has _ _ _ hno,
    Obj.get_set_self]

theorem addAssistanceRequest_id (now : String) (data : Data) (input : Obj)
    (hno : Obj.has input "RequestID" = false) :
    Obj.get (addAssistanceRequest now data input).1 "RequestID" =
      .num (JSNum.add (mathMax (data.assistanceRequests.map (fun r => Obj.get r "RequestID")))
        (.int 1)) := by
  simp only [addAssistanceRequest]
  rw [Obj.get_set_ne _ _ _ _ (by decide), Obj.get_set_ne _ _ _ _ (by decide),
    Obj.get_set_ne _ _ _ _ (by decide), Obj.get_spread_of_not_has _ _ _ hno,
    Obj.get_set_self]

theorem addUser_id_of_has (now : String) (data : Data) (input : Obj)
    (hhas : Obj.has input "UserID" = true) :
    Obj.get (addUser now data input).1 "UserID" = Obj.get input "UserID" := by
  simp only [addUser]
  rw [Obj.get_set_ne _ _ _ _ (by decide), Obj.get_set_ne _ _ _ _ (by decide),
    Obj.get_spread_of_has _ _ _ hhas]

theorem addTravelPackage_id_of_has (data : Data) (input : Obj)
    (hhas : Obj.has input "PackageID" = true) :
    Obj.get (addTravelPackage data input).1 "PackageID" = Obj.get input "PackageID" := by
  simp only [addTravelPackage]
  rw [Obj.get_spread_of_has _ _ _ hhas]

theorem addBooking_id_of_has (data : Data) (input : Obj)
    (hhas : Obj.has input "BookingID" = true) :
    Obj.get (addBooking data input).1 "BookingID" = Obj.get input "BookingID" := by
  simp only [addBooking]
  rw [Obj.get_spread_of_has _ _ _ hhas]

theorem addPayment_id_of_has (data : Data) (input : Obj)
    (hhas : Obj.has input "PaymentID" = true) :
    Obj.get (addPayment data input).1 "PaymentID" = Obj.get input "PaymentID" := by
  simp only [addPayment]
  rw [Obj.get_spread_of_has _ _ _ hhas]

theorem addReview_id_of_has (now : String) (data : Data) (input : Obj)
    (hhas : Obj.has input "ReviewID" = true) :
    Obj.get (addReview now data input).1 "ReviewID" = Obj.get input "ReviewID" := by
  simp only [addReview]
  rw [Obj.get_set_ne _ _ _ _ (by decide), Obj.get_spread_of_has _ _ _ hhas]

theorem addAssistanceRequest_id_of_has (now : String) (data : Data) (input : Obj)
    (hhas : Obj.has input "RequestID" = true) :
    Obj.get (addAssistanceRequest now data input).1 "RequestID" = Obj.get input "RequestID" := by
  simp only [addAssistanceRequest]
  rw [Obj.get_set_ne _ _ _ _ (by decide), Obj.get_set_ne _ _ _ _ (by decide),
    Obj.get_set_ne _ _ _ _ (by decide), Obj.get_spread_of_has _ _ _ hhas]

/-- C1 fails as stated on large identities.  The payments of `largeIdData` are
one record with the integer identity `2^53`; `addPayment` of an input without
identity field returns a record whose `PaymentID` is `2^53` again, the double
nearest to `2^53 + 1`, and not the largest identity plus one; likewise
`addUser`. -/
theorem add_identity_counterexample :
    largeIdData.payments ≠ [] ∧ IntIds "PaymentID" largeIdData.payments ∧
    Obj.has sampleInput "PaymentID" = false ∧
    Obj.get (addPayment largeIdData sampleInput).1 "PaymentID" =
      .num (.int 9007199254740992) ∧
    ¬ IsMaxPlusOne "PaymentID" largeIdData.payments (addPayment largeIdData sampleInput).1 ∧
    largeIdData.users ≠ [] ∧ IntIds "UserID" largeIdData.users ∧
    Obj.has sampleInput "UserID" = false ∧
    ¬ IsMaxPlusOne "UserID" largeIdData.users (addUser "now" largeIdData sampleInput).1 := by
  refine ⟨by decide, by decide, by decide, by decide, ?_, by decide, by decide, by decide, ?_⟩
  · rintro ⟨m, ⟨x, hx, hxm⟩, -, hr⟩
    have hx' : x = Obj.ofList [("PaymentID", .num (.int 9007199254740992)),
        ("Amount", .num (.int 100))] := by simpa [largeIdData] using hx
    subst hx'
    have h1 : Obj.get (Obj.ofList [("PaymentID", .num (.int 9007199254740992)),
        ("Amount", .num (.int 100))]) "PaymentID" = .num (.int 9007199254740992) := by decide
    have h2 : Obj.get (addPayment largeIdData sampleInput).1 "PaymentID" =
        .num (.int 9007199254740992) := by decide
    rw [h1] at hxm
    rw [h2] at hr
    simp only [JSVal.num.injEq, JSNum.int.injEq] at hxm hr
    omega
  · rintro ⟨m, ⟨x, hx, hxm⟩, -, hr⟩
    have hx' : x = Obj.ofList [("UserID", .num (.int 9007199254740992)),
        ("Name", .str "Ann")] := by simpa [largeIdData] using hx
    subst hx'
    have h1 : Obj.get (Obj.ofList [("UserID", .num (.int 9007199254740992)),
        ("Name", .str "Ann")]) "UserID" = .num (.int 9007199254740992) := by decide
    have h2 : Obj.get (addUser "now" largeIdData sampleInput).1 "UserID" =
        .num (.int 9007199254740992) := by decide
    rw [h1] at hxm
    rw [h2] at hr
    simp only [JSVal.num.injEq, JSNum.int.injEq] at hxm hr
    omega

/-- C1, amended: on a collection whose identities are integers with the largest
of them at least `-2^53` and below `2^53` (such a collection is not empty), and
for an input record that carries no identity field, each of the six `add`
operations returns a record whose identity is the largest identity of the prior
collection plus one. -/
theorem add_identity_max_plus_one (now : String) (data : Data) (input : Obj) :
    (largestIdInRange "UserID" data.users = true → Obj.has input "UserID" = false →
      IsMaxPlusOne "UserID" data.users (addUser now data input).1) ∧
    (largestIdInRange "PackageID" data.travelPackages = true →
      Obj.has input "PackageID" = false →
      IsMaxPlusOne "PackageID" data.travelPackages (addTravelPackage data input).1) ∧
    (largestIdInRange "BookingID" data.bookings = true →
      Obj.has input "BookingID" = false →
      IsMaxPlusOne "BookingID" data.bookings (addBooking data input).1) ∧
    (largestIdInRange "PaymentID" data.payments = true →
      Obj.has input "PaymentID" = false →
      IsMaxPlusOne "PaymentID" data.payments (addPayment data input).1) ∧
    (largestIdInRange "ReviewID" data.reviews = true → Obj.has input "ReviewID" = false →
      IsMaxPlusOne "ReviewID" data.reviews (addReview now data input).1) ∧
    (largestIdInRange "RequestID" data.assistanceRequests = true →
      Obj.has input "RequestID" = false →
      IsMaxPlusOne "RequestID" data.assistanceRequests
        (addAssistanceRequest now data input).1) :=
  ⟨fun hrange hno => nextId_isMaxPlusOne _ _ _ hrange (addUser_id now data input hno),
   fun hrange hno => nextId_isMaxPlusOne _ _ _ hrange (addTravelPackage_id data input hno),
   fun hrange hno => nextId_isMaxPlusOne _ _ _ hrange (addBooking_id data input hno),
   fun hrange hno => nextId_isMaxPlusOne _ _ _ hrange (addPayment_id data input hno),
   fun hrange hno => nextId_isMaxPlusOne _ _ _ hrange (addReview_id now data input hno),
   fun hrange hno =>
     nextId_isMaxPlusOne _ _ _ hrange (addAssistanceRequest_id now data input hno)⟩

/-- C1, amended, at the sample store, where every largest identity is 3: the
hypotheses hold and each `add` gives a record that is one above the largest
identity, which evaluates to 4. -/
theorem add_identity_max_plus_one_witness :
    (IsMaxPlusOne "UserID" sampleData.users (addUser "now" sampleData sampleInput).1 ∧
      IsMaxPlusOne "PackageID" sampleData.travelPackages
        (addTravelPackage sampleData sampleInput).1 ∧
      IsMaxPlusOne "BookingID" sampleData.bookings (addBooking sampleData sampleInput).1 ∧
      IsMaxPlusOne "PaymentID" sampleData.payments (addPayment sampleData sampleInput).1 ∧
      IsMaxPlusOne "ReviewID" sampleData.reviews (addReview "now" sampleData sampleInput).1 ∧
      IsMaxPlusOne "RequestID" sampleData.assistanceRequests
        (addAssistanceRequest "now" sampleData sampleInput).1) ∧
    Obj.get (addUser "now" sampleData sampleInput).1 "UserID" = .num (.int 4) ∧
    Obj.get (addBooking sampleData sampleInput).1 "BookingID" = .num (.int 4) :=
  ⟨⟨(add_identity_max_plus_one "now" sampleData sampleInput).1 (by decide) (by decide),
    (add_identity_max_plus_one "now" sampleData sampleInput).2.1 (by decide) (by decide),
    (add_identity_max_plus_one "now" sampleData sampleInput).2.2.1 (by decide) (by decide),
    (add_identity_max_plus_one "now" sampleData sampleInput).2.2.2.1 (by decide) (by decide),
    (add_identity_max_plus_one "now" sampleData sampleInput).2.2.2.2.1 (by decide) (by decide),
    (add_identity_max_plus_one "now" sampleData sampleInput).2.2.2.2.2 (by decide) (by decide)⟩,
   by decide, by decide⟩

/-- C2: on an empty collection `add` does not give identity 1.  With
`bookings = []`, `addBooking` of the scenario record returns `BookingID` equal to
`-Infinity` (`Math.max()` of no arguments, plus 1), and so does every other `add`
on its empty collection. -/
theorem add_on_empty_identity_negInf :
    emptyData.bookings = [] ∧
    Obj.get (addBooking emptyData scenarioBooking).1 "BookingID" = .num .negInf ∧
    Obj.get (addBooking emptyData scenarioBooking).1 "BookingID" ≠ .num (.int 1) ∧
    Obj.get (addUser "now" emptyData sampleInput).1 "UserID" = .num .negInf ∧
    Obj.get (addTravelPackage emptyData sampleInput).1 "PackageID" = .num .negInf ∧
    Obj.get (addPayment emptyData sampleInput).1 "PaymentID" = .num .negInf ∧
    Obj.get (addReview "now" emptyData sampleInput).1 "ReviewID" = .num .negInf ∧
    Obj.get (addAssistanceRequest "now" emptyData sampleInput).1 "RequestID" = .num .negInf := by
  decide

/-! ## Add, then look up -/

theorem strictEq_int (a b : Int) :
    strictEq (.num (.int a)) (.num (.int b)) = decide (a = b) := by
  simp [strictEq]

/-- A record appended to `coll` is the first one `find` meets under its own
identity, when that identity is new. -/
theorem find_appended (k : String) (coll : List Obj) (r : Obj) (hnew : NewIdentity k coll r) :
    (coll ++ [r]).find? (fun u => strictEq (Obj.get u k) (Obj.get r k)) = some r := by
  have hnone : coll.find? (fun u => strictEq (Obj.get u k) (Obj.get r k)) = none := by
    rw [List.find?_eq_none]
    intro x hx
    simp [hnew.2 x hx]
  rw [List.find?_append, hnone]
  simp [List.find?, hnew.1]

/-- The identity `max + 1` is an integer no record of the collection has, when
the largest identity is at least `-2^53` and below `2^53`. -/
theorem nextId_fresh (k : String) (coll : List Obj) (r : Obj)
    (hrange : largestIdInRange k coll = true)
    (hr : Obj.get r k =
      .num (JSNum.add (mathMax (coll.map (fun x => Obj.get x k))) (.int 1))) :
    (Obj.get r k).isInt = true ∧ NewIdentity k coll r := by
  obtain ⟨m, -, hub, hm⟩ := nextId_isMaxPlusOne k coll r hrange hr
  obtain ⟨-, hint, -, -⟩ := (largestIdInRange_iff k coll).1 hrange
  refine ⟨by rw [hm]; rfl, by rw [hm, strictEq_int]; simp, ?_⟩
  intro x hx
  obtain ⟨z, hz⟩ := (JSVal.isInt_iff _).1 (hint x hx)
  have hle := hub x hx z hz
  rw [hz, hm, strictEq_int]
  simp only [decide_eq_false_iff_not]
  omega

/-- The identity the store computes is new on an empty collection too, where it
is `-Infinity`. -/
theorem nextId_new (k : String) (coll : List Obj) (r : Obj)
    (hok : coll = [] ∨ largestIdInRange k coll = true)
    (hr : Obj.get r k =
      .num (JSNum.add (mathMax (coll.map (fun x => Obj.get x k))) (.int 1))) :
    NewIdentity k coll r := by
  rcases hok with hnil | hrange
  · subst hnil
    have hr' : Obj.get r k = .num .negInf := by rw [hr]; rfl
    exact ⟨by rw [hr']; rfl, by simp⟩
  · exact (nextId_fresh k coll r hrange hr).2

/-- C3 fails in two ways.  For an input that brings an identity a record has:
the users of `sampleData` have the distinct identities 1 and 3, `addUser` of a
record with `UserID: 1` returns a record with `UserID` 1, and `getUserById(1)` on
the published state is the older record, not the returned one; likewise for
`addTravelPackage`.  For an input without identity on a large identity: the one
user of `largeIdData` has `UserID` `2^53`, the record `addUser` returns has
`UserID` `2^53` again, and `getUserById` of it is the older record. -/
theorem add_then_getById_counterexample :
    UniqueIds "UserID" sampleData.users ∧
    getUserById ((addUser "now" sampleData clashingInput).2 sampleData)
        (Obj.get (addUser "now" sampleData clashingInput).1 "UserID")
      ≠ some (addUser "now" sampleData clashingInput).1 ∧
    UniqueIds "PackageID" sampleData.travelPackages ∧
    getPackageById ((addTravelPackage sampleData clashingInput).2 sampleData)
        (Obj.get (addTravelPackage sampleData clashingInput).1 "PackageID")
      ≠ some (addTravelPackage sampleData clashingInput).1 ∧
    UniqueIds "UserID" largeIdData.users ∧ Obj.has sampleInput "UserID" = false ∧
    Obj.get (addUser "now" largeIdData sampleInput).1 "UserID" =
      .num (.int 9007199254740992) ∧
    getUserById ((addUser "now" largeIdData sampleInput).2 largeIdData)
        (Obj.get (addUser "now" largeIdData sampleInput).1 "UserID")
      ≠ some (addUser "now" largeIdData sampleInput).1 := by
  decide

/-- C3, amended: when the identity of the record `r` that `addUser` (resp.
`addTravelPackage`) returns is new, that is, no record of the prior collection
has it and it is not `NaN`, then `getUserById` (resp. `getPackageById`) of that
identity on the published state is `r`.  The identity is new when the input
carries no identity field and the prior collection is empty or has integer
identities whose largest is at least `-2^53` and below `2^53`, and when the
input carries an identity that is new. -/
theorem add_then_getById (now : String) (data : Data) (input : Obj) :
    (NewIdentity "UserID" data.users (addUser now data input).1 →
      getUserById ((addUser now data input).2 data)
        (Obj.get (addUser now data input).1 "UserID") = some (addUser now data input).1) ∧
    ((data.users = [] ∨ largestIdInRange "UserID" data.users = true) →
      Obj.has input "UserID" = false →
      NewIdentity "UserID" data.users (addUser now data input).1) ∧
    (Obj.has input "UserID" = true → NewIdentity "UserID" data.users input →
      NewIdentity "UserID" data.users (addUser now data input).1) ∧
    (NewIdentity "PackageID" data.travelPackages (addTravelPackage data input).1 →
      getPackageById ((addTravelPackage data input).2 data)
        (Obj.get (addTravelPackage data input).1 "PackageID") =
          some (addTravelPackage data input).1) ∧
    ((data.travelPackages = [] ∨ largestIdInRange "PackageID" data.travelPackages = true) →
      Obj.has input "PackageID" = false →
      NewIdentity "PackageID" data.travelPackages (addTravelPackage data input).1) ∧
    (Obj.has input "PackageID" = true → NewIdentity "PackageID" data.travelPackages input →
      NewIdentity "PackageID" data.travelPackages (addTravelPackage data input).1) :=
  ⟨fun hnew => find_appended "UserID" data.users _ hnew,
   fun hok hno => nextId_new "UserID" data.users _ hok (addUser_id now data input hno),
   fun hhas hnew => by
     unfold NewIdentity
     rw [addUser_id_of_has now data input hhas]
     exact hnew,
   fun hnew => find_appended "PackageID" data.travelPackages _ hnew,
   fun hok hno =>
     nextId_new "PackageID" data.travelPackages _ hok (addTravelPackage_id data input hno),
   fun hhas hnew => by
     unfold NewIdentity
     rw [addTravelPackage_id_of_has data input hhas]
     exact hnew⟩

/-- C3, amended, at the sample store: without identity in the input the new user
gets identity 4 and is found under it, and with the new identity 7 in the input
the new user is found under 7; likewise for the packages. -/
theorem add_then_getById_witness :
    (getUserById ((addUser "now" sampleData sampleInput).2 sampleData)
        (Obj.get (addUser "now" sampleData sampleInput).1 "UserID") =
          some (addUser "now" sampleData sampleInput).1 ∧
      getUserById ((addUser "now" sampleData freshIdInput).2 sampleData)
        (Obj.get (addUser "now" sampleData freshIdInput).1 "UserID") =
          some (addUser "now" sampleData freshIdInput).1 ∧
      getPackageById ((addTravelPackage sampleData sampleInput).2 sampleData)
        (Obj.get (addTravelPackage sampleData sampleInput).1 "PackageID") =
          some (addTravelPackage sampleData sampleInput).1 ∧
      getPackageById ((addTravelPackage sampleData freshIdInput).2 sampleData)
        (Obj.get (addTravelPackage sampleData freshIdInput).1 "PackageID") =
          some (addTravelPackage sampleData freshIdInput).1) ∧
    Obj.get (addUser "now" sampleData sampleInput).1 "UserID" = .num (.int 4) ∧
    Obj.get (addUser "now" sampleData freshIdInput).1 "UserID" = .num (.int 7) :=
  ⟨⟨(add_then_getById "now" sampleData sampleInput).1
      ((add_then_getById "now" sampleData sampleInput).2.1 (Or.inr (by decide)) (by decide)),
    (add_then_getById "now" sampleData freshIdInput).1
      ((add_then_getById "now" sampleData freshIdInput).2.2.1 (by decide) (by decide)),
    (add_then_getById "now" sampleData sampleInput).2.2.2.1
      ((add_then_getById "now" sampleData sampleInput).2.2.2.2.1 (Or.inr (by decide))
        (by decide)),
    (add_then_getById "now" sampleData freshIdInput).2.2.2.1
      ((add_then_getById "now" sampleData freshIdInput).2.2.2.2.2 (by decide) (by decide))⟩,
   by decide, by decide⟩

/-! ## Add appends -/

theorem appendsOne_append (before : List Obj) (r : Obj) : AppendsOne before (before ++ [r]) r := by
  refine ⟨rfl, by simp, ?_, by simp⟩
  intro i hi
  rw [List.getElem?_append_left hi]

/-- C4: the collection published by each `add` is the collection the updater was
applied to with the returned record appended at the end: one longer, every prior
record at its position. -/
theorem add_appends_returned (now : String) (data prev : Data) (input : Obj) :
    AppendsOne prev.users ((addUser now data input).2 prev).users (addUser now data input).1 ∧
    AppendsOne prev.travelPackages ((addTravelPackage data input).2 prev).travelPackages
      (addTravelPackage data input).1 ∧
    AppendsOne prev.bookings ((addBooking data input).2 prev).bookings
      (addBooking data input).1 ∧
    AppendsOne prev.payments ((addPayment data input).2 prev).payments
      (addPayment data input).1 ∧
    AppendsOne prev.reviews ((addReview now data input).2 prev).reviews
      (addReview now data input).1 ∧
    AppendsOne prev.assistanceRequests
      ((addAssistanceRequest now data input).2 prev).assistanceRequests
      (addAssistanceRequest now data input).1 :=
  ⟨appendsOne_append _ _, appendsOne_append _ _, appendsOne_append _ _,
   appendsOne_append _ _, appendsOne_append _ _, appendsOne_append _ _⟩

/-! ## Caller fields and generated fields -/

/-- C5 fails: the caller's `Status`, `ResolutionTime` and `Timestamp` are
replaced by `addAssistanceRequest`, the caller's `RegistrationDate` by `addUser`
and the caller's `Timestamp` by `addReview`. -/
theorem caller_fields_counterexample :
    Obj.get generatedFieldsInput "Status" = .str "completed" ∧
    Obj.get (addAssistanceRequest "now" sampleData generatedFieldsInput).1 "Status"
      = .str "pending" ∧
    Obj.get generatedFieldsInput "ResolutionTime" = .str "2024-02-01" ∧
    Obj.get (addAssistanceRequest "now" sampleData generatedFieldsInput).1 "ResolutionTime"
      = .null ∧
    Obj.get generatedFieldsInput "Timestamp" = .str "2020-01-01" ∧
    Obj.get (addAssistanceRequest "now" sampleData generatedFieldsInput).1 "Timestamp"
      = .str "now" ∧
    Obj.get generatedFieldsInput "RegistrationDate" = .str "2019-05-05" ∧
    Obj.get (addUser "now" sampleData generatedFieldsInput).1 "RegistrationDate"
      = .str "now" ∧
    Obj.get (addReview "now" sampleData generatedFieldsInput).1 "Timestamp" = .str "now" := by
  decide

/-- C5, amended: a field `k` the caller supplies is returned with the caller's
value, the identity field included, by `addTravelPackage`, `addBooking` and
`addPayment`, and by the other three unless `k` is a field they write after the
merge.  Those fields take the generated value whatever the input holds:
`RegistrationDate` (now) in `addUser`, `Timestamp` (now) in `addReview`, `Status`
(`pending`), `ResolutionTime` (`null`) and `Timestamp` (now) in
`addAssistanceRequest`; `addUser` gives `Approval` the caller's value when that is
truthy and `approved` otherwise. -/
theorem caller_fields_kept_unless_generated (now : String) (data : Data) (input : Obj)
    (k : String) :
    (Obj.has input k = true → k ≠ "RegistrationDate" → k ≠ "Approval" →
      Obj.get (addUser now data input).1 k = Obj.get input k) ∧
    Obj.get (addUser now data input).1 "RegistrationDate" = .str now ∧
    (truthy (Obj.get input "Approval") = true →
      Obj.get (addUser now data input).1 "Approval" = Obj.get input "Approval") ∧
    (truthy (Obj.get input "Approval") = false →
      Obj.get (addUser now data input).1 "Approval" = .str "approved") ∧
    (Obj.has input k = true → Obj.get (addTravelPackage data input).1 k = Obj.get input k) ∧
    (Obj.has input k = true → Obj.get (addBooking data input).1 k = Obj.get input k) ∧
    (Obj.has input k = true → Obj.get (addPayment data input).1 k = Obj.get input k) ∧
    (Obj.has input k = true → k ≠ "Timestamp" →
      Obj.get (addReview now data input).1 k = Obj.get input k) ∧
    Obj.get (addReview now data input).1 "Timestamp" = .str now ∧
    (Obj.has input k = true → k ≠ "Status" → k ≠ "ResolutionTime" → k ≠ "Timestamp" →
      Obj.get (addAssistanceRequest now data input).1 k = Obj.get input k) ∧
    Obj.get (addAssistanceRequest now data input).1 "Status" = .str "pending" ∧
    Obj.get (addAssistanceRequest now data input).1 "ResolutionTime" = .null ∧
    Obj.get (addAssistanceRequest now data input).1 "Timestamp" = .str now := by
  refine ⟨?_, ?_, ?_, ?_, ?_, ?_, ?_, ?_, ?_, ?_, ?_, ?_, ?_⟩
  · intro h h1 h2
    simp only [addUser]
    rw [Obj.get_set_ne _ _ _ _ h2, Obj.get_set_ne _ _ _ _ h1, Obj.get_spread_of_has _ _ _ h]
  · simp only [addUser]
    rw [Obj.get_set_ne _ _ _ _ (by decide), Obj.get_set_self]
  · intro h
    simp only [addUser]
    rw [Obj.get_set_self]
    simp [jsOr, h]
  · intro h
    simp only [addUser]
    rw [Obj.get_set_self]
    simp [jsOr, h]
  · intro h
    simp only [addTravelPackage]
    rw [Obj.get_spread_of_has _ _ _ h]
  · intro h
    simp only [addBooking]
    rw [Obj.get_spread_of_has _ _ _ h]
  · intro h
    simp only [addPayment]
    rw [Obj.get_spread_of_has _ _ _ h]
  · intro h h1
    simp only [addReview]
    rw [Obj.get_set_ne _ _ _ _ h1, Obj.get_spread_of_has _ _ _ h]
  · simp only [addReview]
    rw [Obj.get_set_self]
  · intro h h1 h2 h3
    simp only [addAssistanceRequest]
    rw [Obj.get_set_ne _ _ _ _ h3, Obj.get_set_ne _ _ _ _ h2, Obj.get_set_ne _ _ _ _ h1,
      Obj.get_spread_of_has _ _ _ h]
  · simp only [addAssistanceRequest]
    rw [Obj.get_set_ne _ _ _ _ (by decide), Obj.get_set_ne _ _ _ _ (by decide),
      Obj.get_set_self]
  · simp only [addAssistanceRequest]
    rw [Obj.get_set_ne _ _ _ _ (by decide), Obj.get_set_self]
  · simp only [addAssistanceRequest]
    rw [Obj.get_set_self]

/-- C5, amended, at the sample store: the caller's `IssueDescription` is kept by
every `add`, its `UserID` is kept by `addBooking`, and an input without `Approval`
gives an approved user. -/
theorem caller_fields_kept_unless_generated_witness :
    Obj.get (addUser "now" sampleData generatedFieldsInput).1 "IssueDescription"
      = .str "lost bag" ∧
    Obj.get (addUser "now" sampleData generatedFieldsInput).1 "Approval" = .str "approved" ∧
    Obj.get (addTravelPackage sampleData generatedFieldsInput).1 "IssueDescription"
      = .str "lost bag" ∧
    Obj.get (addBooking sampleData generatedFieldsInput).1 "IssueDescription"
      = .str "lost bag" ∧
    Obj.get (addPayment sampleData generatedFieldsInput).1 "IssueDescription"
      = .str "lost bag" ∧
    Obj.get (addReview "now" sampleData generatedFieldsInput).1 "IssueDescription"
      = .str "lost bag" ∧
    Obj.get (addAssistanceRequest "now" sampleData generatedFieldsInput).1 "IssueDescription"
      = .str "lost bag" ∧
    Obj.get (addBooking sampleData scenarioBooking).1 "UserID" = .num (.int 1) :=
  ⟨(caller_fields_kept_unless_generated "now" sampleData generatedFieldsInput
      "IssueDescription").1 (by decide) (by decide) (by decide),
   (caller_fields_kept_unless_generated "now" sampleData generatedFieldsInput
      "IssueDescription").2.2.2.1 (by decide),
   (caller_fields_kept_unless_generated "now" sampleData generatedFieldsInput
      "IssueDescription").2.2.2.2.1 (by decide),
   (caller_fields_kept_unless_generated "now" sampleData generatedFieldsInput
      "IssueDescription").2.2.2.2.2.1 (by decide),
   (caller_fields_kept_unless_generated "now" sampleData generatedFieldsInput
      "IssueDescription").2.2.2.2.2.2.1 (by decide),
   (caller_fields_kept_unless_generated "now" sampleData generatedFieldsInput
      "IssueDescription").2.2.2.2.2.2.2.1 (by decide) (by decide),
   (caller_fields_kept_unless_generated "now" sampleData generatedFieldsInput
      "IssueDescription").2.2.2.2.2.2.2.2.2.1 (by decide) (by decide) (by decide) (by decide),
   (caller_fields_kept_unless_generated "now" sampleData scenarioBooking
      "UserID").2.2.2.2.2.1 (by decide)⟩

/-! ## Update -/

theorem strictEq_eq (a b : JSVal) (h : strictEq a b = true) : a = b := by
  cases a with
  | undefined => cases b <;> simp_all [strictEq]
  | null => cases b <;> simp_all [strictEq]
  | bool x => cases b <;> simp_all [strictEq]
  | str x => cases b <;> simp_all [strictEq]
  | num x =>
    cases b with
    | num y => cases x <;> cases y <;> simp_all [strictEq]
    | _ => simp_all [strictEq]

theorem strictEq_of_both (a b c : JSVal) (ha : strictEq a c = true)
    (hb : strictEq b c = true) : strictEq a b = true := by
  have h1 := strictEq_eq a c ha
  have h2 := strictEq_eq b c hb
  subst h1
  subst h2
  exact ha

theorem map_eq_self_of_mem (f : Obj → Obj) (l : List Obj) (h : ∀ x ∈ l, f x = x) :
    l.map f = l := by
  induction l with
  | nil => rfl
  | cons x rest ih =>
    simp only [List.map_cons, h x (by simp), List.cons.injEq, true_and]
    exact ih (fun y hy => h y (by simp [hy]))

/-- The merge `{ ...r, ...{ [field]: v } }` defines the one property on `r`. -/
theorem spread_single (r : Obj) (field : String) (v : JSVal) :
    Obj.spread (Obj.spread Obj.empty r) (Obj.ofList [(field, v)]) = Obj.set r field v := by
  rw [Obj.spread_empty]
  apply Obj.ext_props
  rfl

/-- With pairwise distinct identities, the `map` of an update rewrites the one
position that holds the identity. -/
theorem map_update_eq_set (k : String) (id : JSVal) (updates : Obj) (coll : List Obj)
    (i : Nat) (r : Obj) (huniq : UniqueIds k coll) (hi : coll[i]? = some r)
    (hid : strictEq (Obj.get r k) id = true) :
    coll.map (fun u =>
        if strictEq (Obj.get u k) id then Obj.spread (Obj.spread Obj.empty u) updates else u) =
      coll.set i (Obj.spread (Obj.spread Obj.empty r) updates) := by
  induction coll generalizing i with
  | nil => simp at hi
  | cons x rest ih =>
    unfold UniqueIds at huniq
    rw [List.pairwise_cons] at huniq
    cases i with
    | zero =>
      simp only [List.getElem?_cons_zero, Option.some.injEq] at hi
      subst hi
      simp only [List.map_cons, hid, if_true, List.set_cons_zero, List.cons.injEq, true_and]
      apply map_eq_self_of_mem
      intro y hy
      have hne : strictEq (Obj.get y k) id = false := by
        cases hc : strictEq (Obj.get y k) id with
        | false => rfl
        | true =>
          have := strictEq_of_both _ _ _ hid hc
          rw [huniq.1 y hy] at this
          exact absurd this (by simp)
      simp [hne]
    | succ j =>
      simp only [List.getElem?_cons_succ] at hi
      have hmem : r ∈ rest := List.getElem?_mem hi
      have hx : strictEq (Obj.get x k) id = false := by
        cases hc : strictEq (Obj.get x k) id with
        | false => rfl
        | true =>
          have := strictEq_of_both _ _ _ hc hid
          rw [huniq.1 r hmem] at this
          exact absurd this (by simp)
      simp only [List.map_cons, hx, List.set_cons_succ, List.cons.injEq]
      exact ⟨by simp, ih j huniq.2 hi⟩

theorem fieldUpdatedAt_set (before : List Obj) (i : Nat) (r : Obj) (field : String)
    (v : JSVal) (hi : before[i]? = some r) :
    FieldUpdatedAt before (before.set i (Obj.set r field v)) i r field v := by
  have hlt : i < before.length := by
    rcases Nat.lt_or_ge i before.length with h | h
    · exact h
    · rw [List.getElem?_eq_none h] at hi
      exact absurd hi (by simp)
  refine ⟨rfl, by simp, ⟨Obj.set r field v, ?_, Obj.get_set_self r field v, ?_⟩, ?_⟩
  · exact List.getElem?_set_self hlt
  · intro k hk
    exact Obj.get_set_ne r field k v hk
  · intro j hj
    exact List.getElem?_set_ne (fun e => hj e.symm)

/-- C6: in a collection with pairwise distinct identities whose record at
position `i` is `r` and has identity `id`, each of the six `update` operations
called with `{field: v}` gives the collection in which position `i` holds `r`
with `field` set to `v` and every other field as before; every other position,
the length and the order are unchanged. -/
theorem update_changes_one_field (id : JSVal) (field : String) (v : JSVal) (prev : Data)
    (i : Nat) (r : Obj) :
    (UniqueIds "UserID" prev.users → prev.users[i]? = some r →
      strictEq (Obj.get r "UserID") id = true →
      FieldUpdatedAt prev.users (updateUser id (Obj.ofList [(field, v)]) prev).users
        i r field v) ∧
    (UniqueIds "PackageID" prev.travelPackages → prev.travelPackages[i]? = some r →
      strictEq (Obj.get r "PackageID") id = true →
      FieldUpdatedAt prev.travelPackages
        (updateTravelPackage id (Obj.ofList [(field, v)]) prev).travelPackages i r field v) ∧
    (UniqueIds "BookingID" prev.bookings → prev.bookings[i]? = some r →
      strictEq (Obj.get r "BookingID") id = true →
      FieldUpdatedAt prev.bookings (updateBooking id (Obj.ofList [(field, v)]) prev).bookings
        i r field v) ∧
    (UniqueIds "PaymentID" prev.payments → prev.payments[i]? = some r →
      strictEq (Obj.get r "PaymentID") id = true →
      FieldUpdatedAt prev.payments (updatePayment id (Obj.ofList [(field, v)]) prev).payments
        i r field v) ∧
    (UniqueIds "ReviewID" prev.reviews → prev.reviews[i]? = some r →
      strictEq (Obj.get r "ReviewID") id = true →
      FieldUpdatedAt prev.reviews (updateReview id (Obj.ofList [(field, v)]) prev).reviews
        i r field v) ∧
    (UniqueIds "RequestID" prev.assistanceRequests → prev.assistanceRequests[i]? = some r →
      strictEq (Obj.get r "RequestID") id = true →
      FieldUpdatedAt prev.assistanceRequests
        (updateAssistanceRequest id (Obj.ofList [(field, v)]) prev).assistanceRequests
        i r field v) := by
  refine ⟨?_, ?_, ?_, ?_, ?_, ?_⟩ <;>
  · intro huniq hi hid
    have h := map_update_eq_set _ id (Obj.ofList [(field, v)]) _ i r huniq hi hid
    rw [spread_single] at h
    have hspec := fieldUpdatedAt_set _ i r field v hi
    rw [← h] at hspec
    exact hspec

/-- C6 at the sample store: `update(3, {Status: "cancelled"})` on each collection
rewrites the second record only. -/
theorem update_changes_one_field_witness :
    FieldUpdatedAt sampleData.users
      (updateUser (.num (.int 3)) (Obj.ofList [("Status", .str "cancelled")]) sampleData).users
      1 (Obj.ofList [("UserID", .num (.int 3)), ("Name", .str "Bob")])
      "Status" (.str "cancelled") ∧
    FieldUpdatedAt sampleData.travelPackages
      (updateTravelPackage (.num (.int 3)) (Obj.ofList [("Status", .str "cancelled")])
        sampleData).travelPackages
      1 (Obj.ofList [("PackageID", .num (.int 3)), ("Title", .str "Bali")])
      "Status" (.str "cancelled") ∧
    FieldUpdatedAt sampleData.bookings
      (updateBooking (.num (.int 3)) (Obj.ofList [("Status", .str "cancelled")])
        sampleData).bookings
      1 (Obj.ofList [("BookingID", .num (.int 3)), ("Status", .str "confirmed")])
      "Status" (.str "cancelled") ∧
    FieldUpdatedAt sampleData.payments
      (updatePayment (.num (.int 3)) (Obj.ofList [("Status", .str "cancelled")])
        sampleData).payments
      1 (Obj.ofList [("PaymentID", .num (.int 3)), ("Amount", .num (.int 250))])
      "Status" (.str "cancelled") ∧
    FieldUpdatedAt sampleData.reviews
      (updateReview (.num (.int 3)) (Obj.ofList [("Status", .str "cancelled")])
        sampleData).reviews
      1 (Obj.ofList [("ReviewID", .num (.int 3)), ("Rating", .num (.int 4))])
      "Status" (.str "cancelled") ∧
    FieldUpdatedAt sampleData.assistanceRequests
      (updateAssistanceRequest (.num (.int 3)) (Obj.ofList [("Status", .str "cancelled")])
        sampleData).assistanceRequests
      1 (Obj.ofList [("RequestID", .num (.int 3)), ("Status", .str "completed")])
      "Status" (.str "cancelled") :=
  ⟨(update_changes_one_field _ _ _ sampleData 1 _).1 (by decide) (by decide) (by decide),
   (update_changes_one_field _ _ _ sampleData 1 _).2.1 (by decide) (by decide) (by decide),
   (update_changes_one_field _ _ _ sampleData 1 _).2.2.1 (by decide) (by decide) (by decide),
   (update_changes_one_field _ _ _ sampleData 1 _).2.2.2.1 (by decide) (by decide) (by decide),
   (update_changes_one_field _ _ _ sampleData 1 _).2.2.2.2.1
     (by decide) (by decide) (by decide),
   (update_changes_one_field _ _ _ sampleData 1 _).2.2.2.2.2
     (by decide) (by decide) (by decide)⟩

theorem map_update_absent (k : String) (id : JSVal) (updates : Obj) (coll : List Obj)
    (h : ∀ r ∈ coll, strictEq (Obj.get r k) id = false) :
    coll.map (fun u =>
        if strictEq (Obj.get u k) id then Obj.spread (Obj.spread Obj.empty u) updates else u) =
      coll := by
  apply map_eq_self_of_mem
  intro y hy
  simp [h y hy]

/-- C7: when no record of the target collection has identity `id`, each of the
six `update` operations leaves the whole store, and so the collection, as it
was. -/
theorem update_absent_unchanged (id : JSVal) (updates : Obj) (prev : Data) :
    ((∀ r ∈ prev.users, strictEq (Obj.get r "UserID") id = false) →
      updateUser id updates prev = prev) ∧
    ((∀ r ∈ prev.travelPackages, strictEq (Obj.get r "PackageID") id = false) →
      updateTravelPackage id updates prev = prev) ∧
    ((∀ r ∈ prev.bookings, strictEq (Obj.get r "BookingID") id = false) →
      updateBooking id updates prev = prev) ∧
    ((∀ r ∈ prev.payments, strictEq (Obj.get r "PaymentID") id = false) →
      updatePayment id updates prev = prev) ∧
    ((∀ r ∈ prev.reviews, strictEq (Obj.get r "ReviewID") id = false) →
      updateReview id updates prev = prev) ∧
    ((∀ r ∈ prev.assistanceRequests, strictEq (Obj.get r "RequestID") id = false) →
      updateAssistanceRequest id updates prev = prev) := by
  refine ⟨?_, ?_, ?_, ?_, ?_, ?_⟩
  · intro h
    simp only [updateUser, map_update_absent "UserID" id updates _ h]
  · intro h
    simp only [updateTravelPackage, map_update_absent "PackageID" id updates _ h]
  · intro h
    simp only [updateBooking, map_update_absent "BookingID" id updates _ h]
  · intro h
    simp only [updatePayment, map_update_absent "PaymentID" id updates _ h]
  · intro h
    simp only [updateReview, map_update_absent "ReviewID" id updates _ h]
  · intro h
    simp only [updateAssistanceRequest, map_update_absent "RequestID" id updates _ h]

/-- C7 at the sample store: `update(999, {Status: "confirmed"})` changes nothing,
and the bookings keep their length. -/
theorem update_absent_unchanged_witness :
    (updateUser (.num (.int 999)) (Obj.ofList [("Status", .str "confirmed")]) sampleData
        = sampleData ∧
      updateTravelPackage (.num (.int 999)) (Obj.ofList [("Status", .str "confirmed")])
        sampleData = sampleData ∧
      updateBooking (.num (.int 999)) (Obj.ofList [("Status", .str "confirmed")]) sampleData
        = sampleData ∧
      updatePayment (.num (.int 999)) (Obj.ofList [("Status", .str "confirmed")]) sampleData
        = sampleData ∧
      updateReview (.num (.int 999)) (Obj.ofList [("Status", .str "confirmed")]) sampleData
        = sampleData ∧
      updateAssistanceRequest (.num (.int 999)) (Obj.ofList [("Status", .str "confirmed")])
        sampleData = sampleData) ∧
    (updateBooking (.num (.int 999)) (Obj.ofList [("Status", .str "confirmed")])
      sampleData).bookings.length = 2 :=
  ⟨⟨(update_absent_unchanged _ _ sampleData).1 (by decide),
    (update_absent_unchanged _ _ sampleData).2.1 (by decide),
    (update_absent_unchanged _ _ sampleData).2.2.1 (by decide),
    (update_absent_unchanged _ _ sampleData).2.2.2.1 (by decide),
    (update_absent_unchanged _ _ sampleData).2.2.2.2.1 (by decide),
    (update_absent_unchanged _ _ sampleData).2.2.2.2.2 (by decide)⟩, by decide⟩

/-! ## Delete -/

theorem filter_delete_eq_eraseIdx (k : String) (id : JSVal) (coll : List Obj) (i : Nat)
    (r : Obj) (huniq : UniqueIds k coll) (hi : coll[i]? = some r)
    (hid : strictEq (Obj.get r k) id = true) :
    coll.filter (fun u => !strictEq (Obj.get u k) id) = coll.eraseIdx i ∧
      ∀ x ∈ coll.eraseIdx i, strictEq (Obj.get x k) id = false := by
  induction coll generalizing i with
  | nil => simp at hi
  | cons x rest ih =>
    unfold UniqueIds at huniq
    rw [List.pairwise_cons] at huniq
    cases i with
    | zero =>
      simp only [List.getElem?_cons_zero, Option.some.injEq] at hi
      subst hi
      have hrest : ∀ y ∈ rest, strictEq (Obj.get y k) id = false := by
        intro y hy
        cases hc : strictEq (Obj.get y k) id with
        | false => rfl
        | true =>
          have := strictEq_of_both _ _ _ hid hc
          rw [huniq.1 y hy] at this
          exact absurd this (by simp)
      refine ⟨?_, by simpa using hrest⟩
      simp only [List.filter_cons, hid, Bool.not_true, List.eraseIdx_cons_zero,
        Bool.false_eq_true, if_false]
      rw [List.filter_eq_self]
      intro y hy
      simp [hrest y hy]
    | succ j =>
      simp only [List.getElem?_cons_succ] at hi
      have hmem : r ∈ rest := List.getElem?_mem hi
      have hx : strictEq (Obj.get x k) id = false := by
        cases hc : strictEq (Obj.get x k) id with
        | false => rfl
        | true =>
          have := strictEq_of_both _ _ _ hc hid
          rw [huniq.1 r hmem] at this
          exact absurd this (by simp)
      obtain ⟨h1, h2⟩ := ih j huniq.2 hi
      refine ⟨?_, ?_⟩
      · simp only [List.filter_cons, hx, Bool.not_false, if_true, List.eraseIdx_cons_succ, h1]
      · intro y hy
        simp only [List.eraseIdx_cons_succ, List.mem_cons] at hy
        rcases hy with hy | hy
        · rw [hy]; exact hx
        · exact h2 y hy

theorem removedAt_filter (k : String) (id : JSVal) (coll : List Obj) (i : Nat) (r : Obj)
    (huniq : UniqueIds k coll) (hi : coll[i]? = some r)
    (hid : strictEq (Obj.get r k) id = true) :
    RemovedAt k id coll (coll.filter (fun u => !strictEq (Obj.get u k) id)) i := by
  obtain ⟨h1, h2⟩ := filter_delete_eq_eraseIdx k id coll i r huniq hi hid
  have hlt : i < coll.length := by
    rcases Nat.lt_or_ge i coll.length with h | h
    · exact h
    · rw [List.getElem?_eq_none h] at hi
      exact absurd hi (by simp)
  refine ⟨h1, ?_, ?_⟩
  · rw [h1, List.length_eraseIdx_of_lt hlt]
    omega
  · rw [h1]; exact h2

/-- C8 fails on a collection that holds the identity twice: in `clashedData` two
bookings have `BookingID` 1 and two users have `UserID` 1, and `deleteBooking(1)`
and `deleteUser(1)` each remove two records. -/
theorem delete_removes_one_counterexample :
    (∃ r ∈ clashedData.bookings, strictEq (Obj.get r "BookingID") (.num (.int 1)) = true) ∧
    clashedData.bookings.length = 3 ∧
    (deleteBooking (.num (.int 1)) clashedData).bookings.length = 1 ∧
    (∃ r ∈ clashedData.users, strictEq (Obj.get r "UserID") (.num (.int 1)) = true) ∧
    clashedData.users.length = 3 ∧
    (deleteUser (.num (.int 1)) clashedData).users.length = 1 := by
  decide

/-- C8, amended: in a collection with pairwise distinct identities whose record
at position `i` has identity `id`, each of the five `delete` operations removes
that position and nothing else: the collection is one shorter and no record with
identity `id` is left. -/
theorem delete_removes_one (id : JSVal) (prev : Data) (i : Nat) (r : Obj) :
    (UniqueIds "UserID" prev.users → prev.users[i]? = some r →
      strictEq (Obj.get r "UserID") id = true →
      RemovedAt "UserID" id prev.users (deleteUser id prev).users i) ∧
    (UniqueIds "PackageID" prev.travelPackages → prev.travelPackages[i]? = some r →
      strictEq (Obj.get r "PackageID") id = true →
      RemovedAt "PackageID" id prev.travelPackages
        (deleteTravelPackage id prev).travelPackages i) ∧
    (UniqueIds "BookingID" prev.bookings → prev.bookings[i]? = some r →
      strictEq (Obj.get r "BookingID") id = true →
      RemovedAt "BookingID" id prev.bookings (deleteBooking id prev).bookings i) ∧
    (UniqueIds "ReviewID" prev.reviews → prev.reviews[i]? = some r →
      strictEq (Obj.get r "ReviewID") id = true →
      RemovedAt "ReviewID" id prev.reviews (deleteReview id prev).reviews i) ∧
    (UniqueIds "RequestID" prev.assistanceRequests → prev.assistanceRequests[i]? = some r →
      strictEq (Obj.get r "RequestID") id = true →
      RemovedAt "RequestID" id prev.assistanceRequests
        (deleteAssistanceRequest id prev).assistanceRequests i) :=
  ⟨fun hu hi hid => removedAt_filter "UserID" id prev.users i r hu hi hid,
   fun hu hi hid => removedAt_filter "PackageID" id prev.travelPackages i r hu hi hid,
   fun hu hi hid => removedAt_filter "BookingID" id prev.bookings i r hu hi hid,
   fun hu hi hid => removedAt_filter "ReviewID" id prev.reviews i r hu hi hid,
   fun hu hi hid => removedAt_filter "RequestID" id prev.assistanceRequests i r hu hi hid⟩

/-- C8, amended, at the sample store: `delete(3)` removes the second record of
each collection, leaving one. -/
theorem delete_removes_one_witness :
    (RemovedAt "UserID" (.num (.int 3)) sampleData.users
        (deleteUser (.num (.int 3)) sampleData).users 1 ∧
      RemovedAt "BookingID" (.num (.int 3)) sampleData.bookings
        (deleteBooking (.num (.int 3)) sampleData).bookings 1) ∧
    (deleteBooking (.num (.int 3)) sampleData).bookings.length = 1 :=
  ⟨⟨(delete_removes_one (.num (.int 3)) sampleData 1
        (Obj.ofList [("UserID", .num (.int 3)), ("Name", .str "Bob")])).1
      (by decide) (by decide) (by decide),
    (delete_removes_one (.num (.int 3)) sampleData 1
        (Obj.ofList [("BookingID", .num (.int 3)), ("Status", .str "confirmed")])).2.2.1
      (by decide) (by decide) (by decide)⟩, by decide⟩

theorem filter_delete_absent (k : String) (id : JSVal) (coll : List Obj)
    (h : ∀ r ∈ coll, strictEq (Obj.get r k) id = false) :
    coll.filter (fun u => !strictEq (Obj.get u k) id) = coll := by
  rw [List.filter_eq_self]
  intro y hy
  simp [h y hy]

/-- C9: when no record of the target collection has identity `id`, each of the
five `delete` operations leaves the whole store, and so the collection with its
length, records and order, as it was. -/
theorem delete_absent_unchanged (id : JSVal) (prev : Data) :
    ((∀ r ∈ prev.users, strictEq (Obj.get r "UserID") id = false) →
      deleteUser id prev = prev) ∧
    ((∀ r ∈ prev.travelPackages, strictEq (Obj.get r "PackageID") id = false) →
      deleteTravelPackage id prev = prev) ∧
    ((∀ r ∈ prev.bookings, strictEq (Obj.get r "BookingID") id = false) →
      deleteBooking id prev = prev) ∧
    ((∀ r ∈ prev.reviews, strictEq (Obj.get r "ReviewID") id = false) →
      deleteReview id prev = prev) ∧
    ((∀ r ∈ prev.assistanceRequests, strictEq (Obj.get r "RequestID") id = false) →
      deleteAssistanceRequest id prev = prev) := by
  refine ⟨?_, ?_, ?_, ?_, ?_⟩
  · intro h
    simp only [deleteUser, filter_delete_absent "UserID" id _ h]
  · intro h
    simp only [deleteTravelPackage, filter_delete_absent "PackageID" id _ h]
  · intro h
    simp only [deleteBooking, filter_delete_absent "BookingID" id _ h]
  · intro h
    simp only [deleteReview, filter_delete_absent "ReviewID" id _ h]
  · intro h
    simp only [deleteAssistanceRequest, filter_delete_absent "RequestID" id _ h]

/-- C9 at the sample store: `delete(999)` changes nothing. -/
theorem delete_absent_unchanged_witness :
    (deleteUser (.num (.int 999)) sampleData = sampleData ∧
      deleteTravelPackage (.num (.int 999)) sampleData = sampleData ∧
      deleteBooking (.num (.int 999)) sampleData = sampleData ∧
      deleteReview (.num (.int 999)) sampleData = sampleData ∧
      deleteAssistanceRequest (.num (.int 999)) sampleData = sampleData) ∧
    (deleteReview (.num (.int 999)) sampleData).reviews.length = 2 :=
  ⟨⟨(delete_absent_unchanged _ sampleData).1 (by decide),
    (delete_absent_unchanged _ sampleData).2.1 (by decide),
    (delete_absent_unchanged _ sampleData).2.2.1 (by decide),
    (delete_absent_unchanged _ sampleData).2.2.2.1 (by decide),
    (delete_absent_unchanged _ sampleData).2.2.2.2 (by decide)⟩, by decide⟩

/-! ## Identity uniqueness under sequential use -/

theorem strictEq_comm (a b : JSVal) : strictEq a b = strictEq b a := by
  cases a with
  | undefined => cases b <;> first | rfl | (rename_i n; cases n <;> rfl)
  | null => cases b <;> first | rfl | (rename_i n; cases n <;> rfl)
  | bool x => cases b <;> simp [strictEq, Bool.beq_comm]
  | str x => cases b <;> simp [strictEq, eq_comm]
  | num x =>
    cases b with
    | num y => cases x <;> cases y <;> simp [strictEq, eq_comm]
    | _ => cases x <;> rfl

theorem freshId_iff (k : String) (coll : List Obj) (v : JSVal) :
    freshId k coll v = true ↔
      v.isInt = true ∧ ∀ x ∈ coll, strictEq (Obj.get x k) v = false := by
  simp [freshId]

theorem strictEq_self_of_isInt (v : JSVal) (h : v.isInt = true) : strictEq v v = true := by
  obtain ⟨z, rfl⟩ := (JSVal.isInt_iff v).1 h
  rw [strictEq_int]
  simp

/-- Appending a record whose identity is a new integer keeps the identities
integer and pairwise distinct. -/
theorem distinct_append (k : String) (coll : List Obj) (r : Obj)
    (h : DistinctIntIds k coll) (hint : (Obj.get r k).isInt = true)
    (hnew : ∀ x ∈ coll, strictEq (Obj.get x k) (Obj.get r k) = false) :
    DistinctIntIds k (coll ++ [r]) := by
  refine ⟨?_, ?_⟩
  · intro x hx
    rcases List.mem_append.1 hx with hx | hx
    · exact h.1 x hx
    · simp only [List.mem_singleton] at hx
      rw [hx]
      exact hint
  · unfold UniqueIds
    rw [List.pairwise_append]
    refine ⟨h.2, by simp, ?_⟩
    intro x hx y hy
    simp only [List.mem_singleton] at hy
    rw [hy]
    exact hnew x hx

/-- The identity of the record an `add` builds is `addIdentity`. -/
theorem addIdentity_eq (k : String) (coll : List Obj) (r input : Obj)
    (hno : Obj.has input k = false → Obj.get r k =
      .num (JSNum.add (mathMax (coll.map (fun x => Obj.get x k))) (.int 1)))
    (hhas : Obj.has input k = true → Obj.get r k = Obj.get input k) :
    Obj.get r k = addIdentity k coll input := by
  unfold addIdentity
  cases hc : Obj.has input k with
  | true => simpa using hhas hc
  | false => simpa using hno hc

/-- An `add` that brings no identity is admissible when the largest identity of
its collection is at least `-2^53` and below `2^53`. -/
theorem addKeepsDistinct_of_range (k : String) (coll : List Obj) (input : Obj)
    (hno : Obj.has input k = false) (hrange : largestIdInRange k coll = true) :
    addKeepsDistinct k coll input = true := by
  have hr : Obj.get (Obj.set Obj.empty k (addIdentity k coll input)) k =
      .num (JSNum.add (mathMax (coll.map (fun x => Obj.get x k))) (.int 1)) := by
    rw [Obj.get_set_self]
    simp [addIdentity, hno]
  obtain ⟨hi, hnew⟩ := nextId_fresh k coll _ hrange hr
  rw [Obj.get_set_self] at hi
  have hnew2 := hnew.2
  rw [Obj.get_set_self] at hnew2
  exact (freshId_iff k coll _).2 ⟨hi, hnew2⟩

/-- An `add` that brings an identity is admissible when that identity is an
integer no record has. -/
theorem addKeepsDistinct_of_has (k : String) (coll : List Obj) (input : Obj)
    (hhas : Obj.has input k = true) (hfresh : freshId k coll (Obj.get input k) = true) :
    addKeepsDistinct k coll input = true := by
  simpa [addKeepsDistinct, addIdentity, hhas] using hfresh

/-- An admissible `add` keeps the identities integer and pairwise distinct; `r`
is the record it appends, whose identity is the caller's if the input has one
and `max + 1` if not. -/
theorem distinct_add (k : String) (coll : List Obj) (r input : Obj)
    (h : DistinctIntIds k coll) (hok : addKeepsDistinct k coll input = true)
    (hno : Obj.has input k = false → Obj.get r k =
      .num (JSNum.add (mathMax (coll.map (fun x => Obj.get x k))) (.int 1)))
    (hhas : Obj.has input k = true → Obj.get r k = Obj.get input k) :
    DistinctIntIds k (coll ++ [r]) := by
  obtain ⟨hi, hf⟩ := (freshId_iff k coll _).1 hok
  have e := addIdentity_eq k coll r input hno hhas
  exact distinct_append k coll r h (by rw [e]; exact hi) (by rw [e]; exact hf)

theorem merged_identity (k : String) (id : JSVal) (updates x : Obj)
    (hok : Obj.has updates k = false ∨ strictEq (Obj.get updates k) id = true)
    (hx : strictEq (Obj.get x k) id = true) :
    Obj.get (Obj.spread (Obj.spread Obj.empty x) updates) k = Obj.get x k := by
  rw [Obj.spread_empty]
  cases hhas : Obj.has updates k with
  | false => exact Obj.get_spread_of_not_has x updates k hhas
  | true =>
    rw [Obj.get_spread_of_has x updates k hhas]
    rcases hok with hok | hok
    · rw [hhas] at hok
      exact absurd hok (by simp)
    · rw [strictEq_eq _ _ hok, strictEq_eq _ _ hx]

/-- An `update` whose fields leave the identity as it is keeps the identities
integer and pairwise distinct. -/
theorem distinct_map_same (k : String) (id : JSVal) (updates : Obj) (coll : List Obj)
    (h : DistinctIntIds k coll)
    (hok : Obj.has updates k = false ∨ strictEq (Obj.get updates k) id = true) :
    DistinctIntIds k (coll.map (fun u =>
      if strictEq (Obj.get u k) id then Obj.spread (Obj.spread Obj.empty u) updates else u)) := by
  have hsame : ∀ u : Obj, Obj.get
      (if strictEq (Obj.get u k) id then Obj.spread (Obj.spread Obj.empty u) updates else u) k
        = Obj.get u k := by
    intro u
    cases hu : strictEq (Obj.get u k) id with
    | false => simp
    | true => simpa using merged_identity k id updates u hok hu
  refine ⟨?_, ?_⟩
  · intro y hy
    obtain ⟨u, hu, rfl⟩ := List.mem_map.1 hy
    rw [hsame u]
    exact h.1 u hu
  · unfold UniqueIds
    rw [List.pairwise_map]
    have h2 := h.2
    unfold UniqueIds at h2
    refine List.Pairwise.imp ?_ h2
    intro a b hab
    rw [hsame a, hsame b]
    exact hab

/-- An `update` that gives the records of identity `id` a new integer identity
keeps the identities integer and pairwise distinct: at most one record has the
identity `id`. -/
theorem distinct_map_fresh (k : String) (id : JSVal) (updates : Obj) (coll : List Obj)
    (h : DistinctIntIds k coll) (hhas : Obj.has updates k = true)
    (hfresh : freshId k coll (Obj.get updates k) = true) :
    DistinctIntIds k (coll.map (fun u =>
      if strictEq (Obj.get u k) id then Obj.spread (Obj.spread Obj.empty u) updates else u)) := by
  obtain ⟨hi, hf⟩ := (freshId_iff k coll _).1 hfresh
  have hnew : ∀ u : Obj, strictEq (Obj.get u k) id = true → Obj.get
      (if strictEq (Obj.get u k) id then Obj.spread (Obj.spread Obj.empty u) updates else u) k
        = Obj.get updates k := by
    intro u hu
    rw [hu, if_pos rfl, Obj.spread_empty]
    exact Obj.get_spread_of_has u updates k hhas
  have hold : ∀ u : Obj, strictEq (Obj.get u k) id = false → Obj.get
      (if strictEq (Obj.get u k) id then Obj.spread (Obj.spread Obj.empty u) updates else u) k
        = Obj.get u k := by
    intro u hu
    rw [hu]
    rfl
  refine ⟨?_, ?_⟩
  · intro y hy
    obtain ⟨u, hu, rfl⟩ := List.mem_map.1 hy
    rcases Bool.eq_false_or_eq_true (strictEq (Obj.get u k) id) with hc | hc
    · rw [hnew u hc]
      exact hi
    · rw [hold u hc]
      exact h.1 u hu
  · unfold UniqueIds
    rw [List.pairwise_map]
    have h2 := h.2
    unfold UniqueIds at h2
    refine List.Pairwise.imp_of_mem ?_ h2
    intro a b ha hb hab
    rcases Bool.eq_false_or_eq_true (strictEq (Obj.get a k) id) with hca | hca
    · rcases Bool.eq_false_or_eq_true (strictEq (Obj.get b k) id) with hcb | hcb
      · have := strictEq_of_both _ _ _ hca hcb
        rw [hab] at this
        exact absurd this (by simp)
      · rw [hnew a hca, hold b hcb, strictEq_comm]
        exact hf b hb
    · rcases Bool.eq_false_or_eq_true (strictEq (Obj.get b k) id) with hcb | hcb
      · rw [hold a hca, hnew b hcb]
        exact hf a ha
      · rw [hold a hca, hold b hcb]
        exact hab

theorem distinct_map_update (k : String) (id : JSVal) (updates : Obj) (coll : List Obj)
    (h : DistinctIntIds k coll) (hok : updateKeepsDistinct k coll id updates = true) :
    DistinctIntIds k (coll.map (fun u =>
      if strictEq (Obj.get u k) id then Obj.spread (Obj.spread Obj.empty u) updates else u)) := by
  simp only [updateKeepsDistinct, Bool.or_eq_true, Bool.not_eq_true', List.all_eq_true] at hok
  rcases hok with (hok | hfresh) | habsent
  · exact distinct_map_same k id updates coll h hok
  · cases hhas : Obj.has updates k with
    | false => exact distinct_map_same k id updates coll h (Or.inl hhas)
    | true => exact distinct_map_fresh k id updates coll h hhas hfresh
  · rw [map_update_absent k id updates coll habsent]
    exact h

theorem distinct_filter_delete (k : String) (id : JSVal) (coll : List Obj)
    (h : DistinctIntIds k coll) :
    DistinctIntIds k (coll.filter (fun u => !strictEq (Obj.get u k) id)) := by
  refine ⟨?_, ?_⟩
  · intro y hy
    exact h.1 y (List.mem_filter.1 hy).1
  · exact List.Pairwise.filter _ h.2

/-- One admissible call keeps the identities of every collection integer and
pairwise distinct. -/
theorem distinctIds_step (op : Op) (s : Data) (hinv : DistinctIds s)
    (hok : op.keepsDistinct s = true) : DistinctIds (op.apply s) := by
  obtain ⟨hu, hp, hb, hpay, hr, ha⟩ := hinv
  cases op with
  | addUser now userData =>
    exact ⟨distinct_add "UserID" s.users _ userData hu hok (addUser_id now s userData)
      (addUser_id_of_has now s userData), hp, hb, hpay, hr, ha⟩
  | updateUser userId updates =>
    exact ⟨distinct_map_update "UserID" userId updates s.users hu hok, hp, hb, hpay, hr, ha⟩
  | deleteUser userId =>
    exact ⟨distinct_filter_delete "UserID" userId s.users hu, hp, hb, hpay, hr, ha⟩
  | addTravelPackage packageData =>
    exact ⟨hu, distinct_add "PackageID" s.travelPackages _ packageData hp hok
      (addTravelPackage_id s packageData) (addTravelPackage_id_of_has s packageData),
      hb, hpay, hr, ha⟩
  | updateTravelPackage packageId updates =>
    exact ⟨hu, distinct_map_update "PackageID" packageId updates s.travelPackages hp hok,
      hb, hpay, hr, ha⟩
  | deleteTravelPackage packageId =>
    exact ⟨hu, distinct_filter_delete "PackageID" packageId s.travelPackages hp,
      hb, hpay, hr, ha⟩
  | addBooking bookingData =>
    exact ⟨hu, hp, distinct_add "BookingID" s.bookings _ bookingData hb hok
      (addBooking_id s bookingData) (addBooking_id_of_has s bookingData), hpay, hr, ha⟩
  | updateBooking bookingId updates =>
    exact ⟨hu, hp, distinct_map_update "BookingID" bookingId updates s.bookings hb hok,
      hpay, hr, ha⟩
  | deleteBooking bookingId =>
    exact ⟨hu, hp, distinct_filter_delete "BookingID" bookingId s.bookings hb, hpay, hr, ha⟩
  | addPayment paymentData =>
    exact ⟨hu, hp, hb, distinct_add "PaymentID" s.payments _ paymentData hpay hok
      (addPayment_id s paymentData) (addPayment_id_of_has s paymentData), hr, ha⟩
  | updatePayment paymentId updates =>
    exact ⟨hu, hp, hb, distinct_map_update "PaymentID" paymentId updates s.payments hpay hok,
      hr, ha⟩
  | addReview now reviewData =>
    exact ⟨hu, hp, hb, hpay, distinct_add "ReviewID" s.reviews _ reviewData hr hok
      (addReview_id now s reviewData) (addReview_id_of_has now s reviewData), ha⟩
  | updateReview reviewId updates =>
    exact ⟨hu, hp, hb, hpay, distinct_map_update "ReviewID" reviewId updates s.reviews hr hok,
      ha⟩
  | deleteReview reviewId =>
    exact ⟨hu, hp, hb, hpay, distinct_filter_delete "ReviewID" reviewId s.reviews hr, ha⟩
  | addAssistanceRequest now requestData =>
    exact ⟨hu, hp, hb, hpay, hr,
      distinct_add "RequestID" s.assistanceRequests _ requestData ha hok
        (addAssistanceRequest_id now s requestData)
        (addAssistanceRequest_id_of_has now s requestData)⟩
  | updateAssistanceRequest requestId updates =>
    exact ⟨hu, hp, hb, hpay, hr,
      distinct_map_update "RequestID" requestId updates s.assistanceRequests ha hok⟩
  | deleteAssistanceRequest requestId =>
    exact ⟨hu, hp, hb, hpay, hr,
      distinct_filter_delete "RequestID" requestId s.assistanceRequests ha⟩

/-- C10 fails as stated.  The sample store is non-empty with pairwise distinct
identities, and sequential calls break that in three ways: `addUser` with an
input that carries `UserID: 1`; `updateBooking(1, {BookingID: 3})`; and, once
both reviews are deleted, two `addReview` calls, which both give `-Infinity`.
The store `largeIdData` is non-empty with pairwise distinct identities too, and
one `addPayment` of an input without identity gives the identity `2^53` a
second time. -/
theorem identities_distinct_counterexample :
    DistinctIds sampleData ∧ sampleData.users ≠ [] ∧ sampleData.bookings ≠ [] ∧
    sampleData.reviews ≠ [] ∧
    ¬ UniqueIds "UserID" (runOps [Op.addUser "now" clashingInput] sampleData).users ∧
    ¬ UniqueIds "BookingID"
      (runOps [Op.updateBooking (.num (.int 1)) (Obj.ofList [("BookingID", .num (.int 3))])]
        sampleData).bookings ∧
    ¬ UniqueIds "ReviewID"
      (runOps [Op.deleteReview (.num (.int 1)), Op.deleteReview (.num (.int 3)),
        Op.addReview "now" sampleInput, Op.addReview "now" sampleInput] sampleData).reviews ∧
    DistinctIds largeIdData ∧ largeIdData.payments ≠ [] ∧
    Obj.has sampleInput "PaymentID" = false ∧
    ¬ UniqueIds "PaymentID" (runOps [Op.addPayment sampleInput] largeIdData).payments := by
  decide

/-- C10, amended: from a state whose identities are pairwise distinct integers,
any finite sequence of `add`, `update` and `delete` calls, each applied to the
latest published state, ends in a state whose identities are pairwise distinct
integers, provided the identity every `add` gives (the one its input brings, or
the store's `max + 1` if it brings none) is an integer that no record of its
collection has, and every `update` either carries no identity field, or the
identity it is called with, or an integer identity that no record of the
collection has, or is called with an identity that no record has.  An `add`
whose input brings no identity meets the condition when the largest identity of
its collection is at least `-2^53` and below `2^53`
(`addKeepsDistinct_of_range`). -/
theorem identities_stay_distinct (ops : List Op) (s : Data) (hinv : DistinctIds s)
    (hok : allKeepDistinct ops s = true) : DistinctIds (runOps ops s) := by
  induction ops generalizing s with
  | nil => exact hinv
  | cons op rest ih =>
    simp only [allKeepDistinct, Bool.and_eq_true] at hok
    exact ih (op.apply s) (distinctIds_step op s hinv hok.1) hok.2

/-- C10, amended, on the run `sampleOps` over the sample store, which adds with
and without an identity in the input, updates with and without a new identity,
and deletes, in several collections. -/
theorem identities_stay_distinct_witness :
    DistinctIds (runOps sampleOps sampleData) ∧
    (runOps sampleOps sampleData).users.map (fun u => Obj.get u "UserID") =
      [.num (.int 1), .num (.int 3), .num (.int 4), .num (.int 7), .num (.int 8)] ∧
    (runOps sampleOps sampleData).bookings.map (fun b => Obj.get b "BookingID") =
      [.num (.int 9), .num (.int 4), .num (.int 10)] :=
  ⟨identities_stay_distinct sampleOps sampleData (by decide) (by decide), by decide, by decide⟩

/-! ## Session Store: login, logout, updateUser -/

theorem strictEq_str_iff (v : JSVal) (e : String) :
    strictEq v (.str e) = true ↔ v = .str e := by
  constructor
  · exact strictEq_eq v (.str e)
  · intro h
    subst h
    simp [strictEq]

theorem login_pred_iff (email password : String) (u : Obj) :
    (strictEq (Obj.get u "Email") (.str email) &&
        strictEq (Obj.get u "Password") (.str password)) = true ↔
      Obj.get u "Email" = .str email ∧ Obj.get u "Password" = .str password := by
  rw [Bool.and_eq_true, strictEq_str_iff, strictEq_str_iff]

/-- When `find` meets a record, `login` signs it in and stores its text. -/
theorem login_of_find_some (email password : JSVal) (allUsers : List Obj) (s : Session)
    (u : Obj)
    (h : allUsers.find? (fun u =>
      strictEq (Obj.get u "Email") email && strictEq (Obj.get u "Password") password) = some u) :
    Auth.login email password allUsers s =
      (.success u, { currentUser := .record u, isAuthenticated := true,
                     storage := some (jsonStringify u) }) := by
  simp only [Auth.login, h]

/-- When `find` meets no record, `login` returns the failure and the state it
was called in. -/
theorem login_of_find_none (email password : JSVal) (allUsers : List Obj) (s : Session)
    (h : allUsers.find? (fun u =>
      strictEq (Obj.get u "Email") email && strictEq (Obj.get u "Password") password) = none) :
    Auth.login email password allUsers s = (.failure "Invalid email or password", s) := by
  simp only [Auth.login, h]

theorem find_none_of_no_match (email password : String) (allUsers : List Obj)
    (h : ∀ u ∈ allUsers,
      ¬ (Obj.get u "Email" = .str email ∧ Obj.get u "Password" = .str password)) :
    allUsers.find? (fun u => strictEq (Obj.get u "Email") (.str email) &&
      strictEq (Obj.get u "Password") (.str password)) = none := by
  rw [List.find?_eq_none]
  intro u hu hp
  exact h u hu ((login_pred_iff email password u).1 hp)

/-- C11: `login` succeeds exactly when the pool holds a record whose `Email` and
`Password` are the given strings; on success the returned principal is the first
such record in pool order, it becomes the current principal, the authenticated
flag is true and the stored entry is its JSON text. -/
theorem login_success_iff_match (email password : String) (allUsers : List Obj)
    (s : Session) :
    ((∃ u, (Auth.login (.str email) (.str password) allUsers s).1 = .success u) ↔
      ∃ u ∈ allUsers, Obj.get u "Email" = .str email ∧ Obj.get u "Password" = .str password) ∧
    (∀ u, (Auth.login (.str email) (.str password) allUsers s).1 = .success u →
      (∃ before after, allUsers = before ++ u :: after ∧
        (∀ x ∈ before,
          ¬ (Obj.get x "Email" = .str email ∧ Obj.get x "Password" = .str password)) ∧
        Obj.get u "Email" = .str email ∧ Obj.get u "Password" = .str password) ∧
      (Auth.login (.str email) (.str password) allUsers s).2 =
        { currentUser := .record u, isAuthenticated := true,
          storage := some (jsonStringify u) }) := by
  cases hfind : allUsers.find? (fun u => strictEq (Obj.get u "Email") (.str email) &&
      strictEq (Obj.get u "Password") (.str password)) with
  | none =>
    rw [login_of_find_none _ _ _ _ hfind]
    rw [List.find?_eq_none] at hfind
    refine ⟨⟨?_, ?_⟩, ?_⟩
    · rintro ⟨u, hu⟩
      simp at hu
    · rintro ⟨u, hu, hm⟩
      exact absurd ((login_pred_iff email password u).2 hm) (hfind u hu)
    · intro u hu
      simp at hu
  | some w =>
    rw [login_of_find_some _ _ _ _ w hfind]
    rw [List.find?_eq_some] at hfind
    obtain ⟨hw, before, after, hsplit, hbefore⟩ := hfind
    have hwm := (login_pred_iff email password w).1 hw
    refine ⟨⟨fun _ => ⟨w, ?_, hwm⟩, fun _ => ⟨w, rfl⟩⟩, ?_⟩
    · rw [hsplit]; simp
    · intro u hu
      simp only [LoginResult.success.injEq] at hu
      subst hu
      refine ⟨⟨before, after, hsplit, ?_, hwm⟩, rfl⟩
      intro x hx hxm
      have := hbefore x hx
      rw [(login_pred_iff email password x).2 hxm] at this
      simp at this

/-- C11 at the scenario pool: `login("a@x.com", "pw", pool)` succeeds, the
principal has `UserID` 1 and the session is authenticated with its text stored. -/
theorem login_success_iff_match_witness :
    (Auth.login (.str "a@x.com") (.str "pw") scenarioPool anonymousSession).1 =
      .success (Obj.ofList [("UserID", .num (.int 1)), ("Email", .str "a@x.com"),
        ("Password", .str "pw"), ("Role", .str "customer")]) ∧
    (Auth.login (.str "a@x.com") (.str "pw") scenarioPool anonymousSession).2 =
      { currentUser := .record (Obj.ofList [("UserID", .num (.int 1)),
          ("Email", .str "a@x.com"), ("Password", .str "pw"), ("Role", .str "customer")]),
        isAuthenticated := true,
        storage := some (jsonStringify (Obj.ofList [("UserID", .num (.int 1)),
          ("Email", .str "a@x.com"), ("Password", .str "pw"), ("Role", .str "customer")])) } ∧
    jsonStringify (Obj.ofList [("UserID", .num (.int 1)), ("Email", .str "a@x.com"),
        ("Password", .str "pw"), ("Role", .str "customer")]) =
      String.mk (Char.ofNat 123 :: ("\"UserID\":1,\"Email\":\"a@x.com\"," ++
        "\"Password\":\"pw\",\"Role\":\"customer\"").data ++ [Char.ofNat 125]) :=
  ⟨by decide,
   ((login_success_iff_match "a@x.com" "pw" scenarioPool anonymousSession).2 _
      (by decide)).2,
   by decide⟩

/-- C12: when no record of the pool has both the given `Email` and `Password`,
`login` returns a failure and the session state (principal, authenticated flag,
stored entry) is the one it was called in, whatever that was. -/
theorem login_failure_unchanged (email password : String) (allUsers : List Obj)
    (s : Session)
    (h : ∀ u ∈ allUsers,
      ¬ (Obj.get u "Email" = .str email ∧ Obj.get u "Password" = .str password)) :
    (∃ message, (Auth.login (.str email) (.str password) allUsers s).1 = .failure message) ∧
    (Auth.login (.str email) (.str password) allUsers s).2 = s := by
  rw [login_of_find_none _ _ _ _ (find_none_of_no_match email password allUsers h)]
  exact ⟨⟨_, rfl⟩, rfl⟩

/-- C12 at the scenario pool: a wrong password fails and leaves an authenticated
session as it was. -/
theorem login_failure_unchanged_witness :
    (∃ message,
      (Auth.login (.str "a@x.com") (.str "wrong") scenarioPool
        (Auth.login (.str "a@x.com") (.str "pw") scenarioPool anonymousSession).2).1 =
        .failure message) ∧
    (Auth.login (.str "a@x.com") (.str "wrong") scenarioPool
      (Auth.login (.str "a@x.com") (.str "pw") scenarioPool anonymousSession).2).2 =
      (Auth.login (.str "a@x.com") (.str "pw") scenarioPool anonymousSession).2 :=
  login_failure_unchanged "a@x.com" "wrong" scenarioPool _ (by decide)

/-- C13: two failing attempts on a pool, whatever their emails and passwords and
whatever the states they are made in, return the same result: the failure with
the one message `Invalid email or password`, which has no other field.  So an
email of the pool with a wrong password and an email that is not in the pool are
answered alike. -/
theorem login_failures_identical (allUsers : List Obj) (email₁ password₁ email₂
    password₂ : String) (s₁ s₂ : Session)
    (h₁ : ∀ u ∈ allUsers,
      ¬ (Obj.get u "Email" = .str email₁ ∧ Obj.get u "Password" = .str password₁))
    (h₂ : ∀ u ∈ allUsers,
      ¬ (Obj.get u "Email" = .str email₂ ∧ Obj.get u "Password" = .str password₂)) :
    (Auth.login (.str email₁) (.str password₁) allUsers s₁).1 =
      (Auth.login (.str email₂) (.str password₂) allUsers s₂).1 ∧
    (Auth.login (.str email₁) (.str password₁) allUsers s₁).1 =
      .failure "Invalid email or password" := by
  rw [login_of_find_none _ _ _ _ (find_none_of_no_match email₁ password₁ allUsers h₁),
    login_of_find_none _ _ _ _ (find_none_of_no_match email₂ password₂ allUsers h₂)]
  exact ⟨rfl, rfl⟩

/-- C13 at the scenario pool: the known email with a wrong password and an
unknown email get the same answer. -/
theorem login_failures_identical_witness :
    (∃ u ∈ scenarioPool, Obj.get u "Email" = .str "a@x.com") ∧
    (∀ u ∈ scenarioPool, Obj.get u "Email" ≠ .str "nobody@x.com") ∧
    (Auth.login (.str "a@x.com") (.str "wrong") scenarioPool anonymousSession).1 =
      (Auth.login (.str "nobody@x.com") (.str "pw") scenarioPool anonymousSession).1 ∧
    (Auth.login (.str "a@x.com") (.str "wrong") scenarioPool anonymousSession).1 =
      .failure "Invalid email or password" :=
  ⟨by decide, by decide,
   login_failures_identical scenarioPool "a@x.com" "wrong" "nobody@x.com" "pw"
     anonymousSession anonymousSession (by decide) (by decide)⟩

/-- C14: from every session state `logout` gives the anonymous state, with a
`null` principal, the authenticated flag false and no stored entry; a second
`logout` changes nothing. -/
theorem logout_anonymous_idempotent (s : Session) :
    (Auth.logout s).currentUser = .prim .null ∧ (Auth.logout s).isAuthenticated = false ∧
    (Auth.logout s).storage = none ∧ Auth.logout (Auth.logout s) = Auth.logout s :=
  ⟨rfl, rfl, rfl, rfl⟩

/-- C15: from every session state, `updateUser(updated)` of the Session Store
makes `updated` the current principal and its JSON text the stored entry, and
keeps the authenticated flag; the previous principal plays no part. -/
theorem session_updateUser_replaces (updated : Obj) (s : Session) :
    (Auth.updateUser updated s).currentUser = .record updated ∧
    (Auth.updateUser updated s).storage = some (jsonStringify updated) ∧
    (Auth.updateUser updated s).isAuthenticated = s.isAuthenticated :=
  ⟨rfl, rfl, rfl⟩

/-! ## Read helpers and the user sync -/

/-- C18: `syncUsersFromAuth(L)` makes the users collection `L`, whatever it held,
and leaves the other six collections as they were. -/
theorem syncUsersFromAuth_replaces_users (authUsers : List Obj) (prev : Data) :
    (syncUsersFromAuth authUsers prev).users = authUsers ∧
    (syncUsersFromAuth authUsers prev).travelPackages = prev.travelPackages ∧
    (syncUsersFromAuth authUsers prev).bookings = prev.bookings ∧
    (syncUsersFromAuth authUsers prev).payments = prev.payments ∧
    (syncUsersFromAuth authUsers prev).reviews = prev.reviews ∧
    (syncUsersFromAuth authUsers prev).insurance = prev.insurance ∧
    (syncUsersFromAuth authUsers prev).assistanceRequests = prev.assistanceRequests :=
  ⟨rfl, rfl, rfl, rfl, rfl, rfl, rfl⟩

theorem has_of_get_ne_undefined (o : Obj) (k : String) (h : Obj.get o k ≠ .undefined) :
    Obj.has o k = true := by
  cases hh : Obj.has o k with
  | true => rfl
  | false => exact absurd (Obj.get_of_not_has o k hh) h

/-- The filter of a read helper gives the matching records, each as often as the
collection holds it, in collection order. -/
theorem filter_by_field_spec (k : String) (id : JSVal) (coll : List Obj) :
    (coll.filter (fun r => strictEq (Obj.get r k) id)).Sublist coll ∧
    (∀ r, r ∈ coll.filter (fun r => strictEq (Obj.get r k) id) ↔
      r ∈ coll ∧ strictEq (Obj.get r k) id = true) ∧
    (∀ r, strictEq (Obj.get r k) id = true →
      (coll.filter (fun r => strictEq (Obj.get r k) id)).count r = coll.count r) := by
  refine ⟨List.filter_sublist coll, ?_, ?_⟩
  · intro r
    exact List.mem_filter
  · intro r hr
    exact List.count_filter hr

/-- C19: `getBookingsByUserId(u)` is the bookings whose `UserID` is `u`, and
`getPackagesByAgentId(a)` the packages whose `AgentID` is `a`: a record is in the
result exactly when it is in the collection with that field, as often as the
collection holds it, and the result is in collection order.  After one
`addBooking` of a record with `UserID` 1 on an empty bookings collection,
`getBookingsByUserId(1)` is the list of the one added record. -/
theorem filters_by_owner (data : Data) (id : JSVal) (input : Obj) :
    ((getBookingsByUserId data id).Sublist data.bookings ∧
      (∀ r, r ∈ getBookingsByUserId data id ↔
        r ∈ data.bookings ∧ strictEq (Obj.get r "UserID") id = true) ∧
      (∀ r, strictEq (Obj.get r "UserID") id = true →
        (getBookingsByUserId data id).count r = data.bookings.count r)) ∧
    ((getPackagesByAgentId data id).Sublist data.travelPackages ∧
      (∀ r, r ∈ getPackagesByAgentId data id ↔
        r ∈ data.travelPackages ∧ strictEq (Obj.get r "AgentID") id = true) ∧
      (∀ r, strictEq (Obj.get r "AgentID") id = true →
        (getPackagesByAgentId data id).count r = data.travelPackages.count r)) ∧
    (data.bookings = [] → Obj.get input "UserID" = .num (.int 1) →
      getBookingsByUserId ((addBooking data input).2 data) (.num (.int 1)) =
        [(addBooking data input).1] ∧
      (getBookingsByUserId ((addBooking data input).2 data) (.num (.int 1))).length = 1) := by
  refine ⟨filter_by_field_spec "UserID" id data.bookings,
    filter_by_field_spec "AgentID" id data.travelPackages, ?_⟩
  intro hempty hinput
  have hhas : Obj.has input "UserID" = true :=
    has_of_get_ne_undefined input "UserID" (by rw [hinput]; simp)
  have hget : Obj.get (addBooking data input).1 "UserID" = .num (.int 1) := by
    simp only [addBooking]
    rw [Obj.get_spread_of_has _ _ _ hhas, hinput]
  have hres : getBookingsByUserId ((addBooking data input).2 data) (.num (.int 1)) =
      [(addBooking data input).1] := by
    show List.filter _ (data.bookings ++ [(addBooking data input).1]) = _
    rw [hempty]
    simp [List.filter, hget, strictEq]
  exact ⟨hres, by rw [hres]; rfl⟩

/-- C19 on the scenario: after `addBooking` of the scenario record on the empty
store, `getBookingsByUserId(1)` holds that one record. -/
theorem filters_by_owner_witness :
    getBookingsByUserId ((addBooking emptyData scenarioBooking).2 emptyData) (.num (.int 1)) =
        [(addBooking emptyData scenarioBooking).1] ∧
      (getBookingsByUserId ((addBooking emptyData scenarioBooking).2 emptyData)
        (.num (.int 1))).length = 1 :=
  (filters_by_owner emptyData (.num (.int 1)) scenarioBooking).2.2 (by decide) (by decide)

/-- The result of `find` under an identity: the first record with it, or nothing
when no record has it. -/
theorem find_by_id_spec (k : String) (id : JSVal) (coll : List Obj) :
    (∀ r, coll.find? (fun x => strictEq (Obj.get x k) id) = some r ↔
      ∃ before after, coll = before ++ r :: after ∧
        (∀ x ∈ before, strictEq (Obj.get x k) id = false) ∧
        strictEq (Obj.get r k) id = true) ∧
    (coll.find? (fun x => strictEq (Obj.get x k) id) = none ↔
      ∀ x ∈ coll, strictEq (Obj.get x k) id = false) ∧
    ((∃ x ∈ coll, strictEq (Obj.get x k) id = true) →
      ∃ r, coll.find? (fun x => strictEq (Obj.get x k) id) = some r) := by
  refine ⟨?_, ?_, ?_⟩
  · intro r
    rw [List.find?_eq_some]
    constructor
    · rintro ⟨hr, before, after, hsplit, hb⟩
      exact ⟨before, after, hsplit, fun x hx => by simpa using hb x hx, hr⟩
    · rintro ⟨before, after, hsplit, hb, hr⟩
      exact ⟨hr, before, after, hsplit, fun x hx => by simp [hb x hx]⟩
  · rw [List.find?_eq_none]
    constructor
    · intro h x hx
      simpa using h x hx
    · intro h x hx
      simp [h x hx]
  · rintro ⟨x, hx, hm⟩
    cases hf : coll.find? (fun x => strictEq (Obj.get x k) id) with
    | some r => exact ⟨r, rfl⟩
    | none =>
      rw [List.find?_eq_none] at hf
      exact absurd hm (hf x hx)

/-- C20: `getUserById(id)` and `getPackageById(id)` return a record exactly when it
is the first one in collection order whose identity is `id`; they return one
whenever some record has that identity, and return the absent value (`none`, for
`undefined`) exactly when no record has it.  Both are total: no input raises. -/
theorem getById_first_or_absent (data : Data) (id : JSVal) :
    ((∀ r, getUserById data id = some r ↔
        ∃ before after, data.users = before ++ r :: after ∧
          (∀ x ∈ before, strictEq (Obj.get x "UserID") id = false) ∧
          strictEq (Obj.get r "UserID") id = true) ∧
      (getUserById data id = none ↔
        ∀ x ∈ data.users, strictEq (Obj.get x "UserID") id = false) ∧
      ((∃ x ∈ data.users, strictEq (Obj.get x "UserID") id = true) →
        ∃ r, getUserById data id = some r)) ∧
    ((∀ r, getPackageById data id = some r ↔
        ∃ before after, data.travelPackages = before ++ r :: after ∧
          (∀ x ∈ before, strictEq (Obj.get x "PackageID") id = false) ∧
          strictEq (Obj.get r "PackageID") id = true) ∧
      (getPackageById data id = none ↔
        ∀ x ∈ data.travelPackages, strictEq (Obj.get x "PackageID") id = false) ∧
      ((∃ x ∈ data.travelPackages, strictEq (Obj.get x "PackageID") id = true) →
        ∃ r, getPackageById data id = some r)) :=
  ⟨find_by_id_spec "UserID" id data.users, find_by_id_spec "PackageID" id data.travelPackages⟩

/-- C20 at the store with two users of identity 1: `getUserById(1)` is the first
of them, `getPackageById(3)` the second package, and the dangling identity 999
reads as absent. -/
theorem getById_first_or_absent_witness :
    (∃ r, getUserById clashedData (.num (.int 1)) = some r) ∧
    getUserById clashedData (.num (.int 1)) =
      some (Obj.ofList [("UserID", .num (.int 1)), ("Name", .str "Ann")]) ∧
    getPackageById sampleData (.num (.int 3)) =
      some (Obj.ofList [("PackageID", .num (.int 3)), ("Title", .str "Bali")]) ∧
    getUserById sampleData (.num (.int 999)) = none ∧
    getPackageById sampleData (.num (.int 999)) = none :=
  ⟨(getById_first_or_absent clashedData (.num (.int 1))).1.2.2 (by decide),
   by decide, by decide,
   (getById_first_or_absent sampleData (.num (.int 999))).1.2.1.2 (by decide),
   (getById_first_or_absent sampleData (.num (.int 999))).2.2.1.2 (by decide)⟩

/-! ## JSON: reading back what was written -/

theorem parseStringAux_quoteChar (c : Char) (tail : List Char) :
    parseStringAux .plain (quoteChar c ++ tail) =
      Parsed.consChar c (parseStringAux .plain tail) := by
  by_cases h : c.toNat < 32 ∨ c.toNat = 34 ∨ c.toNat = 92
  · have hc : c = Char.ofNat c.toNat := (Char.ofNat_toNat c).symm
    rw [hc]
    generalize c.toNat = n at h
    rcases h with h | h | h
    · interval_cases n <;> rfl
    · subst h; rfl
    · subst h; rfl
  · have h1 : ¬ c.toNat < 32 := fun e => h (Or.inl e)
    have h2 : ¬ c.toNat = 34 := fun e => h (Or.inr (Or.inl e))
    have h3 : ¬ c.toNat = 92 := fun e => h (Or.inr (Or.inr e))
    have hq : quoteChar c = [c] := by
      unfold quoteChar
      simp only [h2, h3, h1, if_false]
      rw [if_neg (by omega), if_neg (by omega), if_neg (by omega), if_neg (by omega),
        if_neg (by omega)]
    rw [hq]
    show parseStringAux .plain (c :: tail) = _
    simp only [parseStringAux, h2, h3, h1, if_false]

theorem parseStringBody_quoteChars (cs tail : List Char) :
    parseStringBody (quoteChars cs ++ Char.ofNat 34 :: tail) = .ok cs tail := by
  unfold parseStringBody
  induction cs with
  | nil => rfl
  | cons c cs ih =>
    simp only [quoteChars, List.append_assoc]
    rw [parseStringAux_quoteChar, ih]
    rfl

theorem isDigit_iff (c : Char) : c.isDigit = true ↔ 48 ≤ c.toNat ∧ c.toNat ≤ 57 := by
  unfold Char.isDigit Char.toNat
  simp only [Bool.and_eq_true, decide_eq_true_eq, ge_iff_le, UInt32.le_def]
  rw [BitVec.le_def, BitVec.le_def]
  exact Iff.rfl

theorem digitChar_toNat (d : Nat) (h : d < 10) : (digitChar d).toNat = 48 + d := by
  interval_cases d <;> rfl

theorem natDigits_spec (fuel n : Nat) (h : n < fuel) :
    natDigits fuel n ≠ [] ∧ (∀ c ∈ natDigits fuel n, c.isDigit = true) ∧
      (natDigits fuel n).foldl (fun m c => 10 * m + (c.toNat - 48)) 0 = n ∧
      ((natDigits fuel n).head? = some '0' → n = 0) := by
  induction fuel generalizing n with
  | zero => omega
  | succ fuel ih =>
    by_cases hn : n < 10
    · have hd := digitChar_toNat n hn
      simp only [natDigits, hn, if_true]
      refine ⟨by simp, ?_, ?_, ?_⟩
      · intro c hc
        simp only [List.mem_singleton] at hc
        rw [hc, isDigit_iff, hd]
        omega
      · simp only [List.foldl, hd]
        omega
      · intro h0
        simp only [List.head?_cons, Option.some.injEq] at h0
        have : (digitChar n).toNat = 48 := by rw [h0]; rfl
        omega
    · obtain ⟨hne, hall, hval, _⟩ := ih (n / 10) (by omega)
      have hd := digitChar_toNat (n % 10) (by omega)
      simp only [natDigits, hn, if_false]
      refine ⟨by simp, ?_, ?_, ?_⟩
      · intro c hc
        rcases List.mem_append.1 hc with hc | hc
        · exact hall c hc
        · simp only [List.mem_singleton] at hc
          rw [hc, isDigit_iff, hd]
          omega
      · rw [List.foldl_append, hval]
        simp only [List.foldl, hd]
        omega
      · intro h0
        obtain ⟨_, _, _, hhead⟩ := ih (n / 10) (by omega)
        have : (natDigits fuel (n / 10) ++ [digitChar (n % 10)]).head? =
            (natDigits fuel (n / 10)).head? := by
          cases hds : natDigits fuel (n / 10) with
          | nil => exact absurd hds hne
          | cons a as => rfl
        rw [this] at h0
        have := hhead h0
        omega

theorem takeDigits_append (ds rest : List Char) (hds : ∀ c ∈ ds, c.isDigit = true)
    (hrest : ∀ c, rest.head? = some c → c.isDigit = false) :
    takeDigits (ds ++ rest) = (ds, rest) := by
  induction ds with
  | nil =>
    cases rest with
    | nil => rfl
    | cons c r => simp [takeDigits, hrest c rfl]
  | cons d ds ih =>
    have hd := hds d (by simp)
    have := ih (fun c hc => hds c (by simp [hc]))
    simp [takeDigits, hd, this]

theorem parseNat_natRepr (n : Nat) (c : Char) (rest : List Char)
    (hc : c.toNat = 44 ∨ c.toNat = 125) :
    parseNat (natRepr n ++ c :: rest) = .ok n (c :: rest) := by
  obtain ⟨hne, hall, hval, hhead⟩ := natDigits_spec (n + 1) n (by omega)
  have hcd : c.isDigit = false := by
    cases hd : c.isDigit with
    | false => rfl
    | true =>
      have := (isDigit_iff c).1 hd
      omega
  have htake : takeDigits (natRepr n ++ c :: rest) = (natRepr n, c :: rest) := by
    apply takeDigits_append _ _ hall
    intro c' hc'
    simp only [List.head?_cons, Option.some.injEq] at hc'
    rw [← hc']; exact hcd
  have hdig : parseDigits (natRepr n) = some n := by
    unfold parseDigits
    rw [if_pos ⟨hne, List.all_eq_true.2 hall⟩]
    exact congrArg some hval
  have hlead : ¬ (1 < (natRepr n).length ∧ (natRepr n).head? = some '0') := by
    rintro ⟨hlen, h0⟩
    have hn := hhead h0
    subst hn
    simp [natRepr, natDigits] at hlen
  unfold parseNat
  rw [htake]
  simp only [hdig, hlead, if_false]
  rw [if_neg (by omega)]

theorem skipWs_cons (c : Char) (cs : List Char)
    (h : c.toNat ≠ 32 ∧ c.toNat ≠ 9 ∧ c.toNat ≠ 10 ∧ c.toNat ≠ 13) :
    skipWs (c :: cs) = c :: cs := by
  have : isJsonSpace c = false := by
    unfold isJsonSpace
    simp only [decide_eq_false_iff_not]
    omega
  simp [skipWs, this]

theorem natRepr_cons (n : Nat) :
    ∃ d ds, natRepr n = d :: ds ∧ 48 ≤ d.toNat ∧ d.toNat ≤ 57 := by
  obtain ⟨hne, hall, _, _⟩ := natDigits_spec (n + 1) n (by omega)
  cases h : natRepr n with
  | nil => exact absurd h hne
  | cons d ds =>
    have := (isDigit_iff d).1 (hall d (by unfold natRepr at h; rw [h]; simp))
    exact ⟨d, ds, rfl, this⟩

theorem parsePrim_intRepr (z : Int) (c : Char) (rest : List Char)
    (hc : c.toNat = 44 ∨ c.toNat = 125) :
    parsePrim (skipWs (intRepr z ++ c :: rest)) = .ok (.num (.int z)) (c :: rest) := by
  cases z with
  | ofNat n =>
    obtain ⟨d, ds, hd, h1, h2⟩ := natRepr_cons n
    have hp := parseNat_natRepr n c rest hc
    simp only [intRepr]
    rw [hd] at hp ⊢
    rw [List.cons_append, skipWs_cons d _ (by omega)]
    rw [List.cons_append] at hp
    have hdig : d.isDigit = true := (isDigit_iff d).2 ⟨h1, h2⟩
    simp only [parsePrim, hdig, if_true, hp]
    rw [if_neg (by omega), if_neg (by omega)]
  | negSucc n =>
    have hp := parseNat_natRepr (n + 1) c rest hc
    simp only [intRepr, List.cons_append]
    rw [skipWs_cons _ _ (by decide)]
    simp only [parsePrim, hp]
    rw [if_neg (by decide), if_pos (by decide)]
    rfl

theorem parsePrim_quoteJSON (s : String) (rest : List Char) :
    parsePrim (skipWs (quoteJSON s ++ rest)) = .ok (.str s) rest := by
  simp only [quoteJSON, List.cons_append, List.append_assoc, List.singleton_append]
  rw [skipWs_cons _ _ (by decide)]
  simp only [parsePrim]
  rw [if_pos (by decide), parseStringBody_quoteChars]
  rfl

theorem parsePrim_jsonValue (v : JSVal) (t : List Char) (hflat : jsonFlat v = true)
    (ht : jsonValue v = some t) (c : Char) (rest : List Char)
    (hc : c.toNat = 44 ∨ c.toNat = 125) :
    parsePrim (skipWs (t ++ c :: rest)) = .ok v (c :: rest) := by
  cases v with
  | undefined => simp [jsonFlat] at hflat
  | null =>
    simp only [jsonValue, Option.some.injEq] at ht
    subst ht
    rfl
  | bool b =>
    cases b with
    | true =>
      simp only [jsonValue, Option.some.injEq] at ht
      subst ht
      rfl
    | false =>
      simp only [jsonValue, Option.some.injEq] at ht
      subst ht
      rfl
  | str s =>
    simp only [jsonValue, Option.some.injEq] at ht
    subst ht
    exact parsePrim_quoteJSON s _
  | num x =>
    cases x with
    | int z =>
      simp only [jsonValue, Option.some.injEq] at ht
      subst ht
      exact parsePrim_intRepr z c rest hc
    | nan => simp [jsonFlat] at hflat
    | negInf => simp [jsonFlat] at hflat
    | posInf => simp [jsonFlat] at hflat

/-- The members of a record with flat fields: the first member, then a comma and
the rest when there is one. -/
theorem jsonMembers_cons (k : String) (v : JSVal) (ps : Props) (t : List Char)
    (ht : jsonValue v = some t) (hps : ∀ p ∈ ps, jsonFlat p.2 = true) :
    (ps = [] ∧ jsonMembers ((k, v) :: ps) = quoteJSON k ++ Char.ofNat 58 :: t) ∨
    (ps ≠ [] ∧ jsonMembers ((k, v) :: ps) =
      quoteJSON k ++ Char.ofNat 58 :: t ++ Char.ofNat 44 :: jsonMembers ps) := by
  cases ps with
  | nil =>
    left
    simp [jsonMembers, ht]
  | cons p ps' =>
    right
    refine ⟨by simp, ?_⟩
    obtain ⟨k', v'⟩ := p
    have hv' : jsonFlat v' = true := hps (k', v') (by simp)
    obtain ⟨t', ht'⟩ : ∃ t', jsonValue v' = some t' := by
      cases v' with
      | undefined => simp [jsonFlat] at hv'
      | null => exact ⟨_, rfl⟩
      | bool b => cases b <;> exact ⟨_, rfl⟩
      | str s => exact ⟨_, rfl⟩
      | num x => cases x <;> exact ⟨_, rfl⟩
    have hne : jsonMembers ((k', v') :: ps') ≠ [] := by
      simp only [jsonMembers, ht']
      cases jsonMembers ps' <;> simp [quoteJSON]
    simp only [jsonMembers, ht]
    cases hm : jsonMembers ((k', v') :: ps') with
    | nil => exact absurd hm hne
    | cons a as =>
      simp only [jsonMembers, ht'] at hm
      simp only [ht', hm]

theorem jsonValue_of_flat (v : JSVal) (h : jsonFlat v = true) :
    ∃ t, jsonValue v = some t := by
  cases v with
  | undefined => simp [jsonFlat] at h
  | null => exact ⟨_, rfl⟩
  | bool b => cases b <;> exact ⟨_, rfl⟩
  | str s => exact ⟨_, rfl⟩
  | num x => cases x <;> exact ⟨_, rfl⟩

theorem parseMembers_jsonMembers (ps : Props) (hps : ∀ p ∈ ps, jsonFlat p.2 = true)
    (hne : ps ≠ []) (fuel : Nat) (hfuel : ps.length ≤ fuel) (acc : Props)
    (rest : List Char) :
    parseMembers fuel (jsonMembers ps ++ Char.ofNat 125 :: rest) acc = .ok (acc ++ ps) rest := by
  induction ps generalizing fuel acc with
  | nil => exact absurd rfl hne
  | cons p ps ih =>
    obtain ⟨k, v⟩ := p
    obtain ⟨t, ht⟩ := jsonValue_of_flat v (hps (k, v) (by simp))
    have hps' : ∀ p ∈ ps, jsonFlat p.2 = true := fun p hp => hps p (by simp [hp])
    cases fuel with
    | zero => simp at hfuel
    | succ fuel =>
      have hkey : ∀ tail, parseStringBody (quoteChars k.data ++ Char.ofNat 34 :: tail) =
          .ok k.data tail := parseStringBody_quoteChars k.data
      rcases jsonMembers_cons k v ps t ht hps' with ⟨hnil, hm⟩ | ⟨hcons, hm⟩
      · subst hnil
        rw [hm]
        have hval := parsePrim_jsonValue v t (hps (k, v) (by simp)) ht (Char.ofNat 125) rest
          (Or.inr (by decide))
        simp only [quoteJSON, List.cons_append, List.append_assoc, List.singleton_append]
        rw [parseMembers, skipWs_cons (Char.ofNat 34) _ (by decide)]
        simp only []
        rw [if_pos (by decide)]
        simp only [hkey, List.nil_append]
        rw [skipWs_cons (Char.ofNat 58) _ (by decide)]
        simp only []
        rw [if_pos (by decide)]
        simp only [hval]
        rw [skipWs_cons (Char.ofNat 125) _ (by decide)]
        simp only []
        rw [if_neg (by decide), if_pos (by decide)]
      · rw [hm]
        have hval := parsePrim_jsonValue v t (hps (k, v) (by simp)) ht (Char.ofNat 44)
          (jsonMembers ps ++ Char.ofNat 125 :: rest) (Or.inl (by decide))
        have hrec := ih hps' hcons fuel (by simpa using hfuel) (acc ++ [(k, v)])
        simp only [quoteJSON, List.cons_append, List.append_assoc, List.singleton_append]
        rw [parseMembers, skipWs_cons (Char.ofNat 34) _ (by decide)]
        simp only []
        rw [if_pos (by decide)]
        simp only [hkey, List.nil_append]
        rw [skipWs_cons (Char.ofNat 58) _ (by decide)]
        simp only []
        rw [if_pos (by decide)]
        simp only [hval]
        rw [skipWs_cons (Char.ofNat 44) _ (by decide)]
        simp only []
        rw [if_pos (by decide), hrec]
        simp

theorem length_le_jsonMembers (ps : Props) (hps : ∀ p ∈ ps, jsonFlat p.2 = true) :
    ps.length ≤ (jsonMembers ps).length := by
  induction ps with
  | nil => simp
  | cons p ps ih =>
    obtain ⟨k, v⟩ := p
    obtain ⟨t, ht⟩ := jsonValue_of_flat v (hps (k, v) (by simp))
    have hps' : ∀ p ∈ ps, jsonFlat p.2 = true := fun p hp => hps p (by simp [hp])
    have := ih hps'
    rcases jsonMembers_cons k v ps t ht hps' with ⟨hnil, hm⟩ | ⟨_, hm⟩
    · subst hnil
      rw [hm]
      simp [quoteJSON]
    · rw [hm]
      simp only [List.length_cons, List.length_append]
      omega

theorem jsonMembers_head (ps : Props) (hps : ∀ p ∈ ps, jsonFlat p.2 = true) (hne : ps ≠ []) :
    ∃ tail, jsonMembers ps = Char.ofNat 34 :: tail := by
  cases ps with
  | nil => exact absurd rfl hne
  | cons p ps =>
    obtain ⟨k, v⟩ := p
    obtain ⟨t, ht⟩ := jsonValue_of_flat v (hps (k, v) (by simp))
    have hps' : ∀ p ∈ ps, jsonFlat p.2 = true := fun p hp => hps p (by simp [hp])
    rcases jsonMembers_cons k v ps t ht hps' with ⟨_, hm⟩ | ⟨_, hm⟩
    · exact ⟨_, by rw [hm]; simp [quoteJSON]; rfl⟩
    · exact ⟨_, by rw [hm]; simp [quoteJSON]; rfl⟩

theorem parseObjectBody_jsonMembers (ps : Props) (hps : ∀ p ∈ ps, jsonFlat p.2 = true) :
    parseObjectBody (jsonMembers ps ++ [Char.ofNat 125]) = .ok ps [] := by
  by_cases hne : ps = []
  · subst hne
    rfl
  · obtain ⟨tail, htail⟩ := jsonMembers_head ps hps hne
    have hlen := length_le_jsonMembers ps hps
    have hpm := parseMembers_jsonMembers ps hps hne
      (jsonMembers ps ++ [Char.ofNat 125]).length
      (by simp only [List.length_append]; omega) [] []
    unfold parseObjectBody
    rw [htail] at hpm ⊢
    rw [List.cons_append, skipWs_cons (Char.ofNat 34) _ (by decide)]
    simp only []
    rw [if_neg (by decide)]
    simpa using hpm

theorem ofList_props (o : Obj) : Obj.ofList o.props = o := by
  apply Obj.ext_props
  show Props.spread [] o.props = o.props
  rw [Props.spread_nil_left o.props [] o.nodup (by simp)]
  simp

/-- The function `JSON.parse` reads back what `JSON.stringify` writes for a record
of strings, integers, booleans and `null`. -/
theorem jsonParse_jsonStringify (o : Obj) (h : FlatRecord o) :
    jsonParse (jsonStringify o) = .value (.record o) := by
  have hbody := parseObjectBody_jsonMembers o.props h
  unfold jsonParse jsonStringify
  simp only []
  rw [skipWs_cons (Char.ofNat 123) _ (by decide)]
  simp only []
  rw [if_pos (by decide)]
  simp only [hbody, skipWs, if_true, ofList_props]

theorem jsonStringify_ne_empty (o : Obj) : jsonStringify o ≠ "" := by
  intro h
  have := congrArg String.data h
  simp [jsonStringify] at this

theorem initialize_stringify (u : Obj) (h : FlatRecord u) :
    Auth.initialize (some (jsonStringify u)) =
      .completed { currentUser := .record u, isAuthenticated := true,
                   storage := some (jsonStringify u) } := by
  unfold Auth.initialize Auth.restore
  simp only [jsonStringify_ne_empty u, if_false, jsonParse_jsonStringify u h]

/-! ## Session persistence -/

/-- C16: for every user record `u` whose fields are strings, integers, booleans or
`null`, the entry that a successful `login` as `u` or an `updateUser(u)` stores is
read back by initialization as the authenticated state whose current principal
is `u`, every field equal. -/
theorem session_round_trip (u : Obj) (hflat : FlatRecord u) (email password : JSVal)
    (allUsers : List Obj) (s : Session) :
    ((Auth.login email password allUsers s).1 = .success u →
      Auth.initialize (Auth.login email password allUsers s).2.storage =
        .completed { currentUser := .record u, isAuthenticated := true,
                     storage := some (jsonStringify u) }) ∧
    Auth.initialize (Auth.updateUser u s).storage =
      .completed { currentUser := .record u, isAuthenticated := true,
                   storage := some (jsonStringify u) } := by
  refine ⟨?_, initialize_stringify u hflat⟩
  intro hsucc
  cases hfind : allUsers.find? (fun u =>
      strictEq (Obj.get u "Email") email && strictEq (Obj.get u "Password") password) with
  | none =>
    rw [login_of_find_none _ _ _ _ hfind] at hsucc
    simp at hsucc
  | some w =>
    rw [login_of_find_some _ _ _ _ w hfind] at hsucc ⊢
    simp only [LoginResult.success.injEq] at hsucc
    subst hsucc
    exact initialize_stringify w hflat

/-- C16 on the scenario: after `login("a@x.com", "pw", pool)`, and after an
`updateUser` with a record that holds an escaped string, a negative integer, a
boolean and `null`, initialization over the stored entry restores the record. -/
theorem session_round_trip_witness :
    Auth.initialize
        (Auth.login (.str "a@x.com") (.str "pw") scenarioPool anonymousSession).2.storage =
      .completed
        { currentUser := .record (Obj.ofList [("UserID", .num (.int 1)),
            ("Email", .str "a@x.com"), ("Password", .str "pw"), ("Role", .str "customer")]),
          isAuthenticated := true,
          storage := some (jsonStringify (Obj.ofList [("UserID", .num (.int 1)),
            ("Email", .str "a@x.com"), ("Password", .str "pw"), ("Role", .str "customer")])) } ∧
    Auth.initialize
        (Auth.updateUser (Obj.ofList [("UserID", .num (.int (-7))), ("Name", .str "a\"b\n"),
          ("Active", .bool true), ("ContactNumber", .null)]) anonymousSession).storage =
      .completed
        { currentUser := .record (Obj.ofList [("UserID", .num (.int (-7))),
            ("Name", .str "a\"b\n"), ("Active", .bool true), ("ContactNumber", .null)]),
          isAuthenticated := true,
          storage := some (jsonStringify (Obj.ofList [("UserID", .num (.int (-7))),
            ("Name", .str "a\"b\n"), ("Active", .bool true), ("ContactNumber", .null)])) } :=
  ⟨(session_round_trip _ (by decide) (.str "a@x.com") (.str "pw") scenarioPool
      anonymousSession).1 (by decide),
   (session_round_trip _ (by decide) .null .null [] anonymousSession).2⟩

/-- C17: initialization completes in the anonymous state when the key is absent
or holds the empty string, but not on every stored text: on the texts `\x7b` and
`not json` the call of `JSON.parse` raises inside the restore effect, and on the
text `null` the effect completes with the authenticated flag true and a `null`
principal. -/
theorem initialize_malformed_raises :
    Auth.initialize none = .completed anonymousSession ∧
    Auth.initialize (some "") =
      .completed { currentUser := .prim .null, isAuthenticated := false, storage := some "" } ∧
    Auth.initialize (some "\x7b") = .raised ∧
    Auth.initialize (some "not json") = .raised ∧
    Auth.initialize (some "null") =
      .completed { currentUser := .prim .null, isAuthenticated := true,
                   storage := some "null" } := by
  decide

/-! ## Frame of the Domain Store mutations -/

theorem op_apply_eq_updater (op : Op) (s : Data) : op.apply s = op.updater s s := by
  cases op <;> rfl

theorem updater_frame (op : Op) (data prev : Data) (k : Kind) (hk : k ≠ op.target) :
    (op.updater data prev).coll k = prev.coll k := by
  cases op <;> cases k <;> first | rfl | exact absurd rfl hk

theorem target_ne_insurance (op : Op) : op.target ≠ .insurance := by
  cases op <;> simp [Op.target]

theorem call_keeps_insurance (c : Call) (s : Data) : (c.apply s).insurance = s.insurance := by
  cases c with
  | op o data => exact updater_frame o data s .insurance (fun e => target_ne_insurance o e.symm)
  | sync authUsers => rfl

theorem runCalls_keeps_insurance (calls : List Call) (s : Data) :
    (runCalls calls s).insurance = s.insurance := by
  induction calls generalizing s with
  | nil => rfl
  | cons c rest ih =>
    show (runCalls rest (c.apply s)).insurance = s.insurance
    rw [ih, call_keeps_insurance]

/-- C21: a call of an `add`, `update` or `delete` operation, whatever snapshot
its closure holds, leaves every collection other than its own as it was, and so
does the same call made on the latest state; no operation has the insurance
collection as its own, so after any finite sequence of calls, `syncUsersFromAuth`
included, the insurance collection is the one of the seed. -/
theorem mutation_changes_own_collection (op : Op) (data prev : Data) (calls : List Call)
    (seed : Data) :
    (∀ k, k ≠ op.target → (op.updater data prev).coll k = prev.coll k) ∧
    (∀ k, k ≠ op.target → (op.apply prev).coll k = prev.coll k) ∧
    op.target ≠ .insurance ∧
    (runCalls calls seed).insurance = seed.insurance := by
  refine ⟨fun k hk => updater_frame op data prev k hk, ?_, target_ne_insurance op,
    runCalls_keeps_insurance calls seed⟩
  intro k hk
  rw [op_apply_eq_updater]
  exact updater_frame op prev prev k hk

/-- C21 at the sample store: `addBooking` leaves the users and the payments as
they were, and a run of calls leaves the insurance collection as it was. -/
theorem mutation_changes_own_collection_witness :
    (Op.updater (.addBooking scenarioBooking) emptyData sampleData).coll .users =
      sampleData.coll .users ∧
    (Op.apply (.addBooking scenarioBooking) sampleData).coll .payments =
      sampleData.coll .payments ∧
    (runCalls [.op (.addBooking scenarioBooking) emptyData, .sync [],
      .op (.deleteReview (.num (.int 1))) sampleData] sampleData).insurance =
      sampleData.insurance :=
  ⟨(mutation_changes_own_collection (.addBooking scenarioBooking) emptyData sampleData []
      sampleData).1 .users (by decide),
   (mutation_changes_own_collection (.addBooking scenarioBooking) emptyData sampleData []
      sampleData).2.1 .payments (by decide),
   (mutation_changes_own_collection (.addBooking scenarioBooking) emptyData sampleData
      [.op (.addBooking scenarioBooking) emptyData, .sync [],
        .op (.deleteReview (.num (.int 1))) sampleData] sampleData).2.2.2⟩

/-! ## Approval buttons of the admin dashboard -/

/-- C23: the Approve and Reject buttons of the User Management table leave the
`Approval` of the pending agent at the booleans `true` and `false`, which are not
values of the data model, while the buttons of the Agent Approval Management
table leave it at `approved` and `rejected`; the toast of the first Approve
button even reads `User rejected successfully`. -/
theorem user_table_approval_not_in_model :
    Obj.get pendingAgent "Approval" = .str "pending" ∧
    (((userTableApprove pendingAgent agentData.users).2.2 agentData).users.map
      (fun u => Obj.get u "Approval")) = [.undefined, .bool true] ∧
    JSVal.bool true ∉ approvalValues ∧
    (((userTableReject pendingAgent agentData.users).2.2 agentData).users.map
      (fun u => Obj.get u "Approval")) = [.undefined, .bool false] ∧
    JSVal.bool false ∉ approvalValues ∧
    (userTableApprove pendingAgent agentData.users).1 =
      .success "User rejected successfully" ∧
    (((agentTableApprove pendingAgent agentData.users).2.2 agentData).users.map
      (fun u => Obj.get u "Approval")) = [.undefined, .str "approved"] ∧
    (((agentTableReject pendingAgent agentData.users).2.2 agentData).users.map
      (fun u => Obj.get u "Approval")) = [.undefined, .str "rejected"] ∧
    JSVal.str "approved" ∈ approvalValues ∧ JSVal.str "rejected" ∈ approvalValues := by
  decide

/-! ## Two adds in one turn -/

/-- C25: two `addBooking` calls issued in one turn, both with the rendered
snapshot `sampleData`, the second updater running on the state the first one
gave: both records are in the published collection in call order, and both have
`BookingID` 4, so the identities are not pairwise distinct; the two returned
records carry that same identity. -/
theorem same_turn_adds_collide :
    UniqueIds "BookingID" sampleData.bookings ∧
    (Op.updater (.addBooking scenarioBooking) sampleData
        (Op.updater (.addBooking sampleInput) sampleData sampleData)).bookings =
      sampleData.bookings ++
        [(addBooking sampleData sampleInput).1, (addBooking sampleData scenarioBooking).1] ∧
    Obj.get (addBooking sampleData sampleInput).1 "BookingID" = .num (.int 4) ∧
    Obj.get (addBooking sampleData scenarioBooking).1 "BookingID" = .num (.int 4) ∧
    ¬ UniqueIds "BookingID"
      (Op.updater (.addBooking scenarioBooking) sampleData
        (Op.updater (.addBooking sampleInput) sampleData sampleData)).bookings := by
  decide

/-! ## Payment -/

/-- C29: on the dashboard of user 1 over `bookedData`, whose latest booking has
`BookingID` 4 and `Status` pending, `handlePaymentSubmit` with valid card fields
reports `Payment successful! Your booking has been confirmed.` and the store then
holds that booking with `PaymentID` 4 and with `Status` still pending, not
confirmed. -/
theorem paid_booking_status_not_confirmed :
    (bookedData.bookings.map (fun b => (Obj.get b "BookingID", Obj.get b "Status"))) =
      [(.num (.int 1), .str "pending"), (.num (.int 3), .str "confirmed"),
       (.num (.int 4), .str "pending")] ∧
    (handlePaymentSubmit none sampleCustomer bookedData bookedDashboard).1 =
      .success "🎉 Payment successful! Your booking has been confirmed." ∧
    (((handlePaymentSubmit none sampleCustomer bookedData bookedDashboard).2.2
        bookedData).bookings.map
      (fun b => (Obj.get b "BookingID", Obj.get b "Status", Obj.get b "PaymentID"))) =
      [(.num (.int 1), .str "pending", .undefined),
       (.num (.int 3), .str "confirmed", .undefined),
       (.num (.int 4), .str "pending", .num (.int 4))] := by
  decide

/-! ## Default approval of a new user -/

/-- C30 fails for an input that specifies a falsy `Approval`: with `Approval` the
empty string, `false` or `null` in the input, the created user has `Approval`
`approved`. -/
theorem approval_default_counterexample :
    Obj.has (Obj.ofList [("Name", .str "Di"), ("Approval", .str "")]) "Approval" = true ∧
    Obj.get (addUser "now" sampleData
      (Obj.ofList [("Name", .str "Di"), ("Approval", .str "")])).1 "Approval"
        = .str "approved" ∧
    Obj.get (addUser "now" sampleData
      (Obj.ofList [("Name", .str "Di"), ("Approval", .bool false)])).1 "Approval"
        = .str "approved" ∧
    Obj.get (addUser "now" sampleData
      (Obj.ofList [("Name", .str "Di"), ("Approval", .null)])).1 "Approval"
        = .str "approved" := by
  decide

/-- C30, amended: the created user's `Approval` is the input's `Approval` when
that is truthy, as every value of the data model (`approved`, `pending`,
`rejected`) is, and is `approved` when the input has no `Approval` field or a
falsy one. -/
theorem approval_default (now : String) (data : Data) (input : Obj) :
    (truthy (Obj.get input "Approval") = true →
      Obj.get (addUser now data input).1 "Approval" = Obj.get input "Approval") ∧
    (∀ v ∈ approvalValues, Obj.get input "Approval" = v →
      Obj.get (addUser now data input).1 "Approval" = v) ∧
    (Obj.has input "Approval" = false →
      Obj.get (addUser now data input).1 "Approval" = .str "approved") ∧
    (truthy (Obj.get input "Approval") = false →
      Obj.get (addUser now data input).1 "Approval" = .str "approved") := by
  have hget : Obj.get (addUser now data input).1 "Approval" =
      jsOr (Obj.get input "Approval") (.str "approved") := by
    simp only [addUser]
    rw [Obj.get_set_self]
  refine ⟨?_, ?_, ?_, ?_⟩
  · intro h
    rw [hget]
    simp [jsOr, h]
  · intro v hv hin
    rw [hget, hin]
    simp only [approvalValues, List.mem_cons, List.mem_singleton, List.not_mem_nil,
      or_false] at hv
    rcases hv with rfl | rfl | rfl <;> rfl
  · intro h
    rw [hget, Obj.get_of_not_has input "Approval" h]
    rfl
  · intro h
    rw [hget]
    simp [jsOr, h]

/-- C30, amended, at the sample store: a pending agent stays pending and a record
without `Approval` is approved. -/
theorem approval_default_witness :
    Obj.get (addUser "now" sampleData pendingAgent).1 "Approval" = .str "pending" ∧
    Obj.get (addUser "now" sampleData sampleInput).1 "Approval" = .str "approved" :=
  ⟨(approval_default "now" sampleData pendingAgent).2.1 (.str "pending") (by decide)
      (by decide),
   (approval_default "now" sampleData sampleInput).2.2.1 (by decide)⟩

/-! ## Delete removes every record of the identity -/

theorem removedAll_filter (k : String) (id : JSVal) (coll : List Obj) :
    RemovedAll k id coll (coll.filter (fun u => !strictEq (Obj.get u k) id)) := by
  refine ⟨List.filter_sublist coll, ?_, ?_, ?_⟩
  · intro r
    rw [List.mem_filter]
    simp
  · intro r hr
    exact List.count_filter (by simp [hr])
  · intro r hr
    have := (List.mem_filter.1 hr).2
    simpa using this

theorem filter_delete_idem (k : String) (id : JSVal) (coll : List Obj) :
    (coll.filter (fun u => !strictEq (Obj.get u k) id)).filter
      (fun u => !strictEq (Obj.get u k) id) =
    coll.filter (fun u => !strictEq (Obj.get u k) id) := by
  rw [List.filter_eq_self]
  intro a ha
  exact (List.mem_filter.1 ha).2

/-- C26: for every collection and identity, each of the five `delete` operations
gives the prior collection without the records whose identity is `id`: the other
records are kept, each as often as before and in their order, no record of
identity `id` is left, and a second `delete(id)` changes nothing. -/
theorem delete_removes_all_matching (id : JSVal) (prev : Data) :
    (RemovedAll "UserID" id prev.users (deleteUser id prev).users ∧
      deleteUser id (deleteUser id prev) = deleteUser id prev) ∧
    (RemovedAll "PackageID" id prev.travelPackages (deleteTravelPackage id prev).travelPackages ∧
      deleteTravelPackage id (deleteTravelPackage id prev) = deleteTravelPackage id prev) ∧
    (RemovedAll "BookingID" id prev.bookings (deleteBooking id prev).bookings ∧
      deleteBooking id (deleteBooking id prev) = deleteBooking id prev) ∧
    (RemovedAll "ReviewID" id prev.reviews (deleteReview id prev).reviews ∧
      deleteReview id (deleteReview id prev) = deleteReview id prev) ∧
    (RemovedAll "RequestID" id prev.assistanceRequests
        (deleteAssistanceRequest id prev).assistanceRequests ∧
      deleteAssistanceRequest id (deleteAssistanceRequest id prev) =
        deleteAssistanceRequest id prev) := by
  refine ⟨⟨removedAll_filter _ _ _, ?_⟩, ⟨removedAll_filter _ _ _, ?_⟩,
    ⟨removedAll_filter _ _ _, ?_⟩, ⟨removedAll_filter _ _ _, ?_⟩,
    ⟨removedAll_filter _ _ _, ?_⟩⟩
  · simp only [deleteUser, filter_delete_idem]
  · simp only [deleteTravelPackage, filter_delete_idem]
  · simp only [deleteBooking, filter_delete_idem]
  · simp only [deleteReview, filter_delete_idem]
  · simp only [deleteAssistanceRequest, filter_delete_idem]

/-! ## Payment: the new payment and the back-reference -/

/-- The bookings after the store calls of a successful payment: each booking of
the identity `id` has the field `PaymentID` set, the others are as they were. -/
theorem updateBooking_paymentId (id v : JSVal) (f : Data → Data) (data : Data)
    (hf : (f data).bookings = data.bookings) :
    (updateBooking id (Obj.ofList [("PaymentID", v)]) (f data)).bookings =
      data.bookings.map (fun x =>
        if strictEq (Obj.get x "BookingID") id then Obj.set x "PaymentID" v else x) := by
  simp only [updateBooking, hf]
  apply List.map_congr_left
  intro x _
  rw [spread_single]

/-- What a map that sets `PaymentID` on the bookings of the identity `id` does:
the length stays, each booking of that identity gets the value and keeps its
other fields, each other booking stays, and with pairwise distinct identities it
is one position that changes. -/
theorem links_of_map (before after : List Obj) (id v : JSVal)
    (h : after = before.map (fun x =>
      if strictEq (Obj.get x "BookingID") id then Obj.set x "PaymentID" v else x)) :
    after.length = before.length ∧
    (∀ (j : Nat) (x : Obj), before[j]? = some x →
      strictEq (Obj.get x "BookingID") id = true →
      ∃ x', after[j]? = some x' ∧ Obj.get x' "PaymentID" = v ∧
        ∀ k, k ≠ "PaymentID" → Obj.get x' k = Obj.get x k) ∧
    (∀ (j : Nat) (x : Obj), before[j]? = some x →
      strictEq (Obj.get x "BookingID") id = false → after[j]? = some x) ∧
    (UniqueIds "BookingID" before → ∀ (i : Nat) (r : Obj), before[i]? = some r →
      strictEq (Obj.get r "BookingID") id = true →
      FieldUpdatedAt before after i r "PaymentID" v) := by
  subst h
  refine ⟨List.length_map _ _, ?_, ?_, ?_⟩
  · intro j x hj hid
    refine ⟨Obj.set x "PaymentID" v, ?_, Obj.get_set_self _ _ _, ?_⟩
    · rw [List.getElem?_map, hj]
      simp [hid]
    · intro k hk
      exact Obj.get_set_ne _ _ _ _ hk
  · intro j x hj hid
    rw [List.getElem?_map, hj]
    simp [hid]
  · intro huniq i r hi hid
    have hm : before.map (fun x =>
        if strictEq (Obj.get x "BookingID") id then Obj.set x "PaymentID" v else x) =
        before.map (fun u =>
          if strictEq (Obj.get u "BookingID") id then
            Obj.spread (Obj.spread Obj.empty u) (Obj.ofList [("PaymentID", v)])
          else u) := by
      apply List.map_congr_left
      intro x _
      rw [spread_single]
    rw [hm, map_update_eq_set "BookingID" id (Obj.ofList [("PaymentID", v)]) before i r huniq
      hi hid, spread_single]
    exact fieldUpdatedAt_set before i r "PaymentID" v hi

/-- C22 fails as stated in two ways.  Over `twinBookingData` the third and the
fourth booking share the identity 4 and the latest booking of user 1 is the
fourth: the payment succeeds, and the third booking, which is not the user's, is
changed as well, it gets the `PaymentID` of the new payment.  Over `bookedData`
with a package of price `2^53` and an insurance of price 1, the `Amount` of the
new payment is `2^53`, the double nearest to the sum, and not the sum. -/
theorem payment_links_counterexample :
    (handlePaymentSubmit none sampleCustomer twinBookingData twinDashboard).1 =
      .success "🎉 Payment successful! Your booking has been confirmed." ∧
    twinDashboard.userBookings ≠ [] ∧ twinBookingData.payments ≠ [] ∧
    twinDashboard.userBookings.getLast? = twinBookingData.bookings[3]? ∧
    twinBookingData.bookings[2]? ≠ twinBookingData.bookings[3]? ∧
    ((handlePaymentSubmit none sampleCustomer twinBookingData twinDashboard).2.2
        twinBookingData).bookings[2]? ≠ twinBookingData.bookings[2]? ∧
    (((handlePaymentSubmit none sampleCustomer twinBookingData twinDashboard).2.2
        twinBookingData).bookings[2]?.map (fun x => Obj.get x "PaymentID")) =
      some (.num (.int 4)) ∧
    (twinBookingData.bookings[2]?.map (fun x => Obj.get x "PaymentID")) = some .undefined ∧
    (handlePaymentSubmit none sampleCustomer bookedData largePriceDashboard).1 =
      .success "🎉 Payment successful! Your booking has been confirmed." ∧
    (((handlePaymentSubmit none sampleCustomer bookedData largePriceDashboard).2.2
        bookedData).payments.getLast?.map (fun p => Obj.get p "Amount")) =
      some (.num (.int 9007199254740992)) := by
  decide

/-- C22, amended: when `handlePaymentSubmit` succeeds, a package was selected and
the booking list has a last record `b`, and the store then holds one new payment
`p`, last in the payments, with `BookingID` the identity of `b`, `UserID` the
current user's and `Amount` the value of `Price + insurance price` (0 if none):
for integer prices the double nearest to their sum, which is the sum when that
is at most `2^53` in magnitude.  Every store booking that has the identity of
`b` has `PaymentID` equal to that of `p` and its other fields as before, every
booking of another identity is as before, and the number of bookings is as
before; when the identities of the store bookings are pairwise distinct, the
booking of the identity of `b` is the only one that changes. -/
theorem payment_links_latest_booking (cardError : Option String) (currentUser : Obj)
    (data : Data) (d : Dashboard) (message : String)
    (hsucc : (handlePaymentSubmit cardError currentUser data d).1 = .success message) :
    ∃ pkg b p, d.selectedPackage = some pkg ∧ d.userBookings.getLast? = some b ∧
      ((handlePaymentSubmit cardError currentUser data d).2.2 data).payments =
        data.payments ++ [p] ∧
      Obj.get p "BookingID" = Obj.get b "BookingID" ∧
      Obj.get p "UserID" = Obj.get currentUser "UserID" ∧
      Obj.get p "Amount" = jsPlus (Obj.get pkg "Price")
        (match d.selectedInsurance with
          | some selectedInsurance => Obj.get selectedInsurance "price"
          | none => .num (.int 0)) ∧
      (∀ price ins : Int, Obj.get pkg "Price" = .num (.int price) →
        (match d.selectedInsurance with
          | some selectedInsurance => Obj.get selectedInsurance "price"
          | none => .num (.int 0)) = .num (.int ins) →
        Obj.get p "Amount" = .num (JSNum.ofInt (price + ins)) ∧
        ((price + ins).natAbs ≤ 9007199254740992 →
          Obj.get p "Amount" = .num (.int (price + ins)))) ∧
      ((handlePaymentSubmit cardError currentUser data d).2.2 data).bookings.length =
        data.bookings.length ∧
      (∀ (j : Nat) (x : Obj), data.bookings[j]? = some x →
        strictEq (Obj.get x "BookingID") (Obj.get b "BookingID") = true →
        ∃ x', ((handlePaymentSubmit cardError currentUser data d).2.2 data).bookings[j]? =
            some x' ∧
          Obj.get x' "PaymentID" = Obj.get p "PaymentID" ∧
          ∀ k, k ≠ "PaymentID" → Obj.get x' k = Obj.get x k) ∧
      (∀ (j : Nat) (x : Obj), data.bookings[j]? = some x →
        strictEq (Obj.get x "BookingID") (Obj.get b "BookingID") = false →
        ((handlePaymentSubmit cardError currentUser data d).2.2 data).bookings[j]? = some x) ∧
      (UniqueIds "BookingID" data.bookings → ∀ (i : Nat) (r : Obj), data.bookings[i]? = some r →
        strictEq (Obj.get r "BookingID") (Obj.get b "BookingID") = true →
        FieldUpdatedAt data.bookings
          ((handlePaymentSubmit cardError currentUser data d).2.2 data).bookings i r
          "PaymentID" (Obj.get p "PaymentID")) := by
  cases cardError with
  | some e => simp [handlePaymentSubmit] at hsucc
  | none =>
    cases hpkg : d.selectedPackage with
    | none => simp [handlePaymentSubmit, hpkg] at hsucc
    | some pkg =>
      cases hlast : d.userBookings.getLast? with
      | none => simp [handlePaymentSubmit, hpkg, hlast] at hsucc
      | some b =>
        simp only [handlePaymentSubmit, hpkg, hlast]
        refine ⟨pkg, b, _, rfl, rfl, rfl, Obj.get_spread_of_has _ _ _ rfl,
          Obj.get_spread_of_has _ _ _ rfl, Obj.get_spread_of_has _ _ _ rfl, ?_,
          links_of_map _ _ _ _ (updateBooking_paymentId _ _ _ data rfl)⟩
        intro price ins hprice hins
        have hamount : Obj.get (addPayment data (Obj.ofList [
            ("UserID", Obj.get currentUser "UserID"),
            ("BookingID", Obj.get b "BookingID"),
            ("Amount", jsPlus (Obj.get pkg "Price")
              (match d.selectedInsurance with
                | some selectedInsurance => Obj.get selectedInsurance "price"
                | none => .num (.int 0))),
            ("Status", .str "completed"),
            ("PaymentMethod", .str "Credit Card")])).1 "Amount" =
            .num (JSNum.ofInt (price + ins)) := by
          refine Eq.trans (Obj.get_spread_of_has _ _ _ rfl) ?_
          show jsPlus (Obj.get pkg "Price")
            (match d.selectedInsurance with
              | some selectedInsurance => Obj.get selectedInsurance "price"
              | none => .num (.int 0)) = _
          rw [hprice, hins]
          rfl
        refine ⟨hamount, fun hsum => ?_⟩
        rw [← JSNum.ofInt_exact (price + ins) hsum]
        exact hamount

/-- C22, amended, on the dashboard of user 1 over `bookedData`: the payment is
the third one, of amount 550 for booking 4 and user 1, and the third booking,
the only one of identity 4, gets 4 as `PaymentID`. -/
theorem payment_links_latest_booking_witness :
    (∃ pkg b p, bookedDashboard.selectedPackage = some pkg ∧
      bookedDashboard.userBookings.getLast? = some b ∧
      ((handlePaymentSubmit none sampleCustomer bookedData bookedDashboard).2.2
        bookedData).payments = bookedData.payments ++ [p] ∧
      Obj.get p "BookingID" = Obj.get b "BookingID" ∧
      Obj.get p "UserID" = Obj.get sampleCustomer "UserID" ∧
      Obj.get p "Amount" = jsPlus (Obj.get pkg "Price")
        (match bookedDashboard.selectedInsurance with
          | some selectedInsurance => Obj.get selectedInsurance "price"
          | none => .num (.int 0)) ∧
      (∀ price ins : Int, Obj.get pkg "Price" = .num (.int price) →
        (match bookedDashboard.selectedInsurance with
          | some selectedInsurance => Obj.get selectedInsurance "price"
          | none => .num (.int 0)) = .num (.int ins) →
        Obj.get p "Amount" = .num (JSNum.ofInt (price + ins)) ∧
        ((price + ins).natAbs ≤ 9007199254740992 →
          Obj.get p "Amount" = .num (.int (price + ins)))) ∧
      ((handlePaymentSubmit none sampleCustomer bookedData bookedDashboard).2.2
        bookedData).bookings.length = bookedData.bookings.length ∧
      (∀ (j : Nat) (x : Obj), bookedData.bookings[j]? = some x →
        strictEq (Obj.get x "BookingID") (Obj.get b "BookingID") = true →
        ∃ x', ((handlePaymentSubmit none sampleCustomer bookedData bookedDashboard).2.2
            bookedData).bookings[j]? = some x' ∧
          Obj.get x' "PaymentID" = Obj.get p "PaymentID" ∧
          ∀ k, k ≠ "PaymentID" → Obj.get x' k = Obj.get x k) ∧
      (∀ (j : Nat) (x : Obj), bookedData.bookings[j]? = some x →
        strictEq (Obj.get x "BookingID") (Obj.get b "BookingID") = false →
        ((handlePaymentSubmit none sampleCustomer bookedData bookedDashboard).2.2
          bookedData).bookings[j]? = some x) ∧
      (UniqueIds "BookingID" bookedData.bookings →
        ∀ (i : Nat) (r : Obj), bookedData.bookings[i]? = some r →
        strictEq (Obj.get r "BookingID") (Obj.get b "BookingID") = true →
        FieldUpdatedAt bookedData.bookings
          ((handlePaymentSubmit none sampleCustomer bookedData bookedDashboard).2.2
            bookedData).bookings i r "PaymentID" (Obj.get p "PaymentID"))) ∧
    (((handlePaymentSubmit none sampleCustomer bookedData bookedDashboard).2.2
        bookedData).payments.getLast?.map (fun p => Obj.get p "Amount")) =
      some (.num (.int 550)) ∧
    (((handlePaymentSubmit none sampleCustomer bookedData bookedDashboard).2.2
        bookedData).bookings.map (fun x => Obj.get x "PaymentID")) =
      [.undefined, .undefined, .num (.int 4)] :=
  ⟨payment_links_latest_booking none sampleCustomer bookedData bookedDashboard
    "🎉 Payment successful! Your booking has been confirmed." (by decide), by decide, by decide⟩

/-! ## Profile -/

theorem profile_get_other (c : Obj) (f : ProfileForm) (k : String) (h1 : k ≠ "Name")
    (h2 : k ≠ "Email") (h3 : k ≠ "ContactNumber") (h4 : k ≠ "Password") :
    Obj.get (profileUpdatedUser c f) k = Obj.get c k := by
  unfold profileUpdatedUser
  cases truthy f.password with
  | true =>
    simp only [if_true]
    rw [Obj.get_set_ne _ _ _ _ h4, Obj.get_set_ne _ _ _ _ h3, Obj.get_set_ne _ _ _ _ h2,
      Obj.get_set_ne _ _ _ _ h1, Obj.spread_empty]
  | false =>
    simp only [Bool.false_eq_true, if_false]
    rw [Obj.get_set_ne _ _ _ _ h3, Obj.get_set_ne _ _ _ _ h2, Obj.get_set_ne _ _ _ _ h1,
      Obj.spread_empty]

theorem profile_get_form (c : Obj) (f : ProfileForm) :
    Obj.get (profileUpdatedUser c f) "Name" = f.name ∧
    Obj.get (profileUpdatedUser c f) "Email" = f.email ∧
    Obj.get (profileUpdatedUser c f) "ContactNumber" = f.contactNumber := by
  unfold profileUpdatedUser
  cases truthy f.password with
  | true =>
    simp only [if_true]
    refine ⟨?_, ?_, ?_⟩
    · rw [Obj.get_set_ne _ _ _ _ (by decide), Obj.get_set_ne _ _ _ _ (by decide),
        Obj.get_set_ne _ _ _ _ (by decide), Obj.get_set_self]
    · rw [Obj.get_set_ne _ _ _ _ (by decide), Obj.get_set_ne _ _ _ _ (by decide),
        Obj.get_set_self]
    · rw [Obj.get_set_ne _ _ _ _ (by decide), Obj.get_set_self]
  | false =>
    simp only [Bool.false_eq_true, if_false]
    refine ⟨?_, ?_, ?_⟩
    · rw [Obj.get_set_ne _ _ _ _ (by decide), Obj.get_set_ne _ _ _ _ (by decide),
        Obj.get_set_self]
    · rw [Obj.get_set_ne _ _ _ _ (by decide), Obj.get_set_self]
    · rw [Obj.get_set_self]

theorem profile_get_password (c : Obj) (f : ProfileForm) :
    (truthy f.password = true → Obj.get (profileUpdatedUser c f) "Password" = f.password) ∧
    (truthy f.password = false →
      Obj.get (profileUpdatedUser c f) "Password" = Obj.get c "Password") := by
  unfold profileUpdatedUser
  refine ⟨?_, ?_⟩
  · intro h
    simp only [h, if_true]
    rw [Obj.get_set_self]
  · intro h
    simp only [h, Bool.false_eq_true, if_false]
    rw [Obj.get_set_ne _ _ _ _ (by decide), Obj.get_set_ne _ _ _ _ (by decide),
      Obj.get_set_ne _ _ _ _ (by decide), Obj.spread_empty]

theorem handleSubmit_match (c : Obj) (f : ProfileForm) (s : Session)
    (h : strictEq f.password f.confirmPassword = true) :
    (handleSubmit c f s).session = Auth.updateUser (profileUpdatedUser c f) s ∧
    (handleSubmit c f s).storeUpdate =
      updateUser (Obj.get (profileUpdatedUser c f) "UserID") (profileUpdatedUser c f) := by
  simp [handleSubmit, h]

theorem handleSubmit_mismatch (c : Obj) (f : ProfileForm) (s : Session)
    (h : strictEq f.password f.confirmPassword = false) :
    (handleSubmit c f s).session = s ∧
    (handleSubmit c f s).storeUpdate = fun prev => prev := by
  simp [handleSubmit, h]

/-- C27 fails when a new password is entered: with `new` in both password fields
the session principal has `Password` `new`, not the `old` of the current
principal. -/
theorem profile_submit_counterexample :
    Obj.get sampleCustomer "Password" = .str "old" ∧
    strictEq newPasswordForm.password newPasswordForm.confirmPassword = true ∧
    (handleSubmit sampleCustomer newPasswordForm anonymousSession).session.currentUser =
      .record (Obj.ofList [("UserID", .num (.int 1)), ("Name", .str "Ann B"),
        ("Email", .str "ann@y.com"), ("Password", .str "new"), ("Role", .str "customer"),
        ("ContactNumber", .str "555")]) := by
  decide

/-- C27, amended: when the two password fields are equal, `handleSubmit` makes
the session principal a record `p` with `Name`, `Email` and `ContactNumber` of the
form, with `Password` of the form when that is non-empty and of the current
principal `c` otherwise, and with `UserID`, `Role` and every other field of `c`;
every record of the users collection that has the `UserID` of `c` then agrees
with `p` on every field of `p`, and the other records are as before.  When the
two password fields differ, neither the session nor the store changes. -/
theorem profile_submit_consistent (c : Obj) (f : ProfileForm) (s : Session) (prev : Data)
    (i : Nat) (r : Obj) :
    (strictEq f.password f.confirmPassword = true →
      ∃ p, (handleSubmit c f s).session.currentUser = .record p ∧
        Obj.get p "Name" = f.name ∧ Obj.get p "Email" = f.email ∧
        Obj.get p "ContactNumber" = f.contactNumber ∧
        (∀ k, k ≠ "Name" → k ≠ "Email" → k ≠ "ContactNumber" → k ≠ "Password" →
          Obj.get p k = Obj.get c k) ∧
        (truthy f.password = true → Obj.get p "Password" = f.password) ∧
        (truthy f.password = false → Obj.get p "Password" = Obj.get c "Password")) ∧
    (strictEq f.password f.confirmPassword = true →
      ∀ p, (handleSubmit c f s).session.currentUser = .record p →
        prev.users[i]? = some r → strictEq (Obj.get r "UserID") (Obj.get c "UserID") = true →
        ∃ r', ((handleSubmit c f s).storeUpdate prev).users[i]? = some r' ∧
          ∀ k, Obj.has p k = true → Obj.get r' k = Obj.get p k) ∧
    (strictEq f.password f.confirmPassword = true →
      prev.users[i]? = some r → strictEq (Obj.get r "UserID") (Obj.get c "UserID") = false →
        ((handleSubmit c f s).storeUpdate prev).users[i]? = some r) ∧
    (strictEq f.password f.confirmPassword = false →
      (handleSubmit c f s).session = s ∧ (handleSubmit c f s).storeUpdate prev = prev) := by
  have hidp : Obj.get (profileUpdatedUser c f) "UserID" = Obj.get c "UserID" :=
    profile_get_other c f "UserID" (by decide) (by decide) (by decide) (by decide)
  refine ⟨?_, ?_, ?_, ?_⟩
  · intro h
    obtain ⟨hs, _⟩ := handleSubmit_match c f s h
    exact ⟨profileUpdatedUser c f, by rw [hs]; rfl, (profile_get_form c f).1,
      (profile_get_form c f).2.1, (profile_get_form c f).2.2,
      fun k h1 h2 h3 h4 => profile_get_other c f k h1 h2 h3 h4,
      (profile_get_password c f).1, (profile_get_password c f).2⟩
  · intro h p hp hi hid
    obtain ⟨hs, hu⟩ := handleSubmit_match c f s h
    rw [hs] at hp
    simp only [Auth.updateUser, Principal.record.injEq] at hp
    subst hp
    refine ⟨Obj.spread (Obj.spread Obj.empty r) (profileUpdatedUser c f), ?_, ?_⟩
    · rw [hu]
      simp only [updateUser, List.getElem?_map, hi, Option.map_some', hidp, hid, if_true]
    · intro k hk
      exact Obj.get_spread_of_has _ _ k hk
  · intro h hi hid
    obtain ⟨_, hu⟩ := handleSubmit_match c f s h
    rw [hu]
    simp only [updateUser, List.getElem?_map, hi, Option.map_some', hidp, hid,
      Bool.false_eq_true, if_false]
  · intro h
    obtain ⟨hs, hu⟩ := handleSubmit_mismatch c f s h
    exact ⟨hs, by rw [hu]⟩

/-- C27, amended, for the customer of the store `agentData`: the new name is in
the session and in the store record of the customer, the agent's record is as
before, and differing password fields change nothing. -/
theorem profile_submit_consistent_witness :
    (∃ p, (handleSubmit sampleCustomer blankPasswordForm anonymousSession).session.currentUser
          = .record p ∧
        Obj.get p "Name" = blankPasswordForm.name ∧ Obj.get p "Email" = blankPasswordForm.email ∧
        Obj.get p "ContactNumber" = blankPasswordForm.contactNumber ∧
        (∀ k, k ≠ "Name" → k ≠ "Email" → k ≠ "ContactNumber" → k ≠ "Password" →
          Obj.get p k = Obj.get sampleCustomer k) ∧
        (truthy blankPasswordForm.password = true →
          Obj.get p "Password" = blankPasswordForm.password) ∧
        (truthy blankPasswordForm.password = false →
          Obj.get p "Password" = Obj.get sampleCustomer "Password")) ∧
    (∃ r', ((handleSubmit sampleCustomer blankPasswordForm
          anonymousSession).storeUpdate agentData).users[0]? = some r' ∧
        ∀ k, Obj.has (profileUpdatedUser sampleCustomer blankPasswordForm) k = true →
          Obj.get r' k = Obj.get (profileUpdatedUser sampleCustomer blankPasswordForm) k) ∧
    ((handleSubmit sampleCustomer blankPasswordForm
        anonymousSession).storeUpdate agentData).users[1]? = some pendingAgent ∧
    ((handleSubmit sampleCustomer mismatchForm anonymousSession).session = anonymousSession ∧
      (handleSubmit sampleCustomer mismatchForm anonymousSession).storeUpdate agentData =
        agentData) ∧
    ((handleSubmit sampleCustomer blankPasswordForm anonymousSession).storeUpdate
        agentData).users.map (fun u => Obj.get u "Name") = [.str "Ann B", .str "Bo"] :=
  ⟨(profile_submit_consistent sampleCustomer blankPasswordForm anonymousSession agentData 0
      sampleCustomer).1 (by decide),
   (profile_submit_consistent sampleCustomer blankPasswordForm anonymousSession agentData 0
      sampleCustomer).2.1 (by decide) _ (by decide) (by decide) (by decide),
   (profile_submit_consistent sampleCustomer blankPasswordForm anonymousSession agentData 1
      pendingAgent).2.2.1 (by decide) (by decide) (by decide),
   (profile_submit_consistent sampleCustomer mismatchForm anonymousSession agentData 0
      sampleCustomer).2.2.2 (by decide),
   by decide⟩

/-- C28: with both password fields empty, the session principal after
`handleSubmit` has the `Password` the current principal had; with the same
non-empty password in both fields, it has that password. -/
theorem profile_password_kept_or_set (c : Obj) (f : ProfileForm) (s : Session) :
    (f.password = .str "" → f.confirmPassword = .str "" →
      ∃ p, (handleSubmit c f s).session.currentUser = .record p ∧
        Obj.get p "Password" = Obj.get c "Password") ∧
    (∀ pw : String, pw ≠ "" → f.password = .str pw → f.confirmPassword = .str pw →
      ∃ p, (handleSubmit c f s).session.currentUser = .record p ∧
        Obj.get p "Password" = .str pw) := by
  refine ⟨?_, ?_⟩
  · intro h1 h2
    have hm : strictEq f.password f.confirmPassword = true := by rw [h1, h2]; rfl
    obtain ⟨hs, _⟩ := handleSubmit_match c f s hm
    refine ⟨profileUpdatedUser c f, by rw [hs]; rfl, ?_⟩
    exact (profile_get_password c f).2 (by rw [h1]; rfl)
  · intro pw hpw h1 h2
    have hm : strictEq f.password f.confirmPassword = true := by
      rw [h1, h2]; simp [strictEq]
    obtain ⟨hs, _⟩ := handleSubmit_match c f s hm
    refine ⟨profileUpdatedUser c f, by rw [hs]; rfl, ?_⟩
    rw [(profile_get_password c f).1 (by rw [h1]; simp [truthy, hpw]), h1]

/-- C28 for the customer whose password is `old`: blank fields keep `old`, and
`new` entered twice gives `new`. -/
theorem profile_password_kept_or_set_witness :
    (∃ p, (handleSubmit sampleCustomer blankPasswordForm anonymousSession).session.currentUser
          = .record p ∧
        Obj.get p "Password" = Obj.get sampleCustomer "Password") ∧
    (∃ p, (handleSubmit sampleCustomer newPasswordForm anonymousSession).session.currentUser
          = .record p ∧
        Obj.get p "Password" = .str "new") ∧
    Obj.get sampleCustomer "Password" = .str "old" :=
  ⟨(profile_password_kept_or_set sampleCustomer blankPasswordForm anonymousSession).1 rfl rfl,
   (profile_password_kept_or_set sampleCustomer newPasswordForm anonymousSession).2 "new"
     (by decide) rfl rfl,
   by decide⟩

/-! ## The invariant of the session state machine -/

theorem flattenValue_spec (v w : JSVal) (h : flattenValue v = some w) :
    jsonValue w = jsonValue v ∧ jsonFlat w = true := by
  cases v with
  | undefined => simp [flattenValue] at h
  | null => simp only [flattenValue, Option.some.injEq] at h; subst h; exact ⟨rfl, rfl⟩
  | bool b => simp only [flattenValue, Option.some.injEq] at h; subst h; exact ⟨rfl, rfl⟩
  | str x => simp only [flattenValue, Option.some.injEq] at h; subst h; exact ⟨rfl, rfl⟩
  | num x =>
    cases x <;> simp only [flattenValue, Option.some.injEq] at h <;> subst h <;>
      exact ⟨rfl, rfl⟩

theorem flattenValue_none (v : JSVal) (h : flattenValue v = none) : jsonValue v = none := by
  cases v with
  | undefined => rfl
  | null => simp [flattenValue] at h
  | bool b => simp [flattenValue] at h
  | str x => simp [flattenValue] at h
  | num x => cases x <;> simp [flattenValue] at h

theorem jsonMembers_flattenProps (ps : Props) :
    jsonMembers (flattenProps ps) = jsonMembers ps := by
  induction ps with
  | nil => rfl
  | cons p rest ih =>
    obtain ⟨k, v⟩ := p
    cases hf : flattenValue v with
    | none =>
      simp only [flattenProps, hf, jsonMembers, flattenValue_none v hf]
      exact ih
    | some w =>
      simp only [flattenProps, hf, jsonMembers, (flattenValue_spec v w hf).1, ih]

theorem flattenProps_flat (ps : Props) : ∀ p ∈ flattenProps ps, jsonFlat p.2 = true := by
  induction ps with
  | nil => simp [flattenProps]
  | cons p rest ih =>
    obtain ⟨k, v⟩ := p
    cases hf : flattenValue v with
    | none =>
      simp only [flattenProps, hf]
      exact ih
    | some w =>
      simp only [flattenProps, hf, List.mem_cons]
      rintro q (rfl | hq)
      · exact (flattenValue_spec v w hf).2
      · exact ih q hq

theorem flattenProps_keys (ps : Props) :
    ((flattenProps ps).map Prod.fst).Sublist (ps.map Prod.fst) := by
  induction ps with
  | nil => exact List.Sublist.slnil
  | cons p rest ih =>
    obtain ⟨k, v⟩ := p
    cases hf : flattenValue v with
    | none =>
      simp only [flattenProps, hf, List.map_cons]
      exact List.Sublist.cons _ ih
    | some w =>
      simp only [flattenProps, hf, List.map_cons]
      exact List.Sublist.cons₂ _ ih

/-- The entry the Session Store writes for any record is read back as a record
whose own text is that entry. -/
theorem jsonParse_stringify_any (o : Obj) :
    ∃ o', jsonParse (jsonStringify o) = .value (.record o') ∧
      jsonStringify o' = jsonStringify o := by
  have hnd : ((flattenProps o.props).map Prod.fst).Nodup :=
    List.Nodup.sublist (flattenProps_keys o.props) o.nodup
  have hbody := parseObjectBody_jsonMembers (flattenProps o.props) (flattenProps_flat o.props)
  rw [jsonMembers_flattenProps] at hbody
  refine ⟨Obj.ofList (flattenProps o.props), ?_, ?_⟩
  · unfold jsonParse jsonStringify
    simp only []
    rw [skipWs_cons (Char.ofNat 123) _ (by decide)]
    simp only []
    rw [if_pos (by decide)]
    simp only [hbody, skipWs, if_true]
  · have hprops : (Obj.ofList (flattenProps o.props)).props = flattenProps o.props := by
      show Props.spread [] (flattenProps o.props) = flattenProps o.props
      rw [Props.spread_nil_left _ [] hnd (by simp)]
      simp
    unfold jsonStringify
    rw [hprops, jsonMembers_flattenProps]

theorem sessionInv_initialize (stored : Option String)
    (h : stored = none ∨ ∃ u, stored = some (jsonStringify u)) :
    ∃ s₀, Auth.initialize stored = .completed s₀ ∧ SessionInv s₀ := by
  rcases h with h | ⟨u, h⟩
  · subst h
    exact ⟨_, rfl, by decide⟩
  · subst h
    obtain ⟨o', hparse, htext⟩ := jsonParse_stringify_any u
    refine ⟨{ currentUser := .record o', isAuthenticated := true,
              storage := some (jsonStringify u) }, ?_, ?_⟩
    · unfold Auth.initialize Auth.restore
      simp only [jsonStringify_ne_empty u, if_false, hparse]
    · refine ⟨by simp, by simp, ?_⟩
      intro _
      simp [Principal.stringify, htext]

theorem sessionInv_step (c : SessionCall) (s : Session) (hinv : SessionInv s)
    (hok : c.allowed s = true) : SessionInv (c.apply s) := by
  cases c with
  | login email password allUsers =>
    cases hfind : allUsers.find? (fun u =>
        strictEq (Obj.get u "Email") email && strictEq (Obj.get u "Password") password) with
    | none =>
      simp only [SessionCall.apply, login_of_find_none _ _ _ _ hfind]
      exact hinv
    | some w =>
      simp only [SessionCall.apply, login_of_find_some _ _ _ _ w hfind]
      exact ⟨by simp, by simp, fun _ => rfl⟩
  | logout =>
    exact ⟨by simp [SessionCall.apply, Auth.logout], by simp [SessionCall.apply, Auth.logout],
      by simp [SessionCall.apply, Auth.logout]⟩
  | updateUser updatedUser =>
    have hauth : s.isAuthenticated = true := hok
    exact ⟨by simp [SessionCall.apply, Auth.updateUser, hauth],
      by simp [SessionCall.apply, Auth.updateUser, hauth], fun _ => rfl⟩

theorem sessionInv_run (calls : List SessionCall) (s : Session) (hinv : SessionInv s)
    (hok : allAllowed calls s = true) : SessionInv (runSession calls s) := by
  induction calls generalizing s with
  | nil => exact hinv
  | cons c rest ih =>
    simp only [allAllowed, Bool.and_eq_true] at hok
    exact ih (c.apply s) (sessionInv_step c s hinv hok.1) hok.2

/-- C24 fails for some stored entries: initialization over the text `null` ends
authenticated with a `null` principal; over a record text written with spaces it
ends with a stored entry that is not the text of the principal; over the empty
string it ends anonymous with the key present.  A failed `login` leaves each of
these states as it is. -/
theorem session_invariant_counterexample :
    Auth.initialize (some "null") =
      .completed { currentUser := .prim .null, isAuthenticated := true,
                   storage := some "null" } ∧
    ¬ SessionInv (runSession [.login (.str "a@x.com") (.str "wrong") scenarioPool]
      { currentUser := .prim .null, isAuthenticated := true, storage := some "null" }) ∧
    Auth.initialize (some "\x7b \"UserID\": 1 \x7d") =
      .completed { currentUser := .record (Obj.ofList [("UserID", .num (.int 1))]),
                   isAuthenticated := true, storage := some "\x7b \"UserID\": 1 \x7d" } ∧
    ¬ SessionInv { currentUser := .record (Obj.ofList [("UserID", .num (.int 1))]),
                   isAuthenticated := true, storage := some "\x7b \"UserID\": 1 \x7d" } ∧
    Auth.initialize (some "") =
      .completed { currentUser := .prim .null, isAuthenticated := false,
                   storage := some "" } ∧
    ¬ SessionInv { currentUser := .prim .null, isAuthenticated := false,
                   storage := some "" } := by
  decide

/-- C24, amended: when the stored entry at initialization is absent or is the
text the Session Store wrote for a record, initialization completes, and in the
state after any finite sequence of `login`, `logout` and `updateUser` calls, the
last made only while authenticated, the authenticated flag is true exactly when
the principal is not `null`, the stored key is present exactly when the flag is
true, and it then holds the JSON text of the principal. -/
theorem session_invariant (stored : Option String)
    (hstored : stored = none ∨ ∃ u, stored = some (jsonStringify u))
    (calls : List SessionCall) :
    (∃ s₀, Auth.initialize stored = .completed s₀) ∧
    ∀ s₀, Auth.initialize stored = .completed s₀ → allAllowed calls s₀ = true →
      SessionInv (runSession calls s₀) := by
  obtain ⟨s₁, hinit, hinv⟩ := sessionInv_initialize stored hstored
  refine ⟨⟨s₁, hinit⟩, ?_⟩
  intro s₀ h₀ hok
  rw [hinit] at h₀
  simp only [RestoreResult.completed.injEq] at h₀
  subst h₀
  exact sessionInv_run calls s₁ hinv hok

/-- C24, amended, on two runs: from no stored entry through a failed login, a
login, an update and a logout; and from the entry stored for the customer through
an update. -/
theorem session_invariant_witness :
    SessionInv (runSession [.login (.str "a@x.com") (.str "wrong") scenarioPool,
      .login (.str "a@x.com") (.str "pw") scenarioPool, .updateUser sampleCustomer,
      .logout] anonymousSession) ∧
    SessionInv (runSession [.updateUser pendingAgent]
      { currentUser := .record sampleCustomer, isAuthenticated := true,
        storage := some (jsonStringify sampleCustomer) }) ∧
    (runSession [.updateUser pendingAgent]
      { currentUser := .record sampleCustomer, isAuthenticated := true,
        storage := some (jsonStringify sampleCustomer) }).currentUser = .record pendingAgent :=
  ⟨(session_invariant none (Or.inl rfl) _).2 anonymousSession (by decide) (by decide),
   (session_invariant (some (jsonStringify sampleCustomer)) (Or.inr ⟨sampleCustomer, rfl⟩)
      _).2 _ (by decide) (by decide),
   by decide⟩

end TPBS
